import Mathlib

/-!
# system-monitor: sample cache, delta engine, CPU usage, detectors and readers

A shallow embedding of the counter arithmetic, of the per-resource
previous-sample state and of the `/proc` readers and device detectors of
`src/metrics.c` and `src/expose_metrics.c`.

Modelling conventions.

* `unsigned long` and `unsigned long long` are 64-bit: a counter is a `Nat`
  below `2 ^ 64`, and every C addition or subtraction of counters is taken
  modulo `2 ^ 64` (`add64`, `sub64`).
* `double` values are modelled by exact rationals (`ℚ`): the conversion of an
  integer to `double` and the four operations are taken without rounding, and
  the non-finite values of IEEE arithmetic are not represented.
* `time_t` is an `Int`.
* A C function that fills an output struct through a pointer takes the previous
  content of that struct as an argument and returns the new content.
* Function-local `static` variables become an explicit state record; what a
  polling cycle reads from the outside world (the clock, the result of a
  `/proc` reader) is an explicit input of the cycle.
* `prom_gauge_set (g, v, NULL)` is recorded as the pair `(g, v)` in the list of
  gauge writes a cycle returns, in program order.
* The content of a `/proc` file is the list of strings successive `fgets` calls
  return, `none` when the file cannot be opened; a `char *` result is an
  `Option String`, `none` for `NULL`.
-/

namespace SystemMonitor

/-! ## Machine integers -/

/-- Number of values of a 64-bit unsigned integer. -/
def U64_MOD : Nat := 2 ^ 64

/-- Unsigned 64-bit addition `a + b`. -/
def add64 (a b : Nat) : Nat := (a + b) % U64_MOD

/-- Unsigned 64-bit subtraction `a - b` (for operands below `2 ^ 64`). -/
def sub64 (a b : Nat) : Nat := (a + U64_MOD - b % U64_MOD) % U64_MOD

/-! ## Constants of `metrics.c` / `expose_metrics.c` -/

def PERCENTAGE_MULTIPLIER : ℚ := 100
def MILLISECONDS_TO_SECONDS : ℚ := 1000
def ERROR_VALUE_DOUBLE : ℚ := -1
def ZERO_VALUE_DOUBLE : ℚ := 0
def NO_BYTES : Nat := 0
def NO_PACKETS : Nat := 0
def NO_PROCESSES : Nat := 0
/-- The value `SUCCESS` (0) the `time_t` baselines are initialised with and compared to. -/
def SUCCESS : Int := 0

/-! ## Data model (`metrics.h`) -/

/-- Counters of one row of the disk table (`disk_stats_t`). -/
structure disk_stats_t where
  device_name : String
  reads_completed : Nat
  reads_merged : Nat
  sectors_read : Nat
  time_reading : Nat
  writes_completed : Nat
  writes_merged : Nat
  sectors_written : Nat
  time_writing : Nat
  ios_in_progress : Nat
  time_io : Nat
  weighted_time_io : Nat
deriving DecidableEq, Repr

/-- Counters of one network interface (`network_interface_stats_t`). -/
structure network_interface_stats_t where
  interface_name : String
  rx_bytes : Nat
  rx_packets : Nat
  rx_errors : Nat
  rx_dropped : Nat
  tx_bytes : Nat
  tx_packets : Nat
  tx_errors : Nat
  tx_dropped : Nat
deriving DecidableEq, Repr

/-- Process census (`process_stats_t`). -/
structure process_stats_t where
  total_processes : Nat
  running_processes : Nat
  sleeping_processes : Nat
  stopped_processes : Nat
  zombie_processes : Nat
deriving DecidableEq, Repr

/-- Context-switch counters (`context_stats_t`). -/
structure context_stats_t where
  context_switches : Nat
  processes_created : Nat
  interrupts : Nat
  soft_interrupts : Nat
deriving DecidableEq, Repr

/-- Derived disk metrics (`disk_health_metrics_t`). -/
structure disk_health_metrics_t where
  read_rate : ℚ
  write_rate : ℚ
  io_utilization : ℚ
  avg_wait_time : ℚ
  queue_depth : ℚ
deriving DecidableEq

/-- Derived network metrics (`network_metrics_t`). -/
structure network_metrics_t where
  rx_rate_bps : ℚ
  tx_rate_bps : ℚ
  rx_packet_rate : ℚ
  tx_packet_rate : ℚ
  rx_error_rate : ℚ
  tx_error_rate : ℚ
  total_bandwidth_usage : ℚ
deriving DecidableEq

/-- Derived system performance metrics (`system_performance_metrics_t`). -/
structure system_performance_metrics_t where
  context_switch_rate : ℚ
  process_creation_rate : ℚ
  interrupt_rate : ℚ
  process_load_ratio : ℚ
deriving DecidableEq

/-- The eight counters of the `cpu` line of `/proc/stat`, as `get_cpu_usage`
parses them (and as it keeps them in its `prev_*` statics). -/
structure cpu_counters where
  user : Nat
  nice : Nat
  system : Nat
  idle : Nat
  iowait : Nat
  irq : Nat
  softirq : Nat
  steal : Nat
deriving DecidableEq, Repr

/-! ## Delta engine (`metrics.c`) -/

/-- `calculate_disk_health (current, previous, time_delta, health)`; the last
argument is the content of `*health` before the call. -/
def calculate_disk_health (current previous : disk_stats_t) (time_delta : ℚ)
    (health : disk_health_metrics_t) : disk_health_metrics_t :=
  let read_rate : ℚ := (sub64 current.reads_completed previous.reads_completed : ℚ) / time_delta
  let write_rate : ℚ := (sub64 current.writes_completed previous.writes_completed : ℚ) / time_delta
  let io_time_delta : Nat := sub64 current.time_io previous.time_io
  let io_utilization : ℚ :=
    ((io_time_delta : ℚ) / (time_delta * MILLISECONDS_TO_SECONDS)) * PERCENTAGE_MULTIPLIER
  let total_ios : Nat :=
    sub64 (add64 current.reads_completed current.writes_completed)
      (add64 previous.reads_completed previous.writes_completed)
  let avg_wait_time : ℚ :=
    if total_ios > NO_BYTES then (io_time_delta : ℚ) / (total_ios : ℚ) else health.avg_wait_time
  { read_rate := read_rate
    write_rate := write_rate
    io_utilization := io_utilization
    avg_wait_time := avg_wait_time
    queue_depth := (current.ios_in_progress : ℚ) }

/-- `calculate_network_metrics (current, previous, time_delta, metrics)`; the
last argument is the content of `*metrics` before the call (every field is
overwritten). -/
def calculate_network_metrics (current previous : network_interface_stats_t) (time_delta : ℚ)
    (_metrics : network_metrics_t) : network_metrics_t :=
  let rx_rate_bps : ℚ := (sub64 current.rx_bytes previous.rx_bytes : ℚ) / time_delta
  let tx_rate_bps : ℚ := (sub64 current.tx_bytes previous.tx_bytes : ℚ) / time_delta
  let rx_packet_rate : ℚ := (sub64 current.rx_packets previous.rx_packets : ℚ) / time_delta
  let tx_packet_rate : ℚ := (sub64 current.tx_packets previous.tx_packets : ℚ) / time_delta
  let rx_error_delta : Nat := sub64 current.rx_errors previous.rx_errors
  let tx_error_delta : Nat := sub64 current.tx_errors previous.tx_errors
  let rx_packet_delta : Nat := sub64 current.rx_packets previous.rx_packets
  let tx_packet_delta : Nat := sub64 current.tx_packets previous.tx_packets
  { rx_rate_bps := rx_rate_bps
    tx_rate_bps := tx_rate_bps
    rx_packet_rate := rx_packet_rate
    tx_packet_rate := tx_packet_rate
    rx_error_rate :=
      if rx_packet_delta > NO_PACKETS then
        ((rx_error_delta : ℚ) / (rx_packet_delta : ℚ)) * PERCENTAGE_MULTIPLIER
      else ZERO_VALUE_DOUBLE
    tx_error_rate :=
      if tx_packet_delta > NO_PACKETS then
        ((tx_error_delta : ℚ) / (tx_packet_delta : ℚ)) * PERCENTAGE_MULTIPLIER
      else ZERO_VALUE_DOUBLE
    total_bandwidth_usage := rx_rate_bps + tx_rate_bps }

/-- `calculate_system_performance_metrics (current_context, previous_context,
current_process, time_delta, metrics)`; every field of `*metrics` is
overwritten. -/
def calculate_system_performance_metrics (current_context previous_context : context_stats_t)
    (current_process : process_stats_t) (time_delta : ℚ)
    (_metrics : system_performance_metrics_t) : system_performance_metrics_t :=
  { context_switch_rate :=
      (sub64 current_context.context_switches previous_context.context_switches : ℚ) / time_delta
    process_creation_rate :=
      (sub64 current_context.processes_created previous_context.processes_created : ℚ) / time_delta
    interrupt_rate :=
      (sub64 current_context.interrupts previous_context.interrupts : ℚ) / time_delta
    process_load_ratio :=
      if current_process.total_processes > NO_PROCESSES then
        (current_process.running_processes : ℚ) / (current_process.total_processes : ℚ)
      else ZERO_VALUE_DOUBLE }

/-! ## CPU usage (`get_cpu_usage`, `update_cpu_gauge`) -/

/-- The value of `idle_total` / `prev_idle_total`: `idle + iowait`. -/
def cpu_idle_total (c : cpu_counters) : Nat := add64 c.idle c.iowait

/-- The value of `non_idle` / `prev_non_idle`:
`user + nice + system + irq + softirq + steal`. -/
def cpu_non_idle (c : cpu_counters) : Nat :=
  add64 (add64 (add64 (add64 (add64 c.user c.nice) c.system) c.irq) c.softirq) c.steal

/-- The value of `total` / `prev_total`: `idle_total + non_idle`. -/
def cpu_total (c : cpu_counters) : Nat := add64 (cpu_idle_total c) (cpu_non_idle c)

/-- Initial value of the `prev_*` statics of `get_cpu_usage` (all `NO_BYTES`). -/
def cpu_prev_init : cpu_counters :=
  { user := NO_BYTES, nice := NO_BYTES, system := NO_BYTES, idle := NO_BYTES,
    iowait := NO_BYTES, irq := NO_BYTES, softirq := NO_BYTES, steal := NO_BYTES }

/-- `get_cpu_usage ()`. `prev` is the content of the `prev_*` statics before the
call; `read` is what the call obtains from `/proc/stat`: `none` when the file
cannot be opened or read or fewer than 8 fields parse, `some c` for the parsed
counters. Returns the returned `double` and the statics after the call. -/
def get_cpu_usage (prev : cpu_counters) (read : Option cpu_counters) : ℚ × cpu_counters :=
  match read with
  | none => (ERROR_VALUE_DOUBLE, prev)
  | some c =>
    let prev_idle_total := cpu_idle_total prev
    let idle_total := cpu_idle_total c
    let prev_total := cpu_total prev
    let total := cpu_total c
    let totald := sub64 total prev_total
    let idled := sub64 idle_total prev_idle_total
    if totald = NO_BYTES then (ERROR_VALUE_DOUBLE, prev)
    else
      let cpu_usage_percent : ℚ :=
        ((sub64 totald idled : ℚ) / (totald : ℚ)) * PERCENTAGE_MULTIPLIER
      (cpu_usage_percent, c)

/-! ## Metrics sink -/

/-- The gauges of `expose_metrics.c`, named after the variables holding them. -/
inductive Gauge where
  | cpu_usage_metric
  | memory_usage_metric
  | memory_total_metric
  | memory_used_metric
  | memory_available_metric
  | disk_read_rate_metric
  | disk_write_rate_metric
  | disk_utilization_metric
  | disk_avg_wait_time_metric
  | disk_queue_depth_metric
  | network_rx_rate_metric
  | network_tx_rate_metric
  | network_rx_packet_rate_metric
  | network_tx_packet_rate_metric
  | network_rx_error_rate_metric
  | network_tx_error_rate_metric
  | network_bandwidth_usage_metric
  | processes_total_metric
  | processes_running_metric
  | processes_sleeping_metric
  | processes_stopped_metric
  | processes_zombie_metric
  | context_switches_rate_metric
  | process_creation_rate_metric
  | interrupt_rate_metric
  | process_load_ratio_metric
deriving DecidableEq, Repr

/-- The calls `prom_gauge_set (g, v, NULL)` of one cycle, in program order. -/
abbrev GaugeWrites := List (Gauge × ℚ)

/-- `update_cpu_gauge ()`: returns the statics of `get_cpu_usage` after the call
and the gauge writes. -/
def update_cpu_gauge (prev : cpu_counters) (read : Option cpu_counters) :
    cpu_counters × GaugeWrites :=
  let r := get_cpu_usage prev read
  let usage := r.1
  if usage ≥ ZERO_VALUE_DOUBLE then (r.2, [(Gauge.cpu_usage_metric, usage)])
  else (r.2, [])

/-! ## Sample cache: disk (`update_disk_metrics`) -/

/-- The statics of `update_disk_metrics`. -/
structure disk_cache where
  prev_stats : disk_stats_t
  prev_time : Int
  primary_disk : Option String
  first_run : Bool
deriving DecidableEq

/-- Initial statics of `update_disk_metrics`: `prev_stats = {0}`, `prev_time = 0`,
`primary_disk = NULL`, `first_run = FIRST_RUN_FLAG`. -/
def disk_cache_init : disk_cache :=
  { prev_stats :=
      { device_name := "", reads_completed := 0, reads_merged := 0, sectors_read := 0,
        time_reading := 0, writes_completed := 0, writes_merged := 0, sectors_written := 0,
        time_writing := 0, ios_in_progress := 0, time_io := 0, weighted_time_io := 0 }
    prev_time := SUCCESS
    primary_disk := none
    first_run := true }

/-- What one call of `update_disk_metrics` takes from outside:
`detected` is the result of `detect_primary_disk ()` (`none` for `NULL`), used
only on the first run; `now` is `time (NULL)`; `read` is the outcome of
`get_disk_stats (primary_disk, &current_stats)`, `some` of the snapshot on
`SUCCESS`; `health` is the content of the uninitialised local `health`. -/
structure disk_cycle where
  detected : Option String
  now : Int
  read : Option disk_stats_t
  health : disk_health_metrics_t

/-- The part of `update_disk_metrics` after the detection block. -/
def update_disk_metrics_body (s : disk_cache) (i : disk_cycle) : disk_cache × GaugeWrites :=
  match i.read with
  | none => (s, [])
  | some current_stats =>
    let writes : GaugeWrites :=
      if s.prev_time > SUCCESS then
        let time_delta : ℚ := ((i.now - s.prev_time : Int) : ℚ)
        if time_delta > ZERO_VALUE_DOUBLE then
          let health := calculate_disk_health current_stats s.prev_stats time_delta i.health
          [(Gauge.disk_read_rate_metric, health.read_rate),
           (Gauge.disk_write_rate_metric, health.write_rate),
           (Gauge.disk_utilization_metric, health.io_utilization),
           (Gauge.disk_queue_depth_metric, health.queue_depth)]
        else []
      else []
    ({ s with prev_stats := current_stats, prev_time := i.now }, writes)

/-- `update_disk_metrics ()`: statics after the call and the gauge writes. -/
def update_disk_metrics (s : disk_cache) (i : disk_cycle) : disk_cache × GaugeWrites :=
  if s.first_run then
    let s1 : disk_cache := { s with primary_disk := i.detected, first_run := false }
    match i.detected with
    | none => (s1, [])
    | some _ => update_disk_metrics_body s1 i
  else update_disk_metrics_body s i

/-! ## Sample cache: network (`update_network_metrics`) -/

/-- The statics of `update_network_metrics`. -/
structure network_cache where
  prev_stats : network_interface_stats_t
  prev_time : Int
  primary_interface : Option String
  first_run : Bool
deriving DecidableEq

/-- Initial statics of `update_network_metrics`. -/
def network_cache_init : network_cache :=
  { prev_stats :=
      { interface_name := "", rx_bytes := 0, rx_packets := 0, rx_errors := 0, rx_dropped := 0,
        tx_bytes := 0, tx_packets := 0, tx_errors := 0, tx_dropped := 0 }
    prev_time := SUCCESS
    primary_interface := none
    first_run := true }

/-- What one call of `update_network_metrics` takes from outside: the result of
`detect_primary_network_interface ()` (used only on the first run), `time (NULL)`,
the outcome of `get_network_stats (primary_interface, &current_stats)` and the
content of the uninitialised local `metrics`. -/
structure network_cycle where
  detected : Option String
  now : Int
  read : Option network_interface_stats_t
  metrics : network_metrics_t

/-- The part of `update_network_metrics` after the detection block. -/
def update_network_metrics_body (s : network_cache) (i : network_cycle) :
    network_cache × GaugeWrites :=
  match i.read with
  | none => (s, [])
  | some current_stats =>
    let writes : GaugeWrites :=
      if s.prev_time > SUCCESS then
        let time_delta : ℚ := ((i.now - s.prev_time : Int) : ℚ)
        if time_delta > ZERO_VALUE_DOUBLE then
          let metrics := calculate_network_metrics current_stats s.prev_stats time_delta i.metrics
          [(Gauge.network_rx_rate_metric, metrics.rx_rate_bps),
           (Gauge.network_tx_rate_metric, metrics.tx_rate_bps),
           (Gauge.network_rx_packet_rate_metric, metrics.rx_packet_rate),
           (Gauge.network_tx_packet_rate_metric, metrics.tx_packet_rate),
           (Gauge.network_rx_error_rate_metric, metrics.rx_error_rate),
           (Gauge.network_tx_error_rate_metric, metrics.tx_error_rate),
           (Gauge.network_bandwidth_usage_metric, metrics.total_bandwidth_usage)]
        else []
      else []
    ({ s with prev_stats := current_stats, prev_time := i.now }, writes)

/-- `update_network_metrics ()`: statics after the call and the gauge writes. -/
def update_network_metrics (s : network_cache) (i : network_cycle) :
    network_cache × GaugeWrites :=
  if s.first_run then
    let s1 : network_cache := { s with primary_interface := i.detected, first_run := false }
    match i.detected with
    | none => (s1, [])
    | some _ => update_network_metrics_body s1 i
  else update_network_metrics_body s i

/-! ## Sample cache: context switches (`update_context_metrics`) -/

/-- The statics of `update_context_metrics`. -/
structure context_cache where
  prev_context_stats : context_stats_t
  current_process_stats : process_stats_t
  prev_time : Int
  first_run : Bool
deriving DecidableEq

/-- The census `get_process_stats` leaves in `*stats` when it fails: it zeroes
the five counters before `opendir`, its only failure point. -/
def process_stats_zero : process_stats_t :=
  { total_processes := NO_PROCESSES, running_processes := NO_PROCESSES,
    sleeping_processes := NO_PROCESSES, stopped_processes := NO_PROCESSES,
    zombie_processes := NO_PROCESSES }

/-- Initial statics of `update_context_metrics`. -/
def context_cache_init : context_cache :=
  { prev_context_stats :=
      { context_switches := 0, processes_created := 0, interrupts := 0, soft_interrupts := 0 }
    current_process_stats := process_stats_zero
    prev_time := SUCCESS
    first_run := true }

/-- What one call of `update_context_metrics` takes from outside: `time (NULL)`,
the outcome of `get_context_stats (&current_context_stats)`, the outcome of
`get_process_stats (&current_process_stats)` (called only when the former
succeeded) and the content of the uninitialised local `perf_metrics`. -/
structure context_cycle where
  now : Int
  context : Option context_stats_t
  process : Option process_stats_t
  perf_metrics : system_performance_metrics_t

/-- `update_context_metrics ()`: statics after the call and the gauge writes. -/
def update_context_metrics (s : context_cache) (i : context_cycle) :
    context_cache × GaugeWrites :=
  match i.context with
  | none => (s, [])
  | some current_context_stats =>
    match i.process with
    | none => ({ s with current_process_stats := process_stats_zero }, [])
    | some current_process_stats =>
      let writes : GaugeWrites :=
        if !s.first_run && decide (s.prev_time > SUCCESS) then
          let time_delta : ℚ := ((i.now - s.prev_time : Int) : ℚ)
          if time_delta > ZERO_VALUE_DOUBLE then
            let perf_metrics := calculate_system_performance_metrics current_context_stats
              s.prev_context_stats current_process_stats time_delta i.perf_metrics
            [(Gauge.context_switches_rate_metric, perf_metrics.context_switch_rate),
             (Gauge.process_creation_rate_metric, perf_metrics.process_creation_rate),
             (Gauge.interrupt_rate_metric, perf_metrics.interrupt_rate),
             (Gauge.process_load_ratio_metric, perf_metrics.process_load_ratio)]
          else []
        else []
      ({ prev_context_stats := current_context_stats
         current_process_stats := current_process_stats
         prev_time := i.now
         first_run := false }, writes)

/-! ## Specification-side formulas -/

/-- The CPU usage formula in the words of the specification:
`(1 - (Δidle + Δiowait) / Δtotal) * 100`, with exact (signed) differences and
`total` the sum of the eight counters. -/
def spec_cpu_usage (prev cur : cpu_counters) : ℚ :=
  let d_idle : ℚ := (cur.idle : ℚ) - (prev.idle : ℚ)
  let d_iowait : ℚ := (cur.iowait : ℚ) - (prev.iowait : ℚ)
  let total_cur : ℚ := (cur.user + cur.nice + cur.system + cur.idle + cur.iowait + cur.irq
    + cur.softirq + cur.steal : Nat)
  let total_prev : ℚ := (prev.user + prev.nice + prev.system + prev.idle + prev.iowait + prev.irq
    + prev.softirq + prev.steal : Nat)
  (1 - (d_idle + d_iowait) / (total_cur - total_prev)) * 100

/-- Plain (unbounded) sum of the eight CPU counters. -/
def cpu_sum (c : cpu_counters) : Nat :=
  c.user + c.nice + c.system + c.idle + c.iowait + c.irq + c.softirq + c.steal

/-- The delta of a counter in the words of the specification:
`(cur - prev) mod 2 ^ 64`, taken on the integers. -/
def wrapped_delta (cur prev : Nat) : Nat :=
  (((cur : Int) - (prev : Int)) % (2 ^ 64 : Int)).toNat

/-! ## Example inputs -/

/-- A disk snapshot of device `sda` with the given completed reads, completed
writes and I/O time, all other counters 0. -/
def disk_sample (reads writes time_io : Nat) : disk_stats_t :=
  { device_name := "sda", reads_completed := reads, reads_merged := 0, sectors_read := 0,
    time_reading := 0, writes_completed := writes, writes_merged := 0, sectors_written := 0,
    time_writing := 0, ios_in_progress := 0, time_io := time_io, weighted_time_io := 0 }

/-- A network snapshot of interface `eth0` with the given rx values and all tx
counters 0. -/
def network_sample (rx_bytes rx_packets rx_errors : Nat) : network_interface_stats_t :=
  { interface_name := "eth0", rx_bytes := rx_bytes, rx_packets := rx_packets,
    rx_errors := rx_errors, rx_dropped := 0, tx_bytes := 0, tx_packets := 0, tx_errors := 0,
    tx_dropped := 0 }

/-- Some content of an output `disk_health_metrics_t` before it is filled. -/
def health_garbage : disk_health_metrics_t :=
  { read_rate := 7, write_rate := 7, io_utilization := 7, avg_wait_time := 7, queue_depth := 7 }

/-- Some content of an output `network_metrics_t` before it is filled. -/
def metrics_garbage : network_metrics_t :=
  { rx_rate_bps := 7, tx_rate_bps := 7, rx_packet_rate := 7, tx_packet_rate := 7,
    rx_error_rate := 7, tx_error_rate := 7, total_bandwidth_usage := 7 }

/-- Some content of an output `system_performance_metrics_t` before it is filled. -/
def perf_garbage : system_performance_metrics_t :=
  { context_switch_rate := 7, process_creation_rate := 7, interrupt_rate := 7,
    process_load_ratio := 7 }

/-- A CPU sample with the given user, idle and steal ticks, all other counters 0. -/
def cpu_sample (user idle steal : Nat) : cpu_counters :=
  { user := user, nice := 0, system := 0, idle := idle, iowait := 0, irq := 0, softirq := 0,
    steal := steal }

/-- A context snapshot with the given context switches, all other counters 0. -/
def context_sample (switches : Nat) : context_stats_t :=
  { context_switches := switches, processes_created := 0, interrupts := 0, soft_interrupts := 0 }

/-- A disk polling cycle at time `now` whose read of `sda` succeeds with the
given number of completed reads. -/
def disk_poll (now : Int) (reads : Nat) : disk_cycle :=
  { detected := some "sda", now := now, read := some (disk_sample reads 0 0),
    health := health_garbage }

/-- A network polling cycle at time `now` whose read of `eth0` succeeds with the
given received bytes. -/
def network_poll (now : Int) (rx_bytes : Nat) : network_cycle :=
  { detected := some "eth0", now := now, read := some (network_sample rx_bytes 0 0),
    metrics := metrics_garbage }

/-- A context polling cycle at time `now` in which both reads succeed, with the
given number of context switches and an empty census. -/
def context_poll (now : Int) (switches : Nat) : context_cycle :=
  { now := now, context := some (context_sample switches), process := some process_stats_zero,
    perf_metrics := perf_garbage }

/-- The disk cache after a first successful poll at time 10 with 100 reads. -/
def disk_cache_seeded : disk_cache := (update_disk_metrics disk_cache_init (disk_poll 10 100)).1

/-- The network cache after a first successful poll at time 10 with 1000 bytes. -/
def network_cache_seeded : network_cache :=
  (update_network_metrics network_cache_init (network_poll 10 1000)).1

/-- The context cache after a first successful poll at time 10 with 100 switches. -/
def context_cache_seeded : context_cache :=
  (update_context_metrics context_cache_init (context_poll 10 100)).1

/-- A disk polling cycle at time `now` whose read fails. -/
def disk_poll_failed (now : Int) : disk_cycle :=
  { detected := some "sda", now := now, read := none, health := health_garbage }

/-- A network polling cycle at time `now` whose read fails. -/
def network_poll_failed (now : Int) : network_cycle :=
  { detected := some "eth0", now := now, read := none, metrics := metrics_garbage }

/-- A context polling cycle at time `now` in which `get_context_stats` succeeds
and `get_process_stats` fails. -/
def context_poll_failed (now : Int) (switches : Nat) : context_cycle :=
  { now := now, context := some (context_sample switches), process := none,
    perf_metrics := perf_garbage }

/-- Another content of an output `disk_health_metrics_t` before it is filled. -/
def health_other : disk_health_metrics_t :=
  { read_rate := 0, write_rate := 0, io_utilization := 0, avg_wait_time := 3, queue_depth := 0 }

/-! ## C library: `sscanf` / `fscanf`, `strtoull`, `strncpy`

The text of a `/proc` file is modelled as the list of strings successive
`fgets` calls return (`none` when `fopen` fails). The formatted-input functions
are modelled for the directives the program uses: literal characters, white
space, `%d`, `%lu` / `%llu`, `%*u`, `%s` and `%c`. The model returns the list of
assigned values; the C return value is its length (`EOF` is not told apart
from 0 assignments: every call site compares the result with a positive
number). A `%s` token is assumed to fit the `char` array it is stored in (a
longer one overflows the array in C). -/

/-- The function `isspace` of the C locale. -/
def isspace (c : Char) : Bool :=
  c.toNat = 32 || (9 ≤ c.toNat && c.toNat ≤ 13)

/-- The function `isdigit`. -/
def isdigit (c : Char) : Bool :=
  48 ≤ c.toNat && c.toNat ≤ 57

/-- Value of a run of decimal digits. -/
def digits_value (ds : List Char) : Nat :=
  ds.foldl (fun n c => 10 * n + (c.toNat - 48)) 0

/-- One directive of a format string. -/
inductive scan_directive where
  | lit (c : Char)
  | space
  | conv (assign : Bool) (spec : Char)
deriving DecidableEq, Repr

/-- A value assigned by a conversion. -/
inductive scan_value where
  | int (v : Int)
  | uint (v : Nat)
  | str (v : List Char)
  | chr (v : Char)
deriving DecidableEq, Repr

/-- Reading of a format string: `in_conv` tells whether a `%` was read and its
conversion character is still to come (`*` suppresses the assignment, the
length modifier `l` is skipped). -/
def parse_format (in_conv : Bool) (assign : Bool) : List Char → List scan_directive
  | [] => []
  | c :: rest =>
    if in_conv then
      if c = '*' then parse_format true false rest
      else if c = 'l' then parse_format true assign rest
      else scan_directive.conv assign c :: parse_format false true rest
    else if c = '%' then parse_format true true rest
    else if isspace c then scan_directive.space :: parse_format false true rest
    else scan_directive.lit c :: parse_format false true rest

/-- An optionally signed run of at least one decimal digit, after white space:
the sign, the digits and the rest of the input. -/
def scan_number (inp : List Char) : Option (Bool × List Char × List Char) :=
  let inp1 := inp.dropWhile isspace
  let signed : Bool × List Char :=
    match inp1 with
    | c :: r => if c = '-' then (true, r) else if c = '+' then (false, r) else (false, inp1)
    | [] => (false, inp1)
  let ds := signed.2.takeWhile isdigit
  if ds.isEmpty then none else some (signed.1, ds, signed.2.dropWhile isdigit)

/-- The `unsigned long long` a sign and a digit run convert to (`strtoull`):
`ULLONG_MAX` on overflow, the negation modulo `2 ^ 64` after a minus sign. -/
def unsigned_value (neg : Bool) (ds : List Char) : Nat :=
  let v := digits_value ds
  if v ≥ U64_MOD then U64_MOD - 1 else if neg then (U64_MOD - v) % U64_MOD else v

/-- One conversion: the value and the rest of the input, `none` on a matching
or input failure. -/
def scan_conversion (spec : Char) (inp : List Char) : Option (scan_value × List Char) :=
  if spec = 'd' then
    match scan_number inp with
    | none => none
    | some (neg, ds, rest) =>
      some (scan_value.int (if neg then - (digits_value ds : Int) else (digits_value ds : Int)),
        rest)
  else if spec = 'u' then
    match scan_number inp with
    | none => none
    | some (neg, ds, rest) => some (scan_value.uint (unsigned_value neg ds), rest)
  else if spec = 's' then
    let inp1 := inp.dropWhile isspace
    let tok := inp1.takeWhile (fun c => !isspace c)
    if tok.isEmpty then none
    else some (scan_value.str tok, inp1.dropWhile (fun c => !isspace c))
  else if spec = 'c' then
    match inp with
    | c :: rest => some (scan_value.chr c, rest)
    | [] => none
  else none

/-- Execution of the directives on the input: the assigned values, in order. -/
def scan_directives : List scan_directive → List Char → List scan_value
  | [], _ => []
  | scan_directive.lit c :: fmt, inp =>
    match inp with
    | x :: rest => if x = c then scan_directives fmt rest else []
    | [] => []
  | scan_directive.space :: fmt, inp => scan_directives fmt (inp.dropWhile isspace)
  | scan_directive.conv assign spec :: fmt, inp =>
    match scan_conversion spec inp with
    | none => []
    | some (v, rest) =>
      if assign then v :: scan_directives fmt rest else scan_directives fmt rest

/-- `sscanf (input, format, ...)`: the values assigned. `fscanf` on a freshly
opened file is the same function of the file content. -/
def sscanf (input : String) (format : String) : List scan_value :=
  scan_directives (parse_format false true format.toList) input.toList

/-- `strtoull (s, NULL, 10)`: 0 when no digit follows the optional sign. -/
def strtoull (s : List Char) : Nat :=
  match scan_number s with
  | none => 0
  | some (neg, ds, _) => unsigned_value neg ds

/-- `strncpy (dst, src, n)` into a zero-filled buffer of `n + 1` bytes: the
first `n` characters of `src`. -/
def strncpy (src : List Char) (n : Nat) : List Char := src.take n

/-- `strncmp (s, p, strlen (p)) == 0`: `s` starts with `p`. -/
def starts_with (s : List Char) (p : String) : Bool := p.toList.isPrefixOf s

/-! ## Device detection (`detect_primary_disk`, `detect_primary_network_interface`) -/

def DEVICE_NAME_SIZE : Nat := 32
def INTERFACE_NAME_SIZE : Nat := 32
def BUFFER_NULL_TERMINATOR_SPACE : Nat := 1
def FALLBACK_DISK_NAME : String := "sda"
def FALLBACK_NETWORK_INTERFACE : String := "eth0"
def LOOPBACK_INTERFACE : String := "lo"
def SD_DEVICE_LENGTH : Nat := 3
def PROC_NET_DEV_HEADER_LINES : Nat := 2

/-- The test of `detect_primary_disk` on a device name: `nvme` prefix and no
`p` in the name, or `sd` prefix and length 3, or `mmcblk` prefix and no `p` in
the name. -/
def disk_name_test (dev_name : List Char) : Bool :=
  (starts_with dev_name "nvme" && !dev_name.contains 'p') ||
  (starts_with dev_name "sd" && dev_name.length == SD_DEVICE_LENGTH) ||
  (starts_with dev_name "mmcblk" && !dev_name.contains 'p')

/-- The loop of `detect_primary_disk` over the lines of `/proc/diskstats`,
followed by the fallback. -/
def detect_primary_disk_scan : List String → String
  | [] => FALLBACK_DISK_NAME
  | line :: rest =>
    match sscanf line "%d %d %s %lu %lu %lu %lu %lu" with
    | [_, _, scan_value.str dev_name, scan_value.uint reads, _, _, _, scan_value.uint writes] =>
      if (reads > NO_BYTES || writes > NO_BYTES) && disk_name_test dev_name then
        String.mk (strncpy dev_name (DEVICE_NAME_SIZE - BUFFER_NULL_TERMINATOR_SPACE))
      else detect_primary_disk_scan rest
    | _ => detect_primary_disk_scan rest

/-- `detect_primary_disk ()`: `diskstats` is the content of `/proc/diskstats`,
`none` when it cannot be opened; the result is `none` for `NULL`. -/
def detect_primary_disk (diskstats : Option (List String)) : Option String :=
  match diskstats with
  | none => none
  | some lines => some (detect_primary_disk_scan lines)

/-- The test of `detect_primary_network_interface` on an interface name: one of
the prefixes `eth`, `enp`, `ens`, `wlan`, `wlp`, `wlo`, `wls`. -/
def interface_name_test (interface_name : List Char) : Bool :=
  starts_with interface_name "eth" || starts_with interface_name "enp" ||
  starts_with interface_name "ens" || starts_with interface_name "wlan" ||
  starts_with interface_name "wlp" || starts_with interface_name "wlo" ||
  starts_with interface_name "wls"

/-- `strchr (line, ':')` followed by `*colon = 0`: the text before the first
colon and the text after it, `none` when the line has no colon. -/
def split_colon (line : List Char) : Option (List Char × List Char) :=
  if line.contains ':' then
    some (line.takeWhile (fun c => c != ':'), (line.dropWhile (fun c => c != ':')).drop 1)
  else none

/-- The loop `while (*interface_start == ' ' || *interface_start == '\t')
interface_start++`. -/
def skip_blanks (s : List Char) : List Char :=
  s.dropWhile (fun c => c.toNat = 32 || c.toNat = 9)

/-- The first loop of `detect_primary_network_interface` over the lines that
follow the two header lines. `primary_interface` is the content of the static
buffer. The result tells whether the loop returned from the function and gives
the content of the buffer at that point. -/
def detect_primary_network_interface_scan (primary_interface : List Char) :
    List String → Bool × List Char
  | [] => (false, primary_interface)
  | line :: rest =>
    match split_colon line.toList with
    | none => detect_primary_network_interface_scan primary_interface rest
    | some (name_part, stats) =>
      let interface_start := skip_blanks name_part
      let interface_name :=
        strncpy interface_start (INTERFACE_NAME_SIZE - BUFFER_NULL_TERMINATOR_SPACE)
      match sscanf (String.mk stats) "%llu %*u %*u %*u %*u %*u %*u %*u %llu" with
      | [scan_value.uint rx_bytes, scan_value.uint tx_bytes] =>
        if interface_name = LOOPBACK_INTERFACE.toList then
          detect_primary_network_interface_scan primary_interface rest
        else if rx_bytes > NO_BYTES || tx_bytes > NO_BYTES then
          if interface_name_test interface_name then
            (true, strncpy interface_name (INTERFACE_NAME_SIZE - BUFFER_NULL_TERMINATOR_SPACE))
          else if primary_interface.isEmpty then
            detect_primary_network_interface_scan
              (strncpy interface_name (INTERFACE_NAME_SIZE - BUFFER_NULL_TERMINATOR_SPACE)) rest
          else detect_primary_network_interface_scan primary_interface rest
        else detect_primary_network_interface_scan primary_interface rest
      | _ => detect_primary_network_interface_scan primary_interface rest

/-- The second loop of `detect_primary_network_interface`, over the re-opened
file: the first name that is not `lo`, cut to the buffer size. -/
def detect_primary_network_interface_rescan : List String → Option (List Char)
  | [] => none
  | line :: rest =>
    match split_colon line.toList with
    | none => detect_primary_network_interface_rescan rest
    | some (name_part, _) =>
      let interface_start := skip_blanks name_part
      if interface_start != LOOPBACK_INTERFACE.toList then
        some (strncpy interface_start (INTERFACE_NAME_SIZE - BUFFER_NULL_TERMINATOR_SPACE))
      else detect_primary_network_interface_rescan rest

/-- `detect_primary_network_interface ()`. `net_dev` is the content of
`/proc/net/dev` at the first `fopen` (`none` when it fails), `net_dev_again` the
content at the second `fopen`, `primary_interface` the content of the static
buffer before the call (empty on a fresh process). The result is `none` for
`NULL`. -/
def detect_primary_network_interface (net_dev net_dev_again : Option (List String))
    (primary_interface : String) : Option String :=
  match net_dev with
  | none => none
  | some lines =>
    let r := detect_primary_network_interface_scan primary_interface.toList
      (lines.drop PROC_NET_DEV_HEADER_LINES)
    if r.1 then some (String.mk r.2)
    else if !r.2.isEmpty then some (String.mk r.2)
    else
      match net_dev_again with
      | none => some FALLBACK_NETWORK_INTERFACE
      | some lines_again =>
        match detect_primary_network_interface_rescan
            (lines_again.drop PROC_NET_DEV_HEADER_LINES) with
        | some name => some (String.mk name)
        | none => some FALLBACK_NETWORK_INTERFACE

/-! ## Process census (`get_process_stats`) -/

def PATH_BUFFER_SIZE : Nat := 512

/-- One entry of the `/proc` directory: its name and the content of its `stat`
file, `none` when that file cannot be opened. -/
structure proc_entry where
  d_name : String
  stat : Option String
deriving DecidableEq, Repr

/-- The body of `if (fscanf (...) == 3)`: `total_processes++` and the `switch`
on the state character. -/
def count_process (stats : process_stats_t) (state : Char) : process_stats_t :=
  let stats1 := { stats with total_processes := add64 stats.total_processes 1 }
  if state = 'R' then
    { stats1 with running_processes := add64 stats1.running_processes 1 }
  else if state = 'S' || state = 'D' || state = 'I' then
    { stats1 with sleeping_processes := add64 stats1.sleeping_processes 1 }
  else if state = 'T' || state = 't' then
    { stats1 with stopped_processes := add64 stats1.stopped_processes 1 }
  else if state = 'Z' then
    { stats1 with zombie_processes := add64 stats1.zombie_processes 1 }
  else
    { stats1 with sleeping_processes := add64 stats1.sleeping_processes 1 }

/-- The test `isdigit (entry->d_name[0])`. -/
def first_char_is_digit (d_name : String) : Bool :=
  match d_name.toList with
  | c :: _ => isdigit c
  | [] => false

/-- The `readdir` loop of `get_process_stats`. -/
def get_process_stats_scan (stats : process_stats_t) : List proc_entry → process_stats_t
  | [] => stats
  | entry :: rest =>
    if !first_char_is_digit entry.d_name then get_process_stats_scan stats rest
    else if ("/proc/" ++ entry.d_name ++ "/stat").length ≥ PATH_BUFFER_SIZE then
      get_process_stats_scan stats rest
    else
      match entry.stat with
      | none => get_process_stats_scan stats rest
      | some content =>
        match sscanf content "%d %s %c" with
        | [_, _, scan_value.chr state] => get_process_stats_scan (count_process stats state) rest
        | _ => get_process_stats_scan stats rest

/-- `get_process_stats (stats)`. `proc` is the list of entries of `/proc`,
`none` when `opendir` fails. The result is `none` for `ERROR` (then `*stats` is
`process_stats_zero`) and the filled `*stats` for `SUCCESS`. -/
def get_process_stats (proc : Option (List proc_entry)) : Option process_stats_t :=
  match proc with
  | none => none
  | some entries => some (get_process_stats_scan process_stats_zero entries)

/-! ## Context reader (`get_context_stats`) -/

def MIN_REQUIRED_CONTEXT_FIELDS : Nat := 2
def MAX_EXPECTED_CONTEXT_FIELDS : Nat := 4
def INTR_PREFIX_LENGTH : Nat := 5
def SOFTIRQ_PREFIX_LENGTH : Nat := 8

/-- The text `strtoull` reads after a prefix of `n` characters, when the rest of
the line holds a space (`strchr (line + n, ' ')`, `*space = 0`): the characters
up to that space; `none` when there is no space. -/
def field_after (n : Nat) (line : List Char) : Option (List Char) :=
  if (line.drop n).contains ' ' then some ((line.drop n).takeWhile (fun c => c != ' '))
  else none

/-- The `fgets` loop of `get_context_stats`: the counters and `found_fields`. -/
def get_context_stats_scan (stats : context_stats_t) (found_fields : Nat) :
    List String → context_stats_t × Nat
  | [] => (stats, found_fields)
  | line :: rest =>
    if found_fields ≥ MAX_EXPECTED_CONTEXT_FIELDS then (stats, found_fields)
    else
      match sscanf line "ctxt %llu" with
      | [scan_value.uint v] =>
        get_context_stats_scan { stats with context_switches := v } (found_fields + 1) rest
      | _ =>
        match sscanf line "processes %llu" with
        | [scan_value.uint v] =>
          get_context_stats_scan { stats with processes_created := v } (found_fields + 1) rest
        | _ =>
          if starts_with line.toList "intr " then
            match field_after INTR_PREFIX_LENGTH line.toList with
            | some text =>
              get_context_stats_scan { stats with interrupts := strtoull text }
                (found_fields + 1) rest
            | none => get_context_stats_scan stats found_fields rest
          else if starts_with line.toList "softirq " then
            match field_after SOFTIRQ_PREFIX_LENGTH line.toList with
            | some text =>
              get_context_stats_scan { stats with soft_interrupts := strtoull text }
                (found_fields + 1) rest
            | none => get_context_stats_scan stats found_fields rest
          else get_context_stats_scan stats found_fields rest

/-- The counters `get_context_stats` starts from. -/
def context_stats_zero : context_stats_t :=
  { context_switches := NO_BYTES, processes_created := NO_PROCESSES, interrupts := NO_BYTES,
    soft_interrupts := NO_BYTES }

/-- `get_context_stats (stats)`. `proc_stat` is the content of `/proc/stat`,
`none` when it cannot be opened. The result is `none` for `ERROR` and the filled
`*stats` for `SUCCESS`. -/
def get_context_stats (proc_stat : Option (List String)) : Option context_stats_t :=
  match proc_stat with
  | none => none
  | some lines =>
    let r := get_context_stats_scan context_stats_zero 0 lines
    if r.2 < MIN_REQUIRED_CONTEXT_FIELDS then none else some r.1

/-! ## Memory readers (`get_memory_info`, `get_memory_usage`) -/

def KILOBYTES_TO_BYTES : Nat := 1024

/-- Unsigned 64-bit multiplication `a * b`. -/
def mul64 (a b : Nat) : Nat := (a * b) % U64_MOD

/-- Memory snapshot (`memory_info_t`). -/
structure memory_info_t where
  total_mem : Nat
  used_mem : Nat
  available_mem : Nat
deriving DecidableEq, Repr

/-- The `fgets` loop of `get_memory_info` (and, with `total_mem` and `free_mem`
for `total` and `available`, of `get_memory_usage`): a `MemTotal` line sets
`total` and the loop goes on, a `MemAvailable` line sets `available` and ends
the loop. The result is the pair (`total`, `available`) after the loop. -/
def get_memory_info_scan (total available : Nat) : List String → Nat × Nat
  | [] => (total, available)
  | buffer :: rest =>
    match sscanf buffer "MemTotal: %llu kB" with
    | [scan_value.uint v] => get_memory_info_scan v available rest
    | _ =>
      match sscanf buffer "MemAvailable: %llu kB" with
      | [scan_value.uint v] => (total, v)
      | _ => get_memory_info_scan total available rest

/-- `get_memory_info (mem_info)`. `meminfo` is the content of `/proc/meminfo`,
`none` when it cannot be opened. The result is `none` for `ERROR` and the
filled `*mem_info` for `SUCCESS`. -/
def get_memory_info (meminfo : Option (List String)) : Option memory_info_t :=
  match meminfo with
  | none => none
  | some lines =>
    let r := get_memory_info_scan NO_BYTES NO_BYTES lines
    let total := r.1
    let available := r.2
    if total = NO_BYTES ∨ available = NO_BYTES then none
    else
      let total_mem := mul64 total KILOBYTES_TO_BYTES
      let available_mem := mul64 available KILOBYTES_TO_BYTES
      some { total_mem := total_mem
             available_mem := available_mem
             used_mem := sub64 total_mem available_mem }

/-- `get_memory_usage ()`. `meminfo` is the content of `/proc/meminfo`, `none`
when it cannot be opened. -/
def get_memory_usage (meminfo : Option (List String)) : ℚ :=
  match meminfo with
  | none => ERROR_VALUE_DOUBLE
  | some lines =>
    let r := get_memory_info_scan NO_BYTES NO_BYTES lines
    let total_mem := r.1
    let free_mem := r.2
    if total_mem = NO_BYTES ∨ free_mem = NO_BYTES then ERROR_VALUE_DOUBLE
    else
      let used_mem : ℚ := (sub64 total_mem free_mem : ℚ)
      let mem_usage_percent : ℚ := (used_mem / (total_mem : ℚ)) * PERCENTAGE_MULTIPLIER
      mem_usage_percent

/-! ## Specification-side view of the device tables -/

/-- A row of the disk table as the detector reads it: the device name, the
reads completed and the writes completed; `none` for a line that does not
carry the first 8 fields. -/
def disk_row (line : String) : Option (List Char × Nat × Nat) :=
  match sscanf line "%d %d %s %lu %lu %lu %lu %lu" with
  | [_, _, scan_value.str dev_name, scan_value.uint reads, _, _, _, scan_value.uint writes] =>
    some (dev_name, reads, writes)
  | _ => none

/-- A name carries a partition marker: it contains the partition indicator
character `p`. -/
def has_partition_marker (name : List Char) : Bool := name.contains 'p'

/-- The disk detection policy in the words of the specification: the row has
reads + writes `> 0` and its name is nvme-prefixed and not a partition, or
starts with `sd` and is exactly 3 characters long, or is mmcblk-prefixed and
not a partition. -/
def spec_disk_candidate (line : String) : Bool :=
  match disk_row line with
  | none => false
  | some (name, reads, writes) =>
    decide (reads + writes > 0) &&
    ((starts_with name "nvme" && !has_partition_marker name) ||
     (starts_with name "sd" && decide (name.length = 3)) ||
     (starts_with name "mmcblk" && !has_partition_marker name))

/-- The name of a disk row, empty for a line that is not a row. -/
def disk_row_name (line : String) : String :=
  match disk_row line with
  | none => ""
  | some (name, _, _) => String.mk name

/-- The result the specification gives for a readable disk table: the name of
the first candidate row in table order, `sda` when there is none. -/
def spec_detect_primary_disk (lines : List String) : String :=
  match lines.find? spec_disk_candidate with
  | some line => disk_row_name line
  | none => "sda"

/-- A row of the interface table as the detector reads it: the name (the text
before the colon, without leading blanks), the received bytes and the
transmitted bytes; `none` for a line without a colon or without 9 counters. -/
def net_row (line : String) : Option (List Char × Nat × Nat) :=
  match split_colon line.toList with
  | none => none
  | some (name_part, stats) =>
    match sscanf (String.mk stats) "%llu %*u %*u %*u %*u %*u %*u %*u %llu" with
    | [scan_value.uint rx_bytes, scan_value.uint tx_bytes] =>
      some (skip_blanks name_part, rx_bytes, tx_bytes)
    | _ => none

/-- The interface name of a line of the interface table: the text before the
colon, without leading blanks; `none` for a line without a colon. -/
def net_name (line : String) : Option (List Char) :=
  match split_colon line.toList with
  | none => none
  | some (name_part, _) => some (skip_blanks name_part)

/-- A non-loopback interface with rx bytes + tx bytes `> 0`. -/
def spec_active_interface (line : String) : Bool :=
  match net_row line with
  | none => false
  | some (name, rx_bytes, tx_bytes) =>
    decide (name ≠ ['l', 'o']) && decide (rx_bytes + tx_bytes > 0)

/-- A non-loopback interface with rx bytes + tx bytes `> 0` whose name starts
with one of eth, enp, ens, wlan, wlp, wlo, wls. -/
def spec_allowlisted_interface (line : String) : Bool :=
  match net_row line with
  | none => false
  | some (name, rx_bytes, tx_bytes) =>
    decide (name ≠ ['l', 'o']) && decide (rx_bytes + tx_bytes > 0) &&
    (starts_with name "eth" || starts_with name "enp" || starts_with name "ens" ||
     starts_with name "wlan" || starts_with name "wlp" || starts_with name "wlo" ||
     starts_with name "wls")

/-- A non-loopback interface of the table. -/
def spec_non_loopback_interface (line : String) : Bool :=
  match net_name line with
  | none => false
  | some name => decide (name ≠ ['l', 'o'])

/-- The bucket the specification gives to a state character: `R` is running
(0); `S`, `D`, `I` are sleeping (1); `T`, `t` are stopped (2); `Z` is zombie
(3); any other character is sleeping (1). -/
def spec_bucket (state : Char) : Nat :=
  if state = 'R' then 0
  else if state = 'S' ∨ state = 'D' ∨ state = 'I' then 1
  else if state = 'T' ∨ state = 't' then 2
  else if state = 'Z' then 3
  else 1

/-- The census the specification gives for a list of state characters: every
process counted once in the total and once in its bucket. -/
def spec_census (states : List Char) : process_stats_t :=
  { total_processes := states.length
    running_processes := states.countP (fun c => spec_bucket c = 0)
    sleeping_processes := states.countP (fun c => spec_bucket c = 1)
    stopped_processes := states.countP (fun c => spec_bucket c = 2)
    zombie_processes := states.countP (fun c => spec_bucket c = 3) }

/-- A readable process entry in state `state`: a numeric name, a path that fits
the buffer, and a status file `pid comm state ...` the three fields of which
are read. -/
def readable_process (entry : proc_entry) (state : Char) : Prop :=
  first_char_is_digit entry.d_name = true ∧
  ("/proc/" ++ entry.d_name ++ "/stat").length < PATH_BUFFER_SIZE ∧
  ∃ (content : String) (pid : Int) (comm : List Char),
    entry.stat = some content ∧
    sscanf content "%d %s %c" = [scan_value.int pid, scan_value.str comm, scan_value.chr state]

/-! ## Specification-side view of the memory table -/

/-- The value of a `MemTotal` line, `none` for any other line. -/
def mem_total_value (line : String) : Option Nat :=
  match sscanf line "MemTotal: %llu kB" with
  | [scan_value.uint v] => some v
  | _ => none

/-- The value of a `MemAvailable` line, `none` for any other line. -/
def mem_available_value (line : String) : Option Nat :=
  match sscanf line "MemAvailable: %llu kB" with
  | [scan_value.uint v] => some v
  | _ => none

/-! ## Example tables -/

/-- A row of `/proc/diskstats` for the given device with the given reads
completed and writes completed. -/
def diskstats_line (name : String) (reads writes : Nat) : String :=
  " 259 0 " ++ name ++ " " ++ toString reads ++ " 0 0 0 " ++ toString writes ++ " 0 0 0 0 0 0\n"

/-- The two header lines of `/proc/net/dev`. -/
def net_dev_header : List String :=
  ["Inter-|   Receive                            |  Transmit\n",
   " face |bytes packets errs drop fifo frame compressed multicast|bytes packets\n"]

/-- A row of `/proc/net/dev` for the given interface with the given received
and transmitted bytes. -/
def net_dev_line (name : String) (rx_bytes tx_bytes : Nat) : String :=
  "  " ++ name ++ ": " ++ toString rx_bytes ++ " 1 0 0 0 0 0 0 " ++ toString tx_bytes
    ++ " 1 0 0 0 0 0 0\n"

/-- The `/proc` entry of process `pid` whose status file reads
`pid (comm) state 0 0 0`. -/
def status_entry (pid : String) (comm : String) (state : Char) : proc_entry :=
  { d_name := pid
    stat := some (String.mk
      (pid.toList ++ ' ' :: ('(' :: (comm.toList ++ ')' :: ' ' :: state :: " 0 0 0\n".toList)))) }

/-- A disk polling cycle at time 12 whose read of `sda` succeeds with 300
completed reads and 400 ms of I/O time. -/
def disk_poll_busy : disk_cycle :=
  { detected := some "sda", now := 12, read := some (disk_sample 300 0 400),
    health := health_garbage }

/-- The state character under which `get_process_stats` counts an entry of
`/proc`; `none` for an entry it skips: a name that does not start with a digit,
a path that does not fit the buffer, a status file that cannot be opened, or
fewer than three fields read from it. -/
def counted_state (entry : proc_entry) : Option Char :=
  if !first_char_is_digit entry.d_name then none
  else if ("/proc/" ++ entry.d_name ++ "/stat").length ≥ PATH_BUFFER_SIZE then none
  else
    match entry.stat with
    | none => none
    | some content =>
      match sscanf content "%d %s %c" with
      | [_, _, scan_value.chr state] => some state
      | _ => none

/-! ## Device readers (`get_disk_stats`, `get_network_stats`) -/

def DISK_STAT_FIELDS_REQUIRED : Nat := 14
def NETWORK_STAT_FIELDS_REQUIRED : Nat := 8

/-- The `fgets` loop of `get_disk_stats`, followed by the `return ERROR`: the
content of `*stats` at `return SUCCESS`, `none` for `ERROR`. `sscanf` returns at
least `DISK_STAT_FIELDS_REQUIRED` when all 14 values are assigned; `dev_name` is
taken to fit its 32-byte buffer. -/
def get_disk_stats_scan (device : String) : List String → Option disk_stats_t
  | [] => none
  | line :: rest =>
    match sscanf line "%d %d %s %lu %lu %lu %lu %lu %lu %lu %lu %lu %lu %lu" with
    | [_, _, scan_value.str dev_name, scan_value.uint reads_completed,
        scan_value.uint reads_merged, scan_value.uint sectors_read,
        scan_value.uint time_reading, scan_value.uint writes_completed,
        scan_value.uint writes_merged, scan_value.uint sectors_written,
        scan_value.uint time_writing, scan_value.uint ios_in_progress,
        scan_value.uint time_io, scan_value.uint weighted_time_io] =>
      if dev_name = device.toList then
        some { device_name :=
                 String.mk (strncpy dev_name (DEVICE_NAME_SIZE - BUFFER_NULL_TERMINATOR_SPACE))
               reads_completed := reads_completed
               reads_merged := reads_merged
               sectors_read := sectors_read
               time_reading := time_reading
               writes_completed := writes_completed
               writes_merged := writes_merged
               sectors_written := sectors_written
               time_writing := time_writing
               ios_in_progress := ios_in_progress
               time_io := time_io
               weighted_time_io := weighted_time_io }
      else get_disk_stats_scan device rest
    | _ => get_disk_stats_scan device rest

/-- `get_disk_stats (device, stats)`. `diskstats` is the content of
`/proc/diskstats`, `none` when it cannot be opened. The result is `none` for
`ERROR` and the filled `*stats` for `SUCCESS`. -/
def get_disk_stats (diskstats : Option (List String)) (device : String) :
    Option disk_stats_t :=
  match diskstats with
  | none => none
  | some lines => get_disk_stats_scan device lines

/-- The `fgets` loop of `get_network_stats` over the lines that follow the two
header lines, followed by the `return ERROR`. -/
def get_network_stats_scan (interface : String) :
    List String → Option network_interface_stats_t
  | [] => none
  | line :: rest =>
    match split_colon line.toList with
    | none => get_network_stats_scan interface rest
    | some (name_part, stats_line) =>
      let interface_start := skip_blanks name_part
      let interface_name :=
        strncpy interface_start (INTERFACE_NAME_SIZE - BUFFER_NULL_TERMINATOR_SPACE)
      if interface_name = interface.toList then
        match sscanf (String.mk stats_line)
            "%llu %llu %llu %llu %*u %*u %*u %*u %llu %llu %llu %llu %*u %*u %*u %*u" with
        | [scan_value.uint rx_bytes, scan_value.uint rx_packets, scan_value.uint rx_errors,
            scan_value.uint rx_dropped, scan_value.uint tx_bytes, scan_value.uint tx_packets,
            scan_value.uint tx_errors, scan_value.uint tx_dropped] =>
          some { interface_name :=
                   String.mk
                     (strncpy interface_name (INTERFACE_NAME_SIZE - BUFFER_NULL_TERMINATOR_SPACE))
                 rx_bytes := rx_bytes
                 rx_packets := rx_packets
                 rx_errors := rx_errors
                 rx_dropped := rx_dropped
                 tx_bytes := tx_bytes
                 tx_packets := tx_packets
                 tx_errors := tx_errors
                 tx_dropped := tx_dropped }
        | _ => get_network_stats_scan interface rest
      else get_network_stats_scan interface rest

/-- `get_network_stats (interface, stats)`. `net_dev` is the content of
`/proc/net/dev`, `none` when it cannot be opened. The result is `none` for
`ERROR` and the filled `*stats` for `SUCCESS`. -/
def get_network_stats (net_dev : Option (List String)) (interface : String) :
    Option network_interface_stats_t :=
  match net_dev with
  | none => none
  | some lines => get_network_stats_scan interface (lines.drop PROC_NET_DEV_HEADER_LINES)

/-! ## Specification-side view of the reader tables -/

/-- A row of the disk table with all its 11 counters: the name and the
counters in table order; `none` for a line that does not carry the 14 fields. -/
def disk_stats_row (line : String) : Option disk_stats_t :=
  match sscanf line "%d %d %s %lu %lu %lu %lu %lu %lu %lu %lu %lu %lu %lu" with
  | [_, _, scan_value.str dev_name, scan_value.uint c1, scan_value.uint c2, scan_value.uint c3,
      scan_value.uint c4, scan_value.uint c5, scan_value.uint c6, scan_value.uint c7,
      scan_value.uint c8, scan_value.uint c9, scan_value.uint c10, scan_value.uint c11] =>
    some { device_name := String.mk dev_name
           reads_completed := c1
           reads_merged := c2
           sectors_read := c3
           time_reading := c4
           writes_completed := c5
           writes_merged := c6
           sectors_written := c7
           time_writing := c8
           ios_in_progress := c9
           time_io := c10
           weighted_time_io := c11 }
  | _ => none

/-- The counters the network reader takes from the text after the colon:
counters 1 to 4 and 9 to 12; `none` when they are not all there. -/
def net_counters (stats_line : List Char) : Option (List Nat) :=
  match sscanf (String.mk stats_line)
      "%llu %llu %llu %llu %*u %*u %*u %*u %llu %llu %llu %llu %*u %*u %*u %*u" with
  | [scan_value.uint c1, scan_value.uint c2, scan_value.uint c3, scan_value.uint c4,
      scan_value.uint c9, scan_value.uint c10, scan_value.uint c11, scan_value.uint c12] =>
    some [c1, c2, c3, c4, c9, c10, c11, c12]
  | _ => none

/-- A row of the interface table as the reader takes it: the name (the text
before the colon without leading spaces and tabs, as the 32-byte buffer holds
it) and the counters 1 to 4 and 9 to 12; `none` for a line without a colon or
without these counters. -/
def net_stats_row (line : String) : Option network_interface_stats_t :=
  match split_colon line.toList with
  | none => none
  | some (name_part, stats_line) =>
    match net_counters stats_line with
    | some [c1, c2, c3, c4, c9, c10, c11, c12] =>
      some { interface_name :=
               String.mk (strncpy (skip_blanks name_part)
                 (INTERFACE_NAME_SIZE - BUFFER_NULL_TERMINATOR_SPACE))
             rx_bytes := c1
             rx_packets := c2
             rx_errors := c3
             rx_dropped := c4
             tx_bytes := c9
             tx_packets := c10
             tx_errors := c11
             tx_dropped := c12 }
    | _ => none

/-- Text made of fields, each one written after a run of white space, followed
by `rest`. A field is given as the pair of the white space and the token. -/
def fields_text : List (List Char × List Char) → List Char → List Char
  | [], rest => rest
  | (ws, tok) :: more, rest => ws ++ (tok ++ fields_text more rest)

/-- The fields are unsigned numbers: each one is a run of white space followed
by at least one digit, and no digit directly follows it. -/
def unsigned_fields : List (List Char × List Char) → List Char → Prop
  | [], _ => True
  | (ws, ds) :: more, rest =>
    (∀ c ∈ ws, isspace c = true) ∧ ds ≠ [] ∧ (∀ c ∈ ds, isdigit c = true) ∧
    (∀ x, (fields_text more rest).head? = some x → isdigit x = false) ∧
    unsigned_fields more rest

/-- The directives of a format of unsigned conversions, each one written after a
blank; `assigns` tells for each conversion whether it assigns (`%lu`, `%llu`)
or not (`%*u`). -/
def unsigned_directives (assigns : List Bool) : List scan_directive :=
  assigns.flatMap (fun a => [scan_directive.space, scan_directive.conv a 'u'])

/-- The values of the fields that an assigning conversion reads. -/
def assigned_values : List Bool → List (List Char × List Char) → List scan_value
  | a :: assigns, (_, ds) :: more =>
    if a then scan_value.uint (unsigned_value false ds) :: assigned_values assigns more
    else assigned_values assigns more
  | _, _ => []

/-! ## Specification-side view of the stat table -/

/-- The four labelled lines of the stat table the context reader looks for. -/
inductive context_field where
  | ctxt
  | processes
  | intr
  | softirq
deriving DecidableEq, Repr

/-- A labelled line of the stat table as the context reader takes it: the
label and the number read; `none` for any other line. -/
def context_line (line : String) : Option (context_field × Nat) :=
  match sscanf line "ctxt %llu" with
  | [scan_value.uint v] => some (context_field.ctxt, v)
  | _ =>
    match sscanf line "processes %llu" with
    | [scan_value.uint v] => some (context_field.processes, v)
    | _ =>
      if starts_with line.toList "intr " then
        match field_after INTR_PREFIX_LENGTH line.toList with
        | some text => some (context_field.intr, strtoull text)
        | none => none
      else if starts_with line.toList "softirq " then
        match field_after SOFTIRQ_PREFIX_LENGTH line.toList with
        | some text => some (context_field.softirq, strtoull text)
        | none => none
      else none

/-- The counters after a labelled line was taken. -/
def set_context_field (stats : context_stats_t) (f : context_field × Nat) : context_stats_t :=
  match f.1 with
  | context_field.ctxt => { stats with context_switches := f.2 }
  | context_field.processes => { stats with processes_created := f.2 }
  | context_field.intr => { stats with interrupts := f.2 }
  | context_field.softirq => { stats with soft_interrupts := f.2 }

/-- The numbers of the labelled lines with the given label, in order. -/
def field_values (f : context_field) (fs : List (context_field × Nat)) : List Nat :=
  fs.filterMap (fun p => if p.1 = f then some p.2 else none)

/-- The numbers the lines of the table with the given label carry, in table
order. -/
def context_values (f : context_field) (lines : List String) : List Nat :=
  field_values f (lines.filterMap context_line)

/-! ## Arithmetic helper lemmas -/

theorem sub64_of_le {a b : Nat} (hba : b ≤ a) (ha : a < U64_MOD) : sub64 a b = a - b := by
  unfold sub64 U64_MOD at *
  have hb : b % 2 ^ 64 = b := Nat.mod_eq_of_lt (by omega)
  rw [hb]
  omega

theorem sub64_self (a : Nat) : sub64 a a = 0 := by
  unfold sub64 U64_MOD
  omega

theorem sub64_lt (a b : Nat) : sub64 a b < U64_MOD := by
  unfold sub64
  exact Nat.mod_lt _ (by unfold U64_MOD; norm_num)

theorem add64_of_lt {a b : Nat} (h : a + b < U64_MOD) : add64 a b = a + b := by
  unfold add64
  exact Nat.mod_eq_of_lt h

theorem cast_sub64_of_le {a b : Nat} (hba : b ≤ a) (ha : a < U64_MOD) :
    ((sub64 a b : Nat) : ℚ) = (a : ℚ) - (b : ℚ) := by
  rw [sub64_of_le hba ha, Nat.cast_sub hba]

/-! ## Delta engine: rates -/

/-- C6. For disk snapshots whose completed-read and completed-write counters
(64-bit values) did not decrease from `prev` to `cur`, and for `dt > 0`,
`calculate_disk_health` sets `read_rate = (cur.reads_completed -
prev.reads_completed) / dt` and `write_rate = (cur.writes_completed -
prev.writes_completed) / dt`, whatever the output struct held before. -/
theorem calculate_disk_health_rates (cur prev : disk_stats_t) (dt : ℚ)
    (health : disk_health_metrics_t) (hdt : 0 < dt)
    (hr : prev.reads_completed ≤ cur.reads_completed) (hr64 : cur.reads_completed < U64_MOD)
    (hw : prev.writes_completed ≤ cur.writes_completed) (hw64 : cur.writes_completed < U64_MOD) :
    (calculate_disk_health cur prev dt health).read_rate
        = ((cur.reads_completed : ℚ) - (prev.reads_completed : ℚ)) / dt ∧
    (calculate_disk_health cur prev dt health).write_rate
        = ((cur.writes_completed : ℚ) - (prev.writes_completed : ℚ)) / dt := by
  have _ := hdt
  constructor
  · show ((sub64 cur.reads_completed prev.reads_completed : Nat) : ℚ) / dt = _
    rw [cast_sub64_of_le hr hr64]
  · show ((sub64 cur.writes_completed prev.writes_completed : Nat) : ℚ) / dt = _
    rw [cast_sub64_of_le hw hw64]

theorem calculate_disk_health_rates_witness :
    (0 : ℚ) < 2 ∧
    (calculate_disk_health (disk_sample 300 50 0) (disk_sample 100 0 0) 2 health_garbage).read_rate
        = (((disk_sample 300 50 0).reads_completed : ℚ)
            - ((disk_sample 100 0 0).reads_completed : ℚ)) / 2 ∧
    (calculate_disk_health (disk_sample 300 50 0) (disk_sample 100 0 0) 2 health_garbage).write_rate
        = (((disk_sample 300 50 0).writes_completed : ℚ)
            - ((disk_sample 100 0 0).writes_completed : ℚ)) / 2 :=
  ⟨by norm_num,
   calculate_disk_health_rates (disk_sample 300 50 0) (disk_sample 100 0 0) 2 health_garbage
     (by norm_num) (by decide) (by decide) (by decide) (by decide)⟩

/-- C7. For network snapshots whose byte and packet counters (64-bit values) did
not decrease from `prev` to `cur`, and for `dt > 0`, `calculate_network_metrics`
sets `rx_rate_bps = (cur.rx_bytes - prev.rx_bytes) / dt`, and `tx_rate_bps`,
`rx_packet_rate`, `tx_packet_rate` likewise; in particular rx_bytes 1000 -> 3000
and rx_packets 10 -> 20 over `dt = 2` give `rx_rate_bps = 1000` and
`rx_packet_rate = 5`. -/
theorem calculate_network_metrics_rates :
    (∀ (cur prev : network_interface_stats_t) (dt : ℚ) (m : network_metrics_t),
      0 < dt →
      prev.rx_bytes ≤ cur.rx_bytes → cur.rx_bytes < U64_MOD →
      prev.tx_bytes ≤ cur.tx_bytes → cur.tx_bytes < U64_MOD →
      prev.rx_packets ≤ cur.rx_packets → cur.rx_packets < U64_MOD →
      prev.tx_packets ≤ cur.tx_packets → cur.tx_packets < U64_MOD →
      (calculate_network_metrics cur prev dt m).rx_rate_bps
          = ((cur.rx_bytes : ℚ) - (prev.rx_bytes : ℚ)) / dt ∧
      (calculate_network_metrics cur prev dt m).tx_rate_bps
          = ((cur.tx_bytes : ℚ) - (prev.tx_bytes : ℚ)) / dt ∧
      (calculate_network_metrics cur prev dt m).rx_packet_rate
          = ((cur.rx_packets : ℚ) - (prev.rx_packets : ℚ)) / dt ∧
      (calculate_network_metrics cur prev dt m).tx_packet_rate
          = ((cur.tx_packets : ℚ) - (prev.tx_packets : ℚ)) / dt) ∧
    (∀ (cur prev : network_interface_stats_t) (m : network_metrics_t),
      prev.rx_bytes = 1000 → cur.rx_bytes = 3000 →
      prev.rx_packets = 10 → cur.rx_packets = 20 →
      (calculate_network_metrics cur prev 2 m).rx_rate_bps = 1000 ∧
      (calculate_network_metrics cur prev 2 m).rx_packet_rate = 5) := by
  refine ⟨?_, ?_⟩
  · intro cur prev dt m _ hrb hrb64 htb htb64 hrp hrp64 htp htp64
    refine ⟨?_, ?_, ?_, ?_⟩
    · show ((sub64 cur.rx_bytes prev.rx_bytes : Nat) : ℚ) / dt = _
      rw [cast_sub64_of_le hrb hrb64]
    · show ((sub64 cur.tx_bytes prev.tx_bytes : Nat) : ℚ) / dt = _
      rw [cast_sub64_of_le htb htb64]
    · show ((sub64 cur.rx_packets prev.rx_packets : Nat) : ℚ) / dt = _
      rw [cast_sub64_of_le hrp hrp64]
    · show ((sub64 cur.tx_packets prev.tx_packets : Nat) : ℚ) / dt = _
      rw [cast_sub64_of_le htp htp64]
  · intro cur prev m hpb hcb hpp hcp
    constructor
    · show ((sub64 cur.rx_bytes prev.rx_bytes : Nat) : ℚ) / 2 = 1000
      rw [cast_sub64_of_le (by omega) (by rw [hcb]; decide), hpb, hcb]
      norm_num
    · show ((sub64 cur.rx_packets prev.rx_packets : Nat) : ℚ) / 2 = 5
      rw [cast_sub64_of_le (by omega) (by rw [hcp]; decide), hpp, hcp]
      norm_num

theorem calculate_network_metrics_rates_witness :
    (calculate_network_metrics (network_sample 3000 20 0) (network_sample 1000 10 0) 2
        metrics_garbage).rx_rate_bps = 1000 ∧
    (calculate_network_metrics (network_sample 3000 20 0) (network_sample 1000 10 0) 2
        metrics_garbage).rx_packet_rate = 5 ∧
    (calculate_network_metrics (network_sample 3000 20 0) (network_sample 1000 10 0) 2
        metrics_garbage).tx_rate_bps
      = (((network_sample 3000 20 0).tx_bytes : ℚ) - ((network_sample 1000 10 0).tx_bytes : ℚ)) / 2 :=
  ⟨(calculate_network_metrics_rates.2 (network_sample 3000 20 0) (network_sample 1000 10 0)
      metrics_garbage rfl rfl rfl rfl).1,
   (calculate_network_metrics_rates.2 (network_sample 3000 20 0) (network_sample 1000 10 0)
      metrics_garbage rfl rfl rfl rfl).2,
   (calculate_network_metrics_rates.1 (network_sample 3000 20 0) (network_sample 1000 10 0) 2
      metrics_garbage (by norm_num) (by decide) (by decide) (by decide) (by decide) (by decide)
      (by decide) (by decide) (by decide)).2.1⟩

/-- C8. For each direction (rx, tx), with `delta` the 64-bit difference
`current - previous` the code computes, `calculate_network_metrics` sets the
error rate to `(delta errors / delta packets) * 100` when `delta packets > 0`,
and to exactly `0` when `delta packets = 0`, whatever `delta errors` is. -/
theorem calculate_network_metrics_error_rate (cur prev : network_interface_stats_t) (dt : ℚ)
    (m : network_metrics_t) :
    (0 < sub64 cur.rx_packets prev.rx_packets →
      (calculate_network_metrics cur prev dt m).rx_error_rate
        = ((sub64 cur.rx_errors prev.rx_errors : ℚ) / (sub64 cur.rx_packets prev.rx_packets : ℚ))
            * 100) ∧
    (sub64 cur.rx_packets prev.rx_packets = 0 →
      (calculate_network_metrics cur prev dt m).rx_error_rate = 0) ∧
    (0 < sub64 cur.tx_packets prev.tx_packets →
      (calculate_network_metrics cur prev dt m).tx_error_rate
        = ((sub64 cur.tx_errors prev.tx_errors : ℚ) / (sub64 cur.tx_packets prev.tx_packets : ℚ))
            * 100) ∧
    (sub64 cur.tx_packets prev.tx_packets = 0 →
      (calculate_network_metrics cur prev dt m).tx_error_rate = 0) := by
  refine ⟨?_, ?_, ?_, ?_⟩
  · intro h
    simp only [calculate_network_metrics, NO_PACKETS, gt_iff_lt, h, if_true, PERCENTAGE_MULTIPLIER]
  · intro h
    simp only [calculate_network_metrics, NO_PACKETS, gt_iff_lt, h, lt_irrefl, if_false,
      ZERO_VALUE_DOUBLE]
  · intro h
    simp only [calculate_network_metrics, NO_PACKETS, gt_iff_lt, h, if_true, PERCENTAGE_MULTIPLIER]
  · intro h
    simp only [calculate_network_metrics, NO_PACKETS, gt_iff_lt, h, lt_irrefl, if_false,
      ZERO_VALUE_DOUBLE]

theorem calculate_network_metrics_error_rate_witness :
    (sub64 (network_sample 0 20 9).rx_packets (network_sample 0 20 5).rx_packets = 0 ∧
      (calculate_network_metrics (network_sample 0 20 9) (network_sample 0 20 5) 1
        metrics_garbage).rx_error_rate = 0) ∧
    (0 < sub64 (network_sample 0 20 5).rx_packets (network_sample 0 10 0).rx_packets ∧
      (calculate_network_metrics (network_sample 0 20 5) (network_sample 0 10 0) 1
        metrics_garbage).rx_error_rate
        = ((sub64 (network_sample 0 20 5).rx_errors (network_sample 0 10 0).rx_errors : ℚ)
            / (sub64 (network_sample 0 20 5).rx_packets (network_sample 0 10 0).rx_packets : ℚ))
            * 100) :=
  ⟨⟨by decide,
    (calculate_network_metrics_error_rate (network_sample 0 20 9) (network_sample 0 20 5) 1
      metrics_garbage).2.1 (by decide)⟩,
   ⟨by decide,
    (calculate_network_metrics_error_rate (network_sample 0 20 5) (network_sample 0 10 0) 1
      metrics_garbage).1 (by decide)⟩⟩

/-! ## CPU usage -/

theorem cpu_total_eq_sum_mod (c : cpu_counters) : cpu_total c = cpu_sum c % U64_MOD := by
  unfold cpu_total cpu_idle_total cpu_non_idle cpu_sum add64 U64_MOD
  omega

theorem cpu_total_of_lt {c : cpu_counters} (h : cpu_sum c < U64_MOD) : cpu_total c = cpu_sum c := by
  rw [cpu_total_eq_sum_mod, Nat.mod_eq_of_lt h]

theorem cpu_idle_total_of_lt {c : cpu_counters} (h : cpu_sum c < U64_MOD) :
    cpu_idle_total c = c.idle + c.iowait := by
  unfold cpu_idle_total
  apply add64_of_lt
  unfold cpu_sum at h
  omega

/-- Whenever the divisor `totald` of the only division of `get_cpu_usage` is 0,
the function returns at the guard, with the sentinel and untouched statics. -/
theorem get_cpu_usage_guard (prev cur : cpu_counters)
    (h : sub64 (cpu_total cur) (cpu_total prev) = 0) :
    get_cpu_usage prev (some cur) = (ERROR_VALUE_DOUBLE, prev) := by
  simp [get_cpu_usage, h, NO_BYTES]

/-- C9. When the current CPU counters sum to the same total as the previous
sample, in particular for two identical snapshots, `get_cpu_usage` returns the
error sentinel `-1.0` at the guard that precedes its only division, and leaves
the previous sample as it was. -/
theorem get_cpu_usage_zero_delta (prev cur : cpu_counters) (h : cpu_sum cur = cpu_sum prev) :
    get_cpu_usage prev (some cur) = (ERROR_VALUE_DOUBLE, prev) ∧
    get_cpu_usage cur (some cur) = (ERROR_VALUE_DOUBLE, cur) ∧
    ERROR_VALUE_DOUBLE = -1 := by
  refine ⟨?_, ?_, rfl⟩
  · apply get_cpu_usage_guard
    rw [cpu_total_eq_sum_mod, cpu_total_eq_sum_mod, h]
    exact sub64_self _
  · apply get_cpu_usage_guard
    exact sub64_self _

theorem get_cpu_usage_zero_delta_witness :
    cpu_sum (cpu_sample 30 50 0) = cpu_sum (cpu_sample 20 50 10) ∧
    get_cpu_usage (cpu_sample 20 50 10) (some (cpu_sample 30 50 0))
      = (ERROR_VALUE_DOUBLE, cpu_sample 20 50 10) :=
  ⟨by decide,
   (get_cpu_usage_zero_delta (cpu_sample 20 50 10) (cpu_sample 30 50 0) (by decide)).1⟩

/-- The value `get_cpu_usage` computes when neither the idle group
(`idle + iowait`) nor the sum of the six other counters decreased and the
sums fit in 64 bits. -/
theorem get_cpu_usage_value {prev cur : cpu_counters}
    (hidle : prev.idle + prev.iowait ≤ cur.idle + cur.iowait)
    (hbusy : prev.user + prev.nice + prev.system + prev.irq + prev.softirq + prev.steal
      ≤ cur.user + cur.nice + cur.system + cur.irq + cur.softirq + cur.steal)
    (h64 : cpu_sum cur < U64_MOD) (hne : cpu_sum cur ≠ cpu_sum prev) :
    get_cpu_usage prev (some cur)
      = ((((cpu_sum cur - cpu_sum prev) - ((cur.idle + cur.iowait) - (prev.idle + prev.iowait))
            : Nat) : ℚ) / ((cpu_sum cur - cpu_sum prev : Nat) : ℚ) * 100, cur) := by
  have hple : cpu_sum prev ≤ cpu_sum cur := by unfold cpu_sum; omega
  have hp64 : cpu_sum prev < U64_MOD := lt_of_le_of_lt hple h64
  have htd : sub64 (cpu_total cur) (cpu_total prev) = cpu_sum cur - cpu_sum prev := by
    rw [cpu_total_of_lt h64, cpu_total_of_lt hp64, sub64_of_le hple h64]
  have hci64 : cur.idle + cur.iowait < U64_MOD := by unfold cpu_sum at h64; omega
  have hid : sub64 (cpu_idle_total cur) (cpu_idle_total prev)
      = (cur.idle + cur.iowait) - (prev.idle + prev.iowait) := by
    rw [cpu_idle_total_of_lt h64, cpu_idle_total_of_lt hp64, sub64_of_le hidle hci64]
  have hle : (cur.idle + cur.iowait) - (prev.idle + prev.iowait) ≤ cpu_sum cur - cpu_sum prev := by
    unfold cpu_sum; omega
  have hlt : cpu_sum cur - cpu_sum prev < U64_MOD := lt_of_le_of_lt (Nat.sub_le _ _) h64
  have hnz : cpu_sum cur - cpu_sum prev ≠ 0 := by omega
  simp only [get_cpu_usage, htd, hid, NO_BYTES, hnz, if_false, sub64_of_le hle hlt,
    PERCENTAGE_MULTIPLIER]

/-- C10 (as amended). For previous and current counter sets in which
`idle + iowait` did not decrease, the sum of the six other counters did not
decrease, the current sum fits in 64 bits and delta total is not 0,
`get_cpu_usage` returns `(1 - (delta idle + delta iowait) / delta total) * 100`,
where total is the sum of user, nice, system, idle, iowait, irq, softirq and
steal, and stores the current counters as the previous sample. -/
theorem get_cpu_usage_formula (prev cur : cpu_counters)
    (hidle : prev.idle + prev.iowait ≤ cur.idle + cur.iowait)
    (hbusy : prev.user + prev.nice + prev.system + prev.irq + prev.softirq + prev.steal
      ≤ cur.user + cur.nice + cur.system + cur.irq + cur.softirq + cur.steal)
    (h64 : cpu_sum cur < U64_MOD) (hne : cpu_sum cur ≠ cpu_sum prev) :
    get_cpu_usage prev (some cur) = (spec_cpu_usage prev cur, cur) := by
  rw [get_cpu_usage_value hidle hbusy h64 hne]
  have hple : cpu_sum prev ≤ cpu_sum cur := by unfold cpu_sum; omega
  have hle : (cur.idle + cur.iowait) - (prev.idle + prev.iowait) ≤ cpu_sum cur - cpu_sum prev := by
    unfold cpu_sum; omega
  have hpos : (cpu_sum prev : ℚ) < (cpu_sum cur : ℚ) := by
    exact_mod_cast lt_of_le_of_ne hple (Ne.symm hne)
  have hd : (cpu_sum cur : ℚ) - (cpu_sum prev : ℚ) ≠ 0 := by linarith
  congr 1
  rw [Nat.cast_sub hle, Nat.cast_sub hple, Nat.cast_sub hidle]
  unfold spec_cpu_usage
  simp only []
  have e1 : ((cur.user + cur.nice + cur.system + cur.idle + cur.iowait + cur.irq + cur.softirq
      + cur.steal : Nat) : ℚ) = (cpu_sum cur : ℚ) := rfl
  have e2 : ((prev.user + prev.nice + prev.system + prev.idle + prev.iowait + prev.irq
      + prev.softirq + prev.steal : Nat) : ℚ) = (cpu_sum prev : ℚ) := rfl
  rw [e1, e2]
  push_cast
  field_simp
  ring

theorem get_cpu_usage_formula_witness :
    cpu_sum (cpu_sample 130 170 0) ≠ cpu_sum (cpu_sample 100 100 0) ∧
    get_cpu_usage (cpu_sample 100 100 0) (some (cpu_sample 130 170 0))
      = (spec_cpu_usage (cpu_sample 100 100 0) (cpu_sample 130 170 0), cpu_sample 130 170 0) ∧
    spec_cpu_usage (cpu_sample 100 100 0) (cpu_sample 130 170 0) = 30 :=
  ⟨by decide,
   get_cpu_usage_formula (cpu_sample 100 100 0) (cpu_sample 130 170 0) (by decide) (by decide)
     (by decide) (by decide),
   by norm_num [spec_cpu_usage, cpu_sample]⟩

/-- C10 (as stated) fails: with previous counters user 100, idle 100, steal 10
and current counters user 100, idle 120, steal 0, delta total is 10 and not 0,
the formula gives `(1 - 20 / 10) * 100 = -100`, and `get_cpu_usage` returns
`((2 ^ 64 - 10) / 10) * 100`: the unsigned `totald - idled` wraps. -/
theorem get_cpu_usage_formula_counterexample :
    cpu_sum (cpu_sample 100 120 0) ≠ cpu_sum (cpu_sample 100 100 10) ∧
    spec_cpu_usage (cpu_sample 100 100 10) (cpu_sample 100 120 0) = -100 ∧
    (get_cpu_usage (cpu_sample 100 100 10) (some (cpu_sample 100 120 0))).1
      = 184467440737095516060 ∧
    (get_cpu_usage (cpu_sample 100 100 10) (some (cpu_sample 100 120 0))).1
      ≠ spec_cpu_usage (cpu_sample 100 100 10) (cpu_sample 100 120 0) := by
  have hv : (get_cpu_usage (cpu_sample 100 100 10) (some (cpu_sample 100 120 0))).1
      = 184467440737095516060 := by
    norm_num [get_cpu_usage, cpu_total, cpu_idle_total, cpu_non_idle, add64, sub64, U64_MOD,
      cpu_sample, NO_BYTES, PERCENTAGE_MULTIPLIER]
  have hs : spec_cpu_usage (cpu_sample 100 100 10) (cpu_sample 100 120 0) = -100 := by
    norm_num [spec_cpu_usage, cpu_sample]
  refine ⟨by decide, hs, hv, ?_⟩
  rw [hv, hs]
  norm_num

/-- C5 (as amended). The CPU path has no first-sample skip: the first successful
CPU sample is compared with the zero-initialised previous counters, so when its
total is not 0 (and fits in 64 bits) `get_cpu_usage` returns the usage since
boot, `(1 - (idle + iowait) / total) * 100`, `update_cpu_gauge` sets the CPU
gauge to that value, and the sample becomes the previous sample. -/
theorem update_cpu_gauge_first_sample (c : cpu_counters) (h64 : cpu_sum c < U64_MOD)
    (hnz : cpu_sum c ≠ 0) :
    get_cpu_usage cpu_prev_init (some c)
      = ((1 - ((c.idle : ℚ) + (c.iowait : ℚ)) / (cpu_sum c : ℚ)) * 100, c) ∧
    update_cpu_gauge cpu_prev_init (some c)
      = (c, [(Gauge.cpu_usage_metric,
              (1 - ((c.idle : ℚ) + (c.iowait : ℚ)) / (cpu_sum c : ℚ)) * 100)]) := by
  have hs0 : cpu_sum cpu_prev_init = 0 := rfl
  have hv := @get_cpu_usage_value cpu_prev_init c
    (by simp [cpu_prev_init, NO_BYTES]) (by simp [cpu_prev_init, NO_BYTES]) h64
    (by rw [hs0]; exact hnz)
  have hle : c.idle + c.iowait ≤ cpu_sum c := by unfold cpu_sum; omega
  have hpos : (0 : ℚ) < (cpu_sum c : ℚ) := by exact_mod_cast Nat.pos_of_ne_zero hnz
  have hval : ((((cpu_sum c - cpu_sum cpu_prev_init)
        - ((c.idle + c.iowait) - (cpu_prev_init.idle + cpu_prev_init.iowait)) : Nat) : ℚ)
        / ((cpu_sum c - cpu_sum cpu_prev_init : Nat) : ℚ) * 100)
      = (1 - ((c.idle : ℚ) + (c.iowait : ℚ)) / (cpu_sum c : ℚ)) * 100 := by
    have e : cpu_prev_init.idle + cpu_prev_init.iowait = 0 := rfl
    rw [hs0, e, Nat.sub_zero, Nat.sub_zero, Nat.cast_sub hle]
    push_cast
    field_simp
  rw [hval] at hv
  refine ⟨hv, ?_⟩
  have hge : (1 - ((c.idle : ℚ) + (c.iowait : ℚ)) / (cpu_sum c : ℚ)) * 100 ≥ ZERO_VALUE_DOUBLE := by
    have h1 : ((c.idle : ℚ) + (c.iowait : ℚ)) / (cpu_sum c : ℚ) ≤ 1 := by
      rw [div_le_one hpos]
      exact_mod_cast hle
    unfold ZERO_VALUE_DOUBLE
    nlinarith
  simp only [update_cpu_gauge, hv, hge, if_true]

theorem update_cpu_gauge_first_sample_witness :
    cpu_sum (cpu_sample 1 1 0) ≠ 0 ∧
    update_cpu_gauge cpu_prev_init (some (cpu_sample 1 1 0))
      = (cpu_sample 1 1 0,
          [(Gauge.cpu_usage_metric,
            (1 - (((cpu_sample 1 1 0).idle : ℚ) + ((cpu_sample 1 1 0).iowait : ℚ))
              / (cpu_sum (cpu_sample 1 1 0) : ℚ)) * 100)]) :=
  ⟨by decide, (update_cpu_gauge_first_sample (cpu_sample 1 1 0) (by decide) (by decide)).2⟩

/-- C5 (as stated) fails: on the first call of a process lifetime, with the
previous counters still all 0, a sample with user 1 and idle 1 makes
`get_cpu_usage` return 50 and `update_cpu_gauge` set the CPU gauge to 50. -/
theorem update_cpu_gauge_first_sample_counterexample :
    (get_cpu_usage cpu_prev_init (some (cpu_sample 1 1 0))).1 = 50 ∧
    (update_cpu_gauge cpu_prev_init (some (cpu_sample 1 1 0))).2
      = [(Gauge.cpu_usage_metric, 50)] ∧
    (update_cpu_gauge cpu_prev_init (some (cpu_sample 1 1 0))).2 ≠ [] := by
  have hv : get_cpu_usage cpu_prev_init (some (cpu_sample 1 1 0)) = (50, cpu_sample 1 1 0) := by
    norm_num [get_cpu_usage, cpu_total, cpu_idle_total, cpu_non_idle, add64, sub64, U64_MOD,
      cpu_sample, cpu_prev_init, NO_BYTES, PERCENTAGE_MULTIPLIER]
  have hw : (update_cpu_gauge cpu_prev_init (some (cpu_sample 1 1 0))).2
      = [(Gauge.cpu_usage_metric, 50)] := by
    norm_num [update_cpu_gauge, hv, ZERO_VALUE_DOUBLE]
  refine ⟨by rw [hv], hw, ?_⟩
  rw [hw]
  exact List.cons_ne_nil _ _

/-! ## Sample cache -/

theorem cast_time_delta_pos (a b : Int) : ((a - b : Int) : ℚ) > ZERO_VALUE_DOUBLE ↔ b < a := by
  unfold ZERO_VALUE_DOUBLE
  rw [gt_iff_lt, Int.cast_pos]
  omega

/-- A call of `update_disk_metrics` that gets past the detection block runs the
body on the statics with the detection recorded. -/
theorem update_disk_metrics_detected (s : disk_cache) (i : disk_cycle)
    (hdet : s.first_run = true → i.detected ≠ none) :
    update_disk_metrics s i
      = update_disk_metrics_body
          { s with primary_disk := if s.first_run then i.detected else s.primary_disk,
                   first_run := false } i := by
  unfold update_disk_metrics
  cases hf : s.first_run with
  | false =>
    have : s = { s with primary_disk := s.primary_disk, first_run := false } := by
      cases s; simp_all
    simp only [Bool.false_eq_true, if_false]
    exact congrArg (fun t => update_disk_metrics_body t i) this
  | true =>
    cases hd : i.detected with
    | none => exact absurd hd (hdet hf)
    | some d => simp

/-- A call of `update_network_metrics` that gets past the detection block runs
the body on the statics with the detection recorded. -/
theorem update_network_metrics_detected (s : network_cache) (i : network_cycle)
    (hdet : s.first_run = true → i.detected ≠ none) :
    update_network_metrics s i
      = update_network_metrics_body
          { s with primary_interface := if s.first_run then i.detected else s.primary_interface,
                   first_run := false } i := by
  unfold update_network_metrics
  cases hf : s.first_run with
  | false =>
    have : s = { s with primary_interface := s.primary_interface, first_run := false } := by
      cases s; simp_all
    simp only [Bool.false_eq_true, if_false]
    exact congrArg (fun t => update_network_metrics_body t i) this
  | true =>
    cases hd : i.detected with
    | none => exact absurd hd (hdet hf)
    | some d => simp

/-- C3. Normal step: for the disk and network resources, when a baseline exists
(`prev_time > 0`) and a successful read arrives with `dt > 0`, the gauges are
set to the fields of the Delta Engine result computed from (current snapshot,
stored baseline snapshot, dt), and afterwards the stored baseline is the
current snapshot and timestamp; with baseline reads 100, current reads 300 and
`dt = 2` the read-rate gauge is set to 100. -/
theorem normal_step_emits_and_advances :
    (∀ (s : disk_cache) (i : disk_cycle) (cur : disk_stats_t),
      SUCCESS < s.prev_time → (s.first_run = true → i.detected ≠ none) → i.read = some cur →
      s.prev_time < i.now →
      (update_disk_metrics s i).2
        = [(Gauge.disk_read_rate_metric,
              (calculate_disk_health cur s.prev_stats ((i.now - s.prev_time : Int) : ℚ)
                i.health).read_rate),
           (Gauge.disk_write_rate_metric,
              (calculate_disk_health cur s.prev_stats ((i.now - s.prev_time : Int) : ℚ)
                i.health).write_rate),
           (Gauge.disk_utilization_metric,
              (calculate_disk_health cur s.prev_stats ((i.now - s.prev_time : Int) : ℚ)
                i.health).io_utilization),
           (Gauge.disk_queue_depth_metric,
              (calculate_disk_health cur s.prev_stats ((i.now - s.prev_time : Int) : ℚ)
                i.health).queue_depth)] ∧
      (update_disk_metrics s i).1.prev_stats = cur ∧
      (update_disk_metrics s i).1.prev_time = i.now) ∧
    (∀ (s : network_cache) (i : network_cycle) (cur : network_interface_stats_t),
      SUCCESS < s.prev_time → (s.first_run = true → i.detected ≠ none) → i.read = some cur →
      s.prev_time < i.now →
      (update_network_metrics s i).2
        = [(Gauge.network_rx_rate_metric,
              (calculate_network_metrics cur s.prev_stats ((i.now - s.prev_time : Int) : ℚ)
                i.metrics).rx_rate_bps),
           (Gauge.network_tx_rate_metric,
              (calculate_network_metrics cur s.prev_stats ((i.now - s.prev_time : Int) : ℚ)
                i.metrics).tx_rate_bps),
           (Gauge.network_rx_packet_rate_metric,
              (calculate_network_metrics cur s.prev_stats ((i.now - s.prev_time : Int) : ℚ)
                i.metrics).rx_packet_rate),
           (Gauge.network_tx_packet_rate_metric,
              (calculate_network_metrics cur s.prev_stats ((i.now - s.prev_time : Int) : ℚ)
                i.metrics).tx_packet_rate),
           (Gauge.network_rx_error_rate_metric,
              (calculate_network_metrics cur s.prev_stats ((i.now - s.prev_time : Int) : ℚ)
                i.metrics).rx_error_rate),
           (Gauge.network_tx_error_rate_metric,
              (calculate_network_metrics cur s.prev_stats ((i.now - s.prev_time : Int) : ℚ)
                i.metrics).tx_error_rate),
           (Gauge.network_bandwidth_usage_metric,
              (calculate_network_metrics cur s.prev_stats ((i.now - s.prev_time : Int) : ℚ)
                i.metrics).total_bandwidth_usage)] ∧
      (update_network_metrics s i).1.prev_stats = cur ∧
      (update_network_metrics s i).1.prev_time = i.now) ∧
    (∀ (s : disk_cache) (i : disk_cycle) (cur : disk_stats_t),
      SUCCESS < s.prev_time → (s.first_run = true → i.detected ≠ none) → i.read = some cur →
      i.now = s.prev_time + 2 →
      s.prev_stats.reads_completed = 100 → cur.reads_completed = 300 →
      (update_disk_metrics s i).2.head? = some (Gauge.disk_read_rate_metric, 100)) := by
  refine ⟨?_, ?_, ?_⟩
  · intro s i cur hb hdet hr hdt
    rw [update_disk_metrics_detected s i hdet]
    have hpos := (cast_time_delta_pos i.now s.prev_time).2 hdt
    simp only [update_disk_metrics_body, hr, gt_iff_lt, hb, if_true]
    rw [if_pos hpos]
    simp
  · intro s i cur hb hdet hr hdt
    rw [update_network_metrics_detected s i hdet]
    have hpos := (cast_time_delta_pos i.now s.prev_time).2 hdt
    simp only [update_network_metrics_body, hr, gt_iff_lt, hb, if_true]
    rw [if_pos hpos]
    simp
  · intro s i cur hb hdet hr hnow hp hc
    rw [update_disk_metrics_detected s i hdet]
    have hpos := (cast_time_delta_pos i.now s.prev_time).2 (by omega)
    simp only [update_disk_metrics_body, hr, gt_iff_lt, hb, if_true]
    rw [if_pos hpos]
    have hd : ((i.now - s.prev_time : Int) : ℚ) = 2 := by
      have : i.now - s.prev_time = 2 := by omega
      rw [this]; norm_num
    have hrate : (calculate_disk_health cur s.prev_stats ((i.now - s.prev_time : Int) : ℚ)
        i.health).read_rate = 100 := by
      show ((sub64 cur.reads_completed s.prev_stats.reads_completed : Nat) : ℚ) / _ = 100
      rw [hd, cast_sub64_of_le (by omega) (by rw [hc]; decide), hp, hc]
      norm_num
    simp only [List.head?_cons, hrate]

theorem normal_step_emits_and_advances_witness :
    (update_disk_metrics disk_cache_seeded (disk_poll 12 300)).2.head?
      = some (Gauge.disk_read_rate_metric, 100) ∧
    (update_disk_metrics disk_cache_seeded (disk_poll 12 300)).1.prev_stats = disk_sample 300 0 0 ∧
    (update_disk_metrics disk_cache_seeded (disk_poll 12 300)).1.prev_time = (disk_poll 12 300).now ∧
    (update_network_metrics network_cache_seeded (network_poll 12 3000)).1.prev_stats
      = network_sample 3000 0 0 :=
  ⟨normal_step_emits_and_advances.2.2 disk_cache_seeded (disk_poll 12 300) (disk_sample 300 0 0)
      (by decide) (fun _ => by decide) rfl (by decide) (by decide) (by decide),
   (normal_step_emits_and_advances.1 disk_cache_seeded (disk_poll 12 300) (disk_sample 300 0 0)
      (by decide) (fun _ => by decide) rfl (by decide)).2.1,
   (normal_step_emits_and_advances.1 disk_cache_seeded (disk_poll 12 300) (disk_sample 300 0 0)
      (by decide) (fun _ => by decide) rfl (by decide)).2.2,
   (normal_step_emits_and_advances.2.1 network_cache_seeded (network_poll 12 3000)
      (network_sample 3000 0 0) (by decide) (fun _ => by decide) rfl (by decide)).2.1⟩

/-- C4. Read failure: for the disk, network and context resources, a polling
cycle whose snapshot read fails sets no gauge and leaves the stored baseline
snapshot, its timestamp and the has-baseline status (`prev_time > 0`, and for
the context resource also the first-run flag) exactly as they were. -/
theorem read_failure_keeps_baseline :
    (∀ (s : disk_cache) (i : disk_cycle), i.read = none →
      (update_disk_metrics s i).2 = [] ∧
      (update_disk_metrics s i).1.prev_stats = s.prev_stats ∧
      (update_disk_metrics s i).1.prev_time = s.prev_time ∧
      (SUCCESS < (update_disk_metrics s i).1.prev_time ↔ SUCCESS < s.prev_time)) ∧
    (∀ (s : network_cache) (i : network_cycle), i.read = none →
      (update_network_metrics s i).2 = [] ∧
      (update_network_metrics s i).1.prev_stats = s.prev_stats ∧
      (update_network_metrics s i).1.prev_time = s.prev_time ∧
      (SUCCESS < (update_network_metrics s i).1.prev_time ↔ SUCCESS < s.prev_time)) ∧
    (∀ (s : context_cache) (i : context_cycle), i.context = none ∨ i.process = none →
      (update_context_metrics s i).2 = [] ∧
      (update_context_metrics s i).1.prev_context_stats = s.prev_context_stats ∧
      (update_context_metrics s i).1.prev_time = s.prev_time ∧
      (update_context_metrics s i).1.first_run = s.first_run) := by
  refine ⟨?_, ?_, ?_⟩
  · intro s i hr
    unfold update_disk_metrics
    cases hf : s.first_run <;> cases hd : i.detected <;>
      simp [update_disk_metrics_body, hr]
  · intro s i hr
    unfold update_network_metrics
    cases hf : s.first_run <;> cases hd : i.detected <;>
      simp [update_network_metrics_body, hr]
  · intro s i h
    unfold update_context_metrics
    cases hc : i.context with
    | none => simp
    | some c =>
      cases hp : i.process with
      | none => simp
      | some p => rcases h with h | h <;> simp_all

theorem read_failure_keeps_baseline_witness :
    ((update_disk_metrics disk_cache_seeded (disk_poll_failed 12)).2 = [] ∧
      (update_disk_metrics disk_cache_seeded (disk_poll_failed 12)).1.prev_stats
        = disk_cache_seeded.prev_stats ∧
      (update_disk_metrics disk_cache_seeded (disk_poll_failed 12)).1.prev_time
        = disk_cache_seeded.prev_time ∧
      (SUCCESS < (update_disk_metrics disk_cache_seeded (disk_poll_failed 12)).1.prev_time
        ↔ SUCCESS < disk_cache_seeded.prev_time)) ∧
    ((update_network_metrics network_cache_seeded (network_poll_failed 12)).2 = [] ∧
      (update_network_metrics network_cache_seeded (network_poll_failed 12)).1.prev_stats
        = network_cache_seeded.prev_stats ∧
      (update_network_metrics network_cache_seeded (network_poll_failed 12)).1.prev_time
        = network_cache_seeded.prev_time ∧
      (SUCCESS < (update_network_metrics network_cache_seeded (network_poll_failed 12)).1.prev_time
        ↔ SUCCESS < network_cache_seeded.prev_time)) ∧
    ((update_context_metrics context_cache_seeded (context_poll_failed 12 300)).2 = [] ∧
      (update_context_metrics context_cache_seeded (context_poll_failed 12 300)).1.prev_context_stats
        = context_cache_seeded.prev_context_stats ∧
      (update_context_metrics context_cache_seeded (context_poll_failed 12 300)).1.prev_time
        = context_cache_seeded.prev_time ∧
      (update_context_metrics context_cache_seeded (context_poll_failed 12 300)).1.first_run
        = context_cache_seeded.first_run) :=
  ⟨read_failure_keeps_baseline.1 disk_cache_seeded (disk_poll_failed 12) rfl,
   read_failure_keeps_baseline.2.1 network_cache_seeded (network_poll_failed 12) rfl,
   read_failure_keeps_baseline.2.2 context_cache_seeded (context_poll_failed 12 300) (Or.inr rfl)⟩

/-- C1 (as amended). Degenerate interval: for the disk, network and context
resources, when a baseline exists and a successful read arrives with elapsed
time `dt <= 0`, no derived metric is emitted, and the stored baseline is
replaced by the read snapshot and its timestamp (the assignment of the
baseline is outside the `dt > 0` test). -/
theorem degenerate_interval_skips_and_advances :
    (∀ (s : disk_cache) (i : disk_cycle) (cur : disk_stats_t),
      SUCCESS < s.prev_time → (s.first_run = true → i.detected ≠ none) → i.read = some cur →
      i.now - s.prev_time ≤ 0 →
      (update_disk_metrics s i).2 = [] ∧
      (update_disk_metrics s i).1.prev_stats = cur ∧
      (update_disk_metrics s i).1.prev_time = i.now) ∧
    (∀ (s : network_cache) (i : network_cycle) (cur : network_interface_stats_t),
      SUCCESS < s.prev_time → (s.first_run = true → i.detected ≠ none) → i.read = some cur →
      i.now - s.prev_time ≤ 0 →
      (update_network_metrics s i).2 = [] ∧
      (update_network_metrics s i).1.prev_stats = cur ∧
      (update_network_metrics s i).1.prev_time = i.now) ∧
    (∀ (s : context_cache) (i : context_cycle) (cur : context_stats_t) (p : process_stats_t),
      s.first_run = false → SUCCESS < s.prev_time → i.context = some cur → i.process = some p →
      i.now - s.prev_time ≤ 0 →
      (update_context_metrics s i).2 = [] ∧
      (update_context_metrics s i).1.prev_context_stats = cur ∧
      (update_context_metrics s i).1.prev_time = i.now) := by
  refine ⟨?_, ?_, ?_⟩
  · intro s i cur hb hdet hr hdt
    rw [update_disk_metrics_detected s i hdet]
    have hneg : ¬ ((i.now - s.prev_time : Int) : ℚ) > ZERO_VALUE_DOUBLE := by
      rw [cast_time_delta_pos]; omega
    simp only [update_disk_metrics_body, hr, gt_iff_lt, hb, if_true]
    rw [if_neg hneg]
    simp
  · intro s i cur hb hdet hr hdt
    rw [update_network_metrics_detected s i hdet]
    have hneg : ¬ ((i.now - s.prev_time : Int) : ℚ) > ZERO_VALUE_DOUBLE := by
      rw [cast_time_delta_pos]; omega
    simp only [update_network_metrics_body, hr, gt_iff_lt, hb, if_true]
    rw [if_neg hneg]
    simp
  · intro s i cur p hf hb hc hp hdt
    have hneg : ¬ ((i.now - s.prev_time : Int) : ℚ) > ZERO_VALUE_DOUBLE := by
      rw [cast_time_delta_pos]; omega
    simp only [update_context_metrics, hc, hp, hf, gt_iff_lt, hb, Bool.not_false, decide_True,
      Bool.and_self, if_true]
    rw [if_neg hneg]
    simp

theorem degenerate_interval_skips_and_advances_witness :
    ((update_disk_metrics disk_cache_seeded (disk_poll 10 200)).2 = [] ∧
      (update_disk_metrics disk_cache_seeded (disk_poll 10 200)).1.prev_stats = disk_sample 200 0 0 ∧
      (update_disk_metrics disk_cache_seeded (disk_poll 10 200)).1.prev_time
        = (disk_poll 10 200).now) ∧
    ((update_network_metrics network_cache_seeded (network_poll 9 2000)).2 = [] ∧
      (update_network_metrics network_cache_seeded (network_poll 9 2000)).1.prev_stats
        = network_sample 2000 0 0 ∧
      (update_network_metrics network_cache_seeded (network_poll 9 2000)).1.prev_time
        = (network_poll 9 2000).now) ∧
    ((update_context_metrics context_cache_seeded (context_poll 10 200)).2 = [] ∧
      (update_context_metrics context_cache_seeded (context_poll 10 200)).1.prev_context_stats
        = context_sample 200 ∧
      (update_context_metrics context_cache_seeded (context_poll 10 200)).1.prev_time
        = (context_poll 10 200).now) :=
  ⟨degenerate_interval_skips_and_advances.1 disk_cache_seeded (disk_poll 10 200)
      (disk_sample 200 0 0) (by decide) (fun _ => by decide) rfl (by decide),
   degenerate_interval_skips_and_advances.2.1 network_cache_seeded (network_poll 9 2000)
      (network_sample 2000 0 0) (by decide) (fun _ => by decide) rfl (by decide),
   degenerate_interval_skips_and_advances.2.2 context_cache_seeded (context_poll 10 200)
      (context_sample 200) process_stats_zero (by decide) (by decide) rfl rfl (by decide)⟩

/-- C1 (as stated) fails. Three successful disk polls: 100 reads at time 10
(seeds the baseline), 200 reads at time 10 (`dt = 0`), 300 reads at time 12.
The second poll emits nothing but replaces the stored baseline, so the third
poll sets the read-rate gauge to `(300 - 200) / 2 = 50`, the delta against the
skipped sample, and not to `(300 - 100) / 2 = 100`, the delta against the
original baseline. -/
theorem degenerate_interval_counterexample :
    SUCCESS < disk_cache_seeded.prev_time ∧
    (disk_poll 10 200).now - disk_cache_seeded.prev_time ≤ 0 ∧
    disk_cache_seeded.prev_stats = disk_sample 100 0 0 ∧
    (update_disk_metrics disk_cache_seeded (disk_poll 10 200)).2 = [] ∧
    (update_disk_metrics disk_cache_seeded (disk_poll 10 200)).1.prev_stats
      ≠ disk_cache_seeded.prev_stats ∧
    (update_disk_metrics (update_disk_metrics disk_cache_seeded (disk_poll 10 200)).1
        (disk_poll 12 300)).2.head? = some (Gauge.disk_read_rate_metric, 50) ∧
    (calculate_disk_health (disk_sample 300 0 0) disk_cache_seeded.prev_stats 2
        health_garbage).read_rate = 100 := by
  have hs : disk_cache_seeded
      = { prev_stats := disk_sample 100 0 0, prev_time := 10, primary_disk := some "sda",
          first_run := false } := by
    simp [disk_cache_seeded, update_disk_metrics, update_disk_metrics_body, disk_cache_init,
      disk_poll, SUCCESS]
  have h2 : update_disk_metrics disk_cache_seeded (disk_poll 10 200)
      = ({ prev_stats := disk_sample 200 0 0, prev_time := 10, primary_disk := some "sda",
           first_run := false }, []) := by
    rw [hs]
    simp [update_disk_metrics, update_disk_metrics_body, disk_poll, SUCCESS, ZERO_VALUE_DOUBLE]
  have h3 : (update_disk_metrics (update_disk_metrics disk_cache_seeded (disk_poll 10 200)).1
      (disk_poll 12 300)).2.head? = some (Gauge.disk_read_rate_metric, 50) := by
    rw [h2]
    norm_num [update_disk_metrics, update_disk_metrics_body, disk_poll, SUCCESS,
      ZERO_VALUE_DOUBLE, calculate_disk_health, disk_sample, sub64, U64_MOD]
  refine ⟨by rw [hs]; decide, by rw [hs]; decide, by rw [hs], by rw [h2], ?_, h3, ?_⟩
  · rw [h2, hs]
    decide
  · rw [hs]
    norm_num [calculate_disk_health, disk_sample, sub64, U64_MOD]

/-! ## Delta engine: average wait time, wraparound, determinism -/

theorem add64_lt (a b : Nat) : add64 a b < U64_MOD := by
  unfold add64
  exact Nat.mod_lt _ (by unfold U64_MOD; norm_num)

/-- C11. `calculate_disk_health` sets `avg_wait_time = delta time_io / delta
(reads_completed + writes_completed)` when that delta of completed I/Os (the
64-bit difference the code computes) is `> 0`; when it is 0 the `avg_wait_time`
field of the output keeps exactly the value it had before the call. For
counters that did not decrease and fit in 64 bits the quotient is that of the
exact differences. -/
theorem calculate_disk_health_avg_wait_time (cur prev : disk_stats_t) (dt : ℚ)
    (health : disk_health_metrics_t) :
    (0 < sub64 (add64 cur.reads_completed cur.writes_completed)
          (add64 prev.reads_completed prev.writes_completed) →
      (calculate_disk_health cur prev dt health).avg_wait_time
        = (sub64 cur.time_io prev.time_io : ℚ)
            / (sub64 (add64 cur.reads_completed cur.writes_completed)
                (add64 prev.reads_completed prev.writes_completed) : ℚ)) ∧
    (sub64 (add64 cur.reads_completed cur.writes_completed)
          (add64 prev.reads_completed prev.writes_completed) = 0 →
      (calculate_disk_health cur prev dt health).avg_wait_time = health.avg_wait_time) ∧
    (prev.time_io ≤ cur.time_io → cur.time_io < U64_MOD →
      prev.reads_completed + prev.writes_completed < cur.reads_completed + cur.writes_completed →
      cur.reads_completed + cur.writes_completed < U64_MOD →
      (calculate_disk_health cur prev dt health).avg_wait_time
        = ((cur.time_io : ℚ) - (prev.time_io : ℚ))
            / (((cur.reads_completed : ℚ) + (cur.writes_completed : ℚ))
                - ((prev.reads_completed : ℚ) + (prev.writes_completed : ℚ)))) := by
  refine ⟨?_, ?_, ?_⟩
  · intro h
    simp only [calculate_disk_health, NO_BYTES, gt_iff_lt, h, if_true]
  · intro h
    simp only [calculate_disk_health, NO_BYTES, gt_iff_lt, h, lt_irrefl, if_false]
  · intro ht ht64 hlt h64
    have hc : add64 cur.reads_completed cur.writes_completed
        = cur.reads_completed + cur.writes_completed := add64_of_lt h64
    have hp : add64 prev.reads_completed prev.writes_completed
        = prev.reads_completed + prev.writes_completed := add64_of_lt (by omega)
    have hd : sub64 (add64 cur.reads_completed cur.writes_completed)
        (add64 prev.reads_completed prev.writes_completed)
        = (cur.reads_completed + cur.writes_completed)
          - (prev.reads_completed + prev.writes_completed) := by
      rw [hc, hp, sub64_of_le (le_of_lt hlt) h64]
    have hpos : 0 < (cur.reads_completed + cur.writes_completed)
          - (prev.reads_completed + prev.writes_completed) := by omega
    simp only [calculate_disk_health, NO_BYTES, gt_iff_lt, hd, hpos, if_true]
    rw [cast_sub64_of_le ht ht64, Nat.cast_sub (le_of_lt hlt)]
    push_cast
    rfl

theorem calculate_disk_health_avg_wait_time_witness :
    (sub64 (add64 (disk_sample 100 50 30).reads_completed (disk_sample 100 50 30).writes_completed)
        (add64 (disk_sample 100 50 30).reads_completed (disk_sample 100 50 30).writes_completed)
        = 0 ∧
      (calculate_disk_health (disk_sample 100 50 30) (disk_sample 100 50 30) 2
        health_garbage).avg_wait_time = health_garbage.avg_wait_time) ∧
    (calculate_disk_health (disk_sample 130 60 110) (disk_sample 100 50 30) 2
        health_garbage).avg_wait_time
      = (((disk_sample 130 60 110).time_io : ℚ) - ((disk_sample 100 50 30).time_io : ℚ))
          / ((((disk_sample 130 60 110).reads_completed : ℚ)
                + ((disk_sample 130 60 110).writes_completed : ℚ))
              - (((disk_sample 100 50 30).reads_completed : ℚ)
                + ((disk_sample 100 50 30).writes_completed : ℚ))) :=
  ⟨⟨by decide,
    (calculate_disk_health_avg_wait_time (disk_sample 100 50 30) (disk_sample 100 50 30) 2
      health_garbage).2.1 (by decide)⟩,
   (calculate_disk_health_avg_wait_time (disk_sample 130 60 110) (disk_sample 100 50 30) 2
      health_garbage).2.2 (by decide) (by decide) (by decide) (by decide)⟩

theorem sub64_cast_int (a b : Nat) :
    ((sub64 a b : Nat) : Int) = ((a : Int) - (b : Int)) % (2 ^ 64 : Int) := by
  unfold sub64 U64_MOD
  omega

theorem rate_nonneg (n : Nat) {dt : ℚ} (hdt : 0 < dt) : (0 : ℚ) ≤ (n : ℚ) / dt :=
  div_nonneg (Nat.cast_nonneg n) (le_of_lt hdt)

/-- The unsigned 64-bit subtraction of the code is `(cur - prev) mod 2 ^ 64`. -/
theorem wrapped_delta_eq_sub64 (cur prev : Nat) : wrapped_delta cur prev = sub64 cur prev := by
  unfold wrapped_delta
  rw [← sub64_cast_int]
  exact Int.toNat_natCast _

/-- A rate computed from a counter that decreased. -/
theorem wrapped_rate_of_lt {cur prev : Nat} {dt : ℚ} (hlt : cur < prev) (hp : prev < 2 ^ 64)
    (hdt : 0 < dt) :
    ((sub64 cur prev : Nat) : ℚ) / dt = ((cur + 2 ^ 64 - prev : Nat) : ℚ) / dt ∧
    0 < ((sub64 cur prev : Nat) : ℚ) / dt := by
  have h : sub64 cur prev = cur + 2 ^ 64 - prev := by
    unfold sub64 U64_MOD
    have hb : prev % 2 ^ 64 = prev := Nat.mod_eq_of_lt hp
    rw [hb]
    omega
  rw [h]
  refine ⟨rfl, div_pos ?_ hdt⟩
  have : 0 < cur + 2 ^ 64 - prev := by omega
  exact_mod_cast this

/-- C12. Counter wraparound: every delta the Delta Engine takes is the
unsigned 64-bit difference `(cur - prev) mod 2 ^ 64`: the results of
`calculate_disk_health`, `calculate_network_metrics` and
`calculate_system_performance_metrics` are the rate formulas on these deltas,
for all counters. When a current counter is smaller than the previous one the
delta is `cur + 2 ^ 64 - prev`, a positive value, and the rate the engine
returns for it is that value over `dt`, positive for `dt > 0`; for `dt > 0` no
rate of the engine is negative, whatever the counters. -/
theorem counter_wraparound_rates_nonneg :
    (∀ (cur prev : disk_stats_t) (dt : ℚ) (h : disk_health_metrics_t),
      calculate_disk_health cur prev dt h
        = { read_rate := (wrapped_delta cur.reads_completed prev.reads_completed : ℚ) / dt
            write_rate := (wrapped_delta cur.writes_completed prev.writes_completed : ℚ) / dt
            io_utilization :=
              (wrapped_delta cur.time_io prev.time_io : ℚ) / (dt * 1000) * 100
            avg_wait_time :=
              if wrapped_delta ((cur.reads_completed + cur.writes_completed) % 2 ^ 64)
                  ((prev.reads_completed + prev.writes_completed) % 2 ^ 64) > 0 then
                (wrapped_delta cur.time_io prev.time_io : ℚ)
                  / (wrapped_delta ((cur.reads_completed + cur.writes_completed) % 2 ^ 64)
                      ((prev.reads_completed + prev.writes_completed) % 2 ^ 64) : ℚ)
              else h.avg_wait_time
            queue_depth := (cur.ios_in_progress : ℚ) }) ∧
    (∀ (cur prev : network_interface_stats_t) (dt : ℚ) (m : network_metrics_t),
      calculate_network_metrics cur prev dt m
        = { rx_rate_bps := (wrapped_delta cur.rx_bytes prev.rx_bytes : ℚ) / dt
            tx_rate_bps := (wrapped_delta cur.tx_bytes prev.tx_bytes : ℚ) / dt
            rx_packet_rate := (wrapped_delta cur.rx_packets prev.rx_packets : ℚ) / dt
            tx_packet_rate := (wrapped_delta cur.tx_packets prev.tx_packets : ℚ) / dt
            rx_error_rate :=
              if wrapped_delta cur.rx_packets prev.rx_packets > 0 then
                (wrapped_delta cur.rx_errors prev.rx_errors : ℚ)
                  / (wrapped_delta cur.rx_packets prev.rx_packets : ℚ) * 100
              else 0
            tx_error_rate :=
              if wrapped_delta cur.tx_packets prev.tx_packets > 0 then
                (wrapped_delta cur.tx_errors prev.tx_errors : ℚ)
                  / (wrapped_delta cur.tx_packets prev.tx_packets : ℚ) * 100
              else 0
            total_bandwidth_usage :=
              (wrapped_delta cur.rx_bytes prev.rx_bytes : ℚ) / dt
                + (wrapped_delta cur.tx_bytes prev.tx_bytes : ℚ) / dt }) ∧
    (∀ (cur prev : context_stats_t) (p : process_stats_t) (dt : ℚ)
        (m : system_performance_metrics_t),
      (calculate_system_performance_metrics cur prev p dt m).context_switch_rate
        = (wrapped_delta cur.context_switches prev.context_switches : ℚ) / dt ∧
      (calculate_system_performance_metrics cur prev p dt m).process_creation_rate
        = (wrapped_delta cur.processes_created prev.processes_created : ℚ) / dt ∧
      (calculate_system_performance_metrics cur prev p dt m).interrupt_rate
        = (wrapped_delta cur.interrupts prev.interrupts : ℚ) / dt) ∧
    (∀ cur prev : Nat, cur < prev → prev < 2 ^ 64 →
      wrapped_delta cur prev = cur + 2 ^ 64 - prev ∧ 0 < wrapped_delta cur prev) ∧
    (∀ cur prev : Nat, prev ≤ cur → cur < 2 ^ 64 → wrapped_delta cur prev = cur - prev) ∧
    (∀ (cur prev : disk_stats_t) (dt : ℚ) (h : disk_health_metrics_t), 0 < dt →
      (cur.reads_completed < prev.reads_completed → prev.reads_completed < 2 ^ 64 →
        (calculate_disk_health cur prev dt h).read_rate
          = ((cur.reads_completed + 2 ^ 64 - prev.reads_completed : Nat) : ℚ) / dt ∧
        0 < (calculate_disk_health cur prev dt h).read_rate) ∧
      (cur.writes_completed < prev.writes_completed → prev.writes_completed < 2 ^ 64 →
        (calculate_disk_health cur prev dt h).write_rate
          = ((cur.writes_completed + 2 ^ 64 - prev.writes_completed : Nat) : ℚ) / dt ∧
        0 < (calculate_disk_health cur prev dt h).write_rate) ∧
      (cur.time_io < prev.time_io → prev.time_io < 2 ^ 64 →
        (calculate_disk_health cur prev dt h).io_utilization
          = ((cur.time_io + 2 ^ 64 - prev.time_io : Nat) : ℚ) / (dt * 1000) * 100 ∧
        0 < (calculate_disk_health cur prev dt h).io_utilization)) ∧
    (∀ (cur prev : network_interface_stats_t) (dt : ℚ) (m : network_metrics_t), 0 < dt →
      (cur.rx_bytes < prev.rx_bytes → prev.rx_bytes < 2 ^ 64 →
        (calculate_network_metrics cur prev dt m).rx_rate_bps
          = ((cur.rx_bytes + 2 ^ 64 - prev.rx_bytes : Nat) : ℚ) / dt ∧
        0 < (calculate_network_metrics cur prev dt m).rx_rate_bps) ∧
      (cur.tx_bytes < prev.tx_bytes → prev.tx_bytes < 2 ^ 64 →
        (calculate_network_metrics cur prev dt m).tx_rate_bps
          = ((cur.tx_bytes + 2 ^ 64 - prev.tx_bytes : Nat) : ℚ) / dt ∧
        0 < (calculate_network_metrics cur prev dt m).tx_rate_bps) ∧
      (cur.rx_packets < prev.rx_packets → prev.rx_packets < 2 ^ 64 →
        (calculate_network_metrics cur prev dt m).rx_packet_rate
          = ((cur.rx_packets + 2 ^ 64 - prev.rx_packets : Nat) : ℚ) / dt ∧
        0 < (calculate_network_metrics cur prev dt m).rx_packet_rate) ∧
      (cur.tx_packets < prev.tx_packets → prev.tx_packets < 2 ^ 64 →
        (calculate_network_metrics cur prev dt m).tx_packet_rate
          = ((cur.tx_packets + 2 ^ 64 - prev.tx_packets : Nat) : ℚ) / dt ∧
        0 < (calculate_network_metrics cur prev dt m).tx_packet_rate)) ∧
    (∀ (cur prev : context_stats_t) (p : process_stats_t) (dt : ℚ)
        (m : system_performance_metrics_t), 0 < dt →
      (cur.context_switches < prev.context_switches → prev.context_switches < 2 ^ 64 →
        (calculate_system_performance_metrics cur prev p dt m).context_switch_rate
          = ((cur.context_switches + 2 ^ 64 - prev.context_switches : Nat) : ℚ) / dt ∧
        0 < (calculate_system_performance_metrics cur prev p dt m).context_switch_rate) ∧
      (cur.processes_created < prev.processes_created → prev.processes_created < 2 ^ 64 →
        (calculate_system_performance_metrics cur prev p dt m).process_creation_rate
          = ((cur.processes_created + 2 ^ 64 - prev.processes_created : Nat) : ℚ) / dt ∧
        0 < (calculate_system_performance_metrics cur prev p dt m).process_creation_rate) ∧
      (cur.interrupts < prev.interrupts → prev.interrupts < 2 ^ 64 →
        (calculate_system_performance_metrics cur prev p dt m).interrupt_rate
          = ((cur.interrupts + 2 ^ 64 - prev.interrupts : Nat) : ℚ) / dt ∧
        0 < (calculate_system_performance_metrics cur prev p dt m).interrupt_rate)) ∧
    (∀ cur prev : Nat,
      ((sub64 cur prev : Nat) : Int) = ((cur : Int) - (prev : Int)) % (2 ^ 64 : Int)) ∧
    (∀ cur prev : Nat, cur < prev → prev < U64_MOD →
      sub64 cur prev = cur + U64_MOD - prev ∧ 0 < sub64 cur prev) ∧
    (∀ (cur prev : disk_stats_t) (dt : ℚ) (h : disk_health_metrics_t), 0 < dt →
      0 ≤ (calculate_disk_health cur prev dt h).read_rate ∧
      0 ≤ (calculate_disk_health cur prev dt h).write_rate ∧
      0 ≤ (calculate_disk_health cur prev dt h).io_utilization) ∧
    (∀ (cur prev : network_interface_stats_t) (dt : ℚ) (m : network_metrics_t), 0 < dt →
      0 ≤ (calculate_network_metrics cur prev dt m).rx_rate_bps ∧
      0 ≤ (calculate_network_metrics cur prev dt m).tx_rate_bps ∧
      0 ≤ (calculate_network_metrics cur prev dt m).rx_packet_rate ∧
      0 ≤ (calculate_network_metrics cur prev dt m).tx_packet_rate ∧
      0 ≤ (calculate_network_metrics cur prev dt m).total_bandwidth_usage) ∧
    (∀ (cur prev : context_stats_t) (p : process_stats_t) (dt : ℚ)
        (m : system_performance_metrics_t), 0 < dt →
      0 ≤ (calculate_system_performance_metrics cur prev p dt m).context_switch_rate ∧
      0 ≤ (calculate_system_performance_metrics cur prev p dt m).process_creation_rate ∧
      0 ≤ (calculate_system_performance_metrics cur prev p dt m).interrupt_rate) := by
  have hlt : ∀ cur prev : Nat, cur < prev → prev < U64_MOD →
      sub64 cur prev = cur + U64_MOD - prev ∧ 0 < sub64 cur prev := by
    intro cur prev hlt hp
    have h : sub64 cur prev = cur + U64_MOD - prev := by
      unfold sub64 U64_MOD at *
      have hb : prev % 2 ^ 64 = prev := Nat.mod_eq_of_lt hp
      rw [hb]
      omega
    refine ⟨h, ?_⟩
    rw [h]
    omega
  refine ⟨?_, ?_, ?_, ?_, ?_, ?_, ?_, ?_, sub64_cast_int, hlt, ?_, ?_, ?_⟩
  · intro cur prev dt h
    simp only [wrapped_delta_eq_sub64]
    rfl
  · intro cur prev dt m
    simp only [wrapped_delta_eq_sub64]
    rfl
  · intro cur prev p dt m
    simp only [wrapped_delta_eq_sub64]
    exact ⟨rfl, rfl, rfl⟩
  · intro cur prev h hp
    rw [wrapped_delta_eq_sub64]
    exact hlt cur prev h hp
  · intro cur prev h hc
    rw [wrapped_delta_eq_sub64]
    exact sub64_of_le h hc
  · intro cur prev dt h hdt
    refine ⟨fun h1 h2 => wrapped_rate_of_lt h1 h2 hdt, fun h1 h2 => wrapped_rate_of_lt h1 h2 hdt,
      ?_⟩
    intro h1 h2
    have hd : (0 : ℚ) < dt * 1000 := by linarith
    obtain ⟨he, hpos⟩ := wrapped_rate_of_lt h1 h2 hd
    show ((sub64 cur.time_io prev.time_io : Nat) : ℚ) / (dt * MILLISECONDS_TO_SECONDS)
        * PERCENTAGE_MULTIPLIER = _ ∧
      0 < ((sub64 cur.time_io prev.time_io : Nat) : ℚ) / (dt * MILLISECONDS_TO_SECONDS)
        * PERCENTAGE_MULTIPLIER
    unfold MILLISECONDS_TO_SECONDS PERCENTAGE_MULTIPLIER
    rw [he] at hpos ⊢
    exact ⟨rfl, by linarith⟩
  · intro cur prev dt m hdt
    exact ⟨fun h1 h2 => wrapped_rate_of_lt h1 h2 hdt, fun h1 h2 => wrapped_rate_of_lt h1 h2 hdt,
      fun h1 h2 => wrapped_rate_of_lt h1 h2 hdt, fun h1 h2 => wrapped_rate_of_lt h1 h2 hdt⟩
  · intro cur prev p dt m hdt
    exact ⟨fun h1 h2 => wrapped_rate_of_lt h1 h2 hdt, fun h1 h2 => wrapped_rate_of_lt h1 h2 hdt,
      fun h1 h2 => wrapped_rate_of_lt h1 h2 hdt⟩
  · intro cur prev dt h hdt
    refine ⟨rate_nonneg _ hdt, rate_nonneg _ hdt, ?_⟩
    show (0 : ℚ) ≤ ((sub64 cur.time_io prev.time_io : Nat) : ℚ)
      / (dt * MILLISECONDS_TO_SECONDS) * PERCENTAGE_MULTIPLIER
    unfold MILLISECONDS_TO_SECONDS PERCENTAGE_MULTIPLIER
    have := rate_nonneg (sub64 cur.time_io prev.time_io) (show (0 : ℚ) < dt * 1000 by linarith)
    linarith
  · intro cur prev dt m hdt
    refine ⟨rate_nonneg _ hdt, rate_nonneg _ hdt, rate_nonneg _ hdt, rate_nonneg _ hdt, ?_⟩
    exact add_nonneg (rate_nonneg _ hdt) (rate_nonneg _ hdt)
  · intro cur prev p dt m hdt
    exact ⟨rate_nonneg _ hdt, rate_nonneg _ hdt, rate_nonneg _ hdt⟩

theorem counter_wraparound_rates_nonneg_witness :
    ((0 : ℚ) < 2 ∧ (disk_sample 5 0 0).reads_completed < (disk_sample 10 0 0).reads_completed ∧
      (disk_sample 10 0 0).reads_completed < 2 ^ 64) ∧
    ((calculate_disk_health (disk_sample 5 0 0) (disk_sample 10 0 0) 2 health_garbage).read_rate
        = (((disk_sample 5 0 0).reads_completed + 2 ^ 64
              - (disk_sample 10 0 0).reads_completed : Nat) : ℚ) / 2 ∧
      0 < (calculate_disk_health (disk_sample 5 0 0) (disk_sample 10 0 0) 2
        health_garbage).read_rate) ∧
    (0 ≤ (calculate_disk_health (disk_sample 5 0 0) (disk_sample 10 0 0) 2
          health_garbage).read_rate ∧
      0 ≤ (calculate_disk_health (disk_sample 5 0 0) (disk_sample 10 0 0) 2
          health_garbage).write_rate ∧
      0 ≤ (calculate_disk_health (disk_sample 5 0 0) (disk_sample 10 0 0) 2
          health_garbage).io_utilization) ∧
    (calculate_disk_health (disk_sample 5 0 0) (disk_sample 10 0 0) 2 health_garbage).read_rate
      = 9223372036854775805.5 :=
  ⟨⟨by norm_num, by decide, by decide⟩,
   (counter_wraparound_rates_nonneg.2.2.2.2.2.1 (disk_sample 5 0 0) (disk_sample 10 0 0) 2
      health_garbage (by norm_num)).1 (by decide) (by decide),
   counter_wraparound_rates_nonneg.2.2.2.2.2.2.2.2.2.2.1 (disk_sample 5 0 0) (disk_sample 10 0 0)
     2 health_garbage (by norm_num),
   by norm_num [calculate_disk_health, disk_sample, sub64, U64_MOD]⟩

/-- C13 (as amended). Delta Engine determinism: `calculate_network_metrics` and
`calculate_system_performance_metrics` overwrite every field, so two calls with
equal inputs yield equal structs whatever the output struct contained before.
`calculate_disk_health` does so for the read rate, write rate, utilization and
queue depth, and for the whole struct when the delta of completed I/Os is
`> 0`; when that delta is 0 the `avg_wait_time` of the result is the value the
output struct held before the call. -/
theorem delta_engine_determinism :
    (∀ (cur prev : network_interface_stats_t) (dt : ℚ) (m1 m2 : network_metrics_t),
      calculate_network_metrics cur prev dt m1 = calculate_network_metrics cur prev dt m2) ∧
    (∀ (cur prev : context_stats_t) (p : process_stats_t) (dt : ℚ)
        (m1 m2 : system_performance_metrics_t),
      calculate_system_performance_metrics cur prev p dt m1
        = calculate_system_performance_metrics cur prev p dt m2) ∧
    (∀ (cur prev : disk_stats_t) (dt : ℚ) (h1 h2 : disk_health_metrics_t),
      (calculate_disk_health cur prev dt h1).read_rate
        = (calculate_disk_health cur prev dt h2).read_rate ∧
      (calculate_disk_health cur prev dt h1).write_rate
        = (calculate_disk_health cur prev dt h2).write_rate ∧
      (calculate_disk_health cur prev dt h1).io_utilization
        = (calculate_disk_health cur prev dt h2).io_utilization ∧
      (calculate_disk_health cur prev dt h1).queue_depth
        = (calculate_disk_health cur prev dt h2).queue_depth) ∧
    (∀ (cur prev : disk_stats_t) (dt : ℚ) (h1 h2 : disk_health_metrics_t),
      0 < sub64 (add64 cur.reads_completed cur.writes_completed)
            (add64 prev.reads_completed prev.writes_completed) →
      calculate_disk_health cur prev dt h1 = calculate_disk_health cur prev dt h2) ∧
    (∀ (cur prev : disk_stats_t) (dt : ℚ) (h1 : disk_health_metrics_t),
      sub64 (add64 cur.reads_completed cur.writes_completed)
            (add64 prev.reads_completed prev.writes_completed) = 0 →
      (calculate_disk_health cur prev dt h1).avg_wait_time = h1.avg_wait_time) := by
  refine ⟨fun _ _ _ _ _ => rfl, fun _ _ _ _ _ _ => rfl, fun _ _ _ _ _ => ⟨rfl, rfl, rfl, rfl⟩,
    ?_, ?_⟩
  · intro cur prev dt h1 h2 h
    simp only [calculate_disk_health, NO_BYTES, gt_iff_lt, h, if_true]
  · intro cur prev dt h1 h
    simp only [calculate_disk_health, NO_BYTES, gt_iff_lt, h, lt_irrefl, if_false]

theorem delta_engine_determinism_witness :
    calculate_disk_health (disk_sample 130 60 110) (disk_sample 100 50 30) 2 health_garbage
      = calculate_disk_health (disk_sample 130 60 110) (disk_sample 100 50 30) 2 health_other ∧
    (calculate_disk_health (disk_sample 100 50 30) (disk_sample 100 50 30) 2
      health_other).avg_wait_time = health_other.avg_wait_time :=
  ⟨delta_engine_determinism.2.2.2.1 (disk_sample 130 60 110) (disk_sample 100 50 30) 2
      health_garbage health_other (by decide),
   delta_engine_determinism.2.2.2.2 (disk_sample 100 50 30) (disk_sample 100 50 30) 2
      health_other (by decide)⟩

/-- C13 (as stated) fails for `calculate_disk_health`: two calls with the same
current snapshot, previous snapshot (no I/O completed in between) and `dt`
yield structs that differ in `avg_wait_time` when the output structs held 7 and
3 there before the calls. -/
theorem delta_engine_determinism_counterexample :
    (calculate_disk_health (disk_sample 100 50 30) (disk_sample 100 50 30) 2
      health_garbage).avg_wait_time = 7 ∧
    (calculate_disk_health (disk_sample 100 50 30) (disk_sample 100 50 30) 2
      health_other).avg_wait_time = 3 ∧
    calculate_disk_health (disk_sample 100 50 30) (disk_sample 100 50 30) 2 health_garbage
      ≠ calculate_disk_health (disk_sample 100 50 30) (disk_sample 100 50 30) 2 health_other := by
  have h1 : (calculate_disk_health (disk_sample 100 50 30) (disk_sample 100 50 30) 2
      health_garbage).avg_wait_time = 7 := by
    norm_num [calculate_disk_health, disk_sample, sub64, add64, U64_MOD, NO_BYTES, health_garbage]
  have h2 : (calculate_disk_health (disk_sample 100 50 30) (disk_sample 100 50 30) 2
      health_other).avg_wait_time = 3 := by
    norm_num [calculate_disk_health, disk_sample, sub64, add64, U64_MOD, NO_BYTES, health_other]
  refine ⟨h1, h2, ?_⟩
  intro h
  have h3 := congrArg disk_health_metrics_t.avg_wait_time h
  rw [h1, h2] at h3
  norm_num at h3

/-! ## Disk detection -/

/-- One iteration of the loop of `detect_primary_disk`, in terms of the row read. -/
theorem detect_primary_disk_scan_cons (line : String) (rest : List String) :
    detect_primary_disk_scan (line :: rest)
      = match disk_row line with
        | some (dev_name, reads, writes) =>
          if (reads > NO_BYTES || writes > NO_BYTES) && disk_name_test dev_name then
            String.mk (strncpy dev_name (DEVICE_NAME_SIZE - BUFFER_NULL_TERMINATOR_SPACE))
          else detect_primary_disk_scan rest
        | none => detect_primary_disk_scan rest := by
  rw [detect_primary_disk_scan]
  split
  · rename_i a b dev_name reads c d e writes h
    have hr : disk_row line = some (dev_name, reads, writes) := by
      unfold disk_row
      rw [h]
    rw [hr]
  · rename_i h
    have hr : disk_row line = none := by
      unfold disk_row
      split
      · rename_i h2
        exact absurd h2 (h _ _ _ _ _ _ _ _)
      · rfl
    rw [hr]

theorem spec_disk_candidate_of_row {line : String} {name : List Char} {reads writes : Nat}
    (h : disk_row line = some (name, reads, writes)) :
    spec_disk_candidate line
      = ((decide (reads > NO_BYTES) || decide (writes > NO_BYTES)) && disk_name_test name) := by
  unfold spec_disk_candidate
  rw [h]
  have e : decide (reads + writes > 0) = (decide (reads > NO_BYTES) || decide (writes > NO_BYTES)) := by
    unfold NO_BYTES
    by_cases h1 : reads > 0 <;> by_cases h2 : writes > 0 <;> simp [h1, h2]
  simp only [e, disk_name_test, has_partition_marker, SD_DEVICE_LENGTH, beq_iff_eq]
  congr 2

theorem spec_disk_candidate_of_none {line : String} (h : disk_row line = none) :
    spec_disk_candidate line = false := by
  unfold spec_disk_candidate
  rw [h]

theorem strncpy_of_fit {name : List Char} {n : Nat} (h : name.length ≤ n) :
    strncpy name n = name := by
  unfold strncpy
  exact List.take_of_length_le h

/-- The loop of `detect_primary_disk` computes the result of the specification
on tables whose device names fit the 32-byte buffer. -/
theorem detect_primary_disk_scan_eq_spec (lines : List String)
    (hfit : ∀ line ∈ lines, ∀ name reads writes,
      disk_row line = some (name, reads, writes) → name.length < DEVICE_NAME_SIZE) :
    detect_primary_disk_scan lines = spec_detect_primary_disk lines := by
  induction lines with
  | nil => rfl
  | cons line rest ih =>
    have ih1 := ih (fun l hl => hfit l (List.mem_cons_of_mem _ hl))
    rw [detect_primary_disk_scan_cons]
    unfold spec_detect_primary_disk at ih1 ⊢
    rw [List.find?_cons]
    cases hr : disk_row line with
    | none =>
      rw [spec_disk_candidate_of_none hr]
      exact ih1
    | some row =>
      obtain ⟨name, reads, writes⟩ := row
      rw [spec_disk_candidate_of_row hr]
      have hlen := hfit line (List.mem_cons_self _ _) name reads writes hr
      cases hc : ((decide (reads > NO_BYTES) || decide (writes > NO_BYTES)) && disk_name_test name) with
      | false =>
        simp only [hc]
        exact ih1
      | true =>
        simp only [hc, if_true]
        rw [strncpy_of_fit (by unfold DEVICE_NAME_SIZE BUFFER_NULL_TERMINATOR_SPACE at *; omega)]
        unfold disk_row_name
        rw [hr]

theorem detect_primary_disk_scan_skip {line : String} (rest : List String)
    (h : spec_disk_candidate line = false) :
    detect_primary_disk_scan (line :: rest) = detect_primary_disk_scan rest := by
  rw [detect_primary_disk_scan_cons]
  cases hr : disk_row line with
  | none => rfl
  | some row =>
    obtain ⟨name, reads, writes⟩ := row
    rw [spec_disk_candidate_of_row hr] at h
    simp only [h]
    rfl

theorem detect_primary_disk_scan_hit {line : String} (rest : List String) {name : List Char}
    {reads writes : Nat} (h : spec_disk_candidate line = true)
    (hr : disk_row line = some (name, reads, writes)) :
    detect_primary_disk_scan (line :: rest)
      = String.mk (strncpy name (DEVICE_NAME_SIZE - BUFFER_NULL_TERMINATOR_SPACE)) := by
  rw [detect_primary_disk_scan_cons, hr]
  rw [spec_disk_candidate_of_row hr] at h
  simp only [h, if_true]

/-- The loop of `detect_primary_disk` returns the fallback name or the copy of
a name that passed the name test. -/
theorem detect_primary_disk_scan_result (lines : List String) :
    detect_primary_disk_scan lines = FALLBACK_DISK_NAME ∨
    ∃ name : List Char, disk_name_test name = true ∧
      detect_primary_disk_scan lines
        = String.mk (strncpy name (DEVICE_NAME_SIZE - BUFFER_NULL_TERMINATOR_SPACE)) := by
  induction lines with
  | nil => exact Or.inl rfl
  | cons line rest ih =>
    cases hc : spec_disk_candidate line with
    | false =>
      rw [detect_primary_disk_scan_skip rest hc]
      exact ih
    | true =>
      cases hr : disk_row line with
      | none => rw [spec_disk_candidate_of_none hr] at hc; exact absurd hc (by decide)
      | some row =>
        obtain ⟨name, reads, writes⟩ := row
        refine Or.inr ⟨name, ?_, detect_primary_disk_scan_hit rest hc hr⟩
        rw [spec_disk_candidate_of_row hr] at hc
        simp only [Bool.and_eq_true] at hc
        exact hc.2

theorem starts_with_of_strncpy {name : List Char} {n : Nat} {p : String}
    (h : starts_with (strncpy name n) p = true) : starts_with name p = true := by
  unfold starts_with strncpy at *
  rw [List.isPrefixOf_iff_prefix] at *
  exact h.trans (List.take_prefix n name)

theorem contains_of_strncpy {name : List Char} {n : Nat} {c : Char}
    (h : (strncpy name n).contains c = true) : name.contains c = true := by
  unfold strncpy at h
  have hm : c ∈ List.take n name := List.mem_of_elem_eq_true h
  exact List.elem_eq_true_of_mem (List.mem_of_mem_take hm)

theorem starts_with_cons {name : List Char} {p : String} {c : Char} {cs : List Char}
    (hp : p.toList = c :: cs) (h : starts_with name p = true) :
    ∃ rest, name = c :: rest := by
  unfold starts_with at h
  rw [hp] at h
  cases name with
  | nil => simp [List.isPrefixOf] at h
  | cons a rest =>
    simp only [List.isPrefixOf, Bool.and_eq_true, beq_iff_eq] at h
    exact ⟨rest, by rw [h.1]⟩

/-- C15. Disk detection policy: for every readable disk table,
`detect_primary_disk` returns the name of the first row, in table order, with
reads completed + writes completed `> 0` whose name is nvme-prefixed and not a
partition (contains no `p`), or starts with `sd` and is exactly 3 characters
long, or is mmcblk-prefixed and not a partition; if no row qualifies (e.g. no
matching prefixes and zero activity everywhere) it returns the literal `sda`.
Device names are taken to fit the 32-byte name buffer. -/
theorem detect_primary_disk_policy :
    (∀ (before after : List String) (line : String) (name : List Char) (reads writes : Nat),
      (∀ l ∈ before, spec_disk_candidate l = false) →
      spec_disk_candidate line = true →
      disk_row line = some (name, reads, writes) →
      name.length < DEVICE_NAME_SIZE →
      detect_primary_disk (some (before ++ line :: after)) = some (String.mk name)) ∧
    (∀ lines : List String,
      (∀ line ∈ lines, ∀ name reads writes,
        disk_row line = some (name, reads, writes) → name.length < DEVICE_NAME_SIZE) →
      detect_primary_disk (some lines) = some (spec_detect_primary_disk lines)) ∧
    (∀ lines : List String, (∀ l ∈ lines, spec_disk_candidate l = false) →
      detect_primary_disk (some lines) = some "sda") ∧
    detect_primary_disk
        (some [diskstats_line "loop0" 0 0, diskstats_line "sr0" 0 0, diskstats_line "dm-0" 0 0])
      = some "sda" := by
  refine ⟨?_, ?_, ?_, by decide⟩
  · intro before after line name reads writes hb hc hr hlen
    show some (detect_primary_disk_scan (before ++ line :: after)) = _
    congr 1
    induction before with
    | nil =>
      rw [List.nil_append, detect_primary_disk_scan_hit after hc hr,
        strncpy_of_fit (by unfold DEVICE_NAME_SIZE BUFFER_NULL_TERMINATOR_SPACE at *; omega)]
    | cons b bs ih =>
      rw [List.cons_append, detect_primary_disk_scan_skip _ (hb b (List.mem_cons_self _ _))]
      exact ih (fun l hl => hb l (List.mem_cons_of_mem _ hl))
  · intro lines hfit
    show some (detect_primary_disk_scan lines) = _
    rw [detect_primary_disk_scan_eq_spec lines hfit]
  · intro lines hn
    show some (detect_primary_disk_scan lines) = _
    congr 1
    induction lines with
    | nil => rfl
    | cons b bs ih =>
      rw [detect_primary_disk_scan_skip _ (hn b (List.mem_cons_self _ _))]
      exact ih (fun l hl => hn l (List.mem_cons_of_mem _ hl))

theorem detect_primary_disk_policy_witness :
    detect_primary_disk
        (some ([diskstats_line "loop0" 5 5, diskstats_line "sda1" 9 9]
          ++ diskstats_line "sdb" 0 4 :: [diskstats_line "nvme0n1" 7 7]))
      = some "sdb" :=
  detect_primary_disk_policy.1 [diskstats_line "loop0" 5 5, diskstats_line "sda1" 9 9]
    [diskstats_line "nvme0n1" 7 7] (diskstats_line "sdb" 0 4) "sdb".toList 0 4
    (by decide) (by decide) (by decide) (by decide)

/-- C16. Disk detection never picks a partition: for every table,
`detect_primary_disk` never returns an nvme- or mmcblk-prefixed name that
carries a partition marker (the character `p`); given rows `nvme0n1`
(reads `> 0`) and `nvme0n1p1` (whatever its counters), in either order, it
returns `nvme0n1`. -/
theorem detect_primary_disk_never_partition :
    (∀ (table : Option (List String)) (name : String),
      detect_primary_disk table = some name →
      starts_with name.toList "nvme" = true ∨ starts_with name.toList "mmcblk" = true →
      has_partition_marker name.toList = false) ∧
    (∀ (disk part : String) (r1 w1 r2 w2 : Nat),
      disk_row disk = some ("nvme0n1".toList, r1, w1) → 0 < r1 →
      disk_row part = some ("nvme0n1p1".toList, r2, w2) →
      detect_primary_disk (some [disk, part]) = some "nvme0n1" ∧
      detect_primary_disk (some [part, disk]) = some "nvme0n1") := by
  refine ⟨?_, ?_⟩
  · intro table name hres hpre
    cases table with
    | none => exact absurd hres (by simp [detect_primary_disk])
    | some lines =>
      have hname : detect_primary_disk_scan lines = name := by
        simpa [detect_primary_disk] using hres
      rcases detect_primary_disk_scan_result lines with hfb | ⟨n, htest, hn⟩
      · rw [hfb] at hname
        subst hname
        rcases hpre with h | h <;> exact absurd h (by decide)
      · rw [hn] at hname
        subst hname
        unfold has_partition_marker
        show (strncpy n (DEVICE_NAME_SIZE - BUFFER_NULL_TERMINATOR_SPACE)).contains 'p' = false
        have hpre2 : starts_with (strncpy n (DEVICE_NAME_SIZE - BUFFER_NULL_TERMINATOR_SPACE))
            "nvme" = true ∨
            starts_with (strncpy n (DEVICE_NAME_SIZE - BUFFER_NULL_TERMINATOR_SPACE))
            "mmcblk" = true := hpre
        by_contra hp
        have hp1 : n.contains 'p' = true := contains_of_strncpy (by simpa using hp)
        have hs : starts_with n "sd" = true := by
          simp only [disk_name_test, Bool.or_eq_true, Bool.and_eq_true, hp1, Bool.not_true,
            Bool.false_eq_true, and_false, false_or, or_false] at htest
          exact htest.1
        obtain ⟨r1, hr1⟩ := starts_with_cons (show "sd".toList = 's' :: ['d'] from rfl) hs
        rcases hpre2 with h | h
        · obtain ⟨r2, hr2⟩ := starts_with_cons (show "nvme".toList = 'n' :: ['v', 'm', 'e'] from rfl)
            (starts_with_of_strncpy h)
          rw [hr1] at hr2
          exact absurd (List.cons.inj hr2).1 (by decide)
        · obtain ⟨r2, hr2⟩ := starts_with_cons
            (show "mmcblk".toList = 'm' :: ['m', 'c', 'b', 'l', 'k'] from rfl)
            (starts_with_of_strncpy h)
          rw [hr1] at hr2
          exact absurd (List.cons.inj hr2).1 (by decide)
  · intro disk part r1 w1 r2 w2 hd hr1 hp
    have hcd : spec_disk_candidate disk = true := by
      rw [spec_disk_candidate_of_row hd]
      have ht : disk_name_test "nvme0n1".toList = true := by decide
      have hr : decide (r1 > NO_BYTES) = true := by simpa [NO_BYTES] using hr1
      rw [ht, hr]
      rfl
    have hcp : spec_disk_candidate part = false := by
      rw [spec_disk_candidate_of_row hp]
      have ht : disk_name_test "nvme0n1p1".toList = false := by decide
      rw [ht, Bool.and_false]
    have hcopy : String.mk (strncpy "nvme0n1".toList
        (DEVICE_NAME_SIZE - BUFFER_NULL_TERMINATOR_SPACE)) = "nvme0n1" := by decide
    constructor
    · show some (detect_primary_disk_scan [disk, part]) = _
      rw [detect_primary_disk_scan_hit _ hcd hd, hcopy]
    · show some (detect_primary_disk_scan [part, disk]) = _
      rw [detect_primary_disk_scan_skip _ hcp, detect_primary_disk_scan_hit _ hcd hd, hcopy]

theorem detect_primary_disk_never_partition_witness :
    (has_partition_marker ("nvme0n1" : String).toList = false) ∧
    (detect_primary_disk (some [diskstats_line "nvme0n1" 7 0, diskstats_line "nvme0n1p1" 7 3])
        = some "nvme0n1" ∧
      detect_primary_disk (some [diskstats_line "nvme0n1p1" 7 3, diskstats_line "nvme0n1" 7 0])
        = some "nvme0n1") :=
  ⟨detect_primary_disk_never_partition.1
      (some [diskstats_line "nvme0n1p1" 7 3, diskstats_line "nvme0n1" 7 0]) "nvme0n1"
      (by decide) (Or.inl (by decide)),
   detect_primary_disk_never_partition.2 (diskstats_line "nvme0n1" 7 0)
      (diskstats_line "nvme0n1p1" 7 3) 7 0 7 3 (by decide) (by decide) (by decide)⟩

/-! ## Interface detection -/

theorem starts_with_strncpy (name : List Char) (n : Nat) (p : String) (hp : p.toList.length ≤ n) :
    starts_with (strncpy name n) p = starts_with name p := by
  unfold starts_with strncpy
  rw [Bool.eq_iff_iff, List.isPrefixOf_iff_prefix, List.isPrefixOf_iff_prefix,
    List.prefix_take_iff]
  exact ⟨fun h => h.1, fun h => ⟨h, hp⟩⟩

theorem interface_name_test_strncpy (name : List Char) :
    interface_name_test (strncpy name (INTERFACE_NAME_SIZE - BUFFER_NULL_TERMINATOR_SPACE))
      = interface_name_test name := by
  unfold interface_name_test
  rw [starts_with_strncpy _ _ "eth" (by decide), starts_with_strncpy _ _ "enp" (by decide),
    starts_with_strncpy _ _ "ens" (by decide), starts_with_strncpy _ _ "wlan" (by decide),
    starts_with_strncpy _ _ "wlp" (by decide), starts_with_strncpy _ _ "wlo" (by decide),
    starts_with_strncpy _ _ "wls" (by decide)]

theorem strncpy_eq_lo (name : List Char) :
    strncpy name (INTERFACE_NAME_SIZE - BUFFER_NULL_TERMINATOR_SPACE) = ['l', 'o']
      ↔ name = ['l', 'o'] := by
  unfold strncpy INTERFACE_NAME_SIZE BUFFER_NULL_TERMINATOR_SPACE
  rcases name with _ | ⟨a, _ | ⟨b, _ | ⟨c, t⟩⟩⟩ <;> simp

theorem strncpy_strncpy (name : List Char) (n : Nat) :
    strncpy (strncpy name n) n = strncpy name n := by
  unfold strncpy
  rw [List.take_take, Nat.min_self]

theorem strncpy_eq_nil {name : List Char} {n : Nat} (hn : 0 < n) :
    strncpy name n = [] ↔ name = [] := by
  unfold strncpy
  cases name with
  | nil => simp
  | cons a t =>
    obtain ⟨m, rfl⟩ : ∃ m, n = m + 1 := ⟨n - 1, by omega⟩
    simp

/-- One iteration of the first loop of `detect_primary_network_interface`, in
terms of the row read. -/
theorem detect_primary_network_interface_scan_cons (cand : List Char) (line : String)
    (rest : List String) :
    detect_primary_network_interface_scan cand (line :: rest)
      = match net_row line with
        | none => detect_primary_network_interface_scan cand rest
        | some (name, rx_bytes, tx_bytes) =>
          if name = ['l', 'o'] then detect_primary_network_interface_scan cand rest
          else if rx_bytes + tx_bytes > 0 then
            if interface_name_test name then
              (true, strncpy name (INTERFACE_NAME_SIZE - BUFFER_NULL_TERMINATOR_SPACE))
            else if cand.isEmpty then
              detect_primary_network_interface_scan
                (strncpy name (INTERFACE_NAME_SIZE - BUFFER_NULL_TERMINATOR_SPACE)) rest
            else detect_primary_network_interface_scan cand rest
          else detect_primary_network_interface_scan cand rest := by
  rw [detect_primary_network_interface_scan]
  cases hs : split_colon line.toList with
  | none =>
    have hr : net_row line = none := by
      unfold net_row
      rw [hs]
    rw [hr]
  | some parts =>
    obtain ⟨name_part, stats⟩ := parts
    simp only []
    split
    · rename_i rx tx h
      have hr : net_row line = some (skip_blanks name_part, rx, tx) := by
        unfold net_row
        rw [hs]
        simp only []
        rw [h]
      rw [hr]
      simp only [strncpy_strncpy, interface_name_test_strncpy]
      have hlo : (strncpy (skip_blanks name_part)
          (INTERFACE_NAME_SIZE - BUFFER_NULL_TERMINATOR_SPACE) = LOOPBACK_INTERFACE.toList)
          ↔ skip_blanks name_part = ['l', 'o'] := strncpy_eq_lo _
      have hact : (decide (rx > NO_BYTES) || decide (tx > NO_BYTES)) = decide (rx + tx > 0) := by
        unfold NO_BYTES
        by_cases h1 : rx > 0 <;> by_cases h2 : tx > 0 <;> simp [h1, h2]
      by_cases hl : skip_blanks name_part = ['l', 'o']
      · rw [if_pos (hlo.2 hl), if_pos hl]
      · rw [if_neg (fun hc => hl (hlo.1 hc)), if_neg hl, hact]
        by_cases ha : rx + tx > 0
        · simp only [ha, decide_True, if_true]
        · simp only [ha, decide_False, if_false, Bool.false_eq_true]
    · rename_i h
      have hr : net_row line = none := by
        unfold net_row
        rw [hs]
        simp only []
      rw [hr]

/-- One iteration of the second loop of `detect_primary_network_interface`, in
terms of the name read. -/
theorem detect_primary_network_interface_rescan_cons (line : String) (rest : List String) :
    detect_primary_network_interface_rescan (line :: rest)
      = match net_name line with
        | none => detect_primary_network_interface_rescan rest
        | some name =>
          if name ≠ ['l', 'o'] then
            some (strncpy name (INTERFACE_NAME_SIZE - BUFFER_NULL_TERMINATOR_SPACE))
          else detect_primary_network_interface_rescan rest := by
  rw [detect_primary_network_interface_rescan]
  unfold net_name
  cases hs : split_colon line.toList with
  | none => rfl
  | some parts =>
    obtain ⟨name_part, stats⟩ := parts
    simp only []
    by_cases hl : skip_blanks name_part = ['l', 'o']
    · have : (skip_blanks name_part != LOOPBACK_INTERFACE.toList) = false := by
        rw [hl]; decide
      rw [hl] at this
      simp only [this, hl, ne_eq, not_true_eq_false, if_false, Bool.false_eq_true]
    · have : (skip_blanks name_part != LOOPBACK_INTERFACE.toList) = true := by
        rw [bne_iff_ne]; exact hl
      simp only [this, hl, ne_eq, not_false_eq_true, if_true]

theorem net_name_of_row {line : String} {name : List Char} {rx tx : Nat}
    (h : net_row line = some (name, rx, tx)) : net_name line = some name := by
  unfold net_row at h
  unfold net_name
  cases hs : split_colon line.toList with
  | none => rw [hs] at h; exact absurd h (by simp)
  | some parts =>
    obtain ⟨name_part, stats⟩ := parts
    rw [hs] at h
    simp only [] at h ⊢
    split at h
    · simp only [Option.some.injEq, Prod.mk.injEq] at h
      rw [h.1]
    · exact absurd h (by simp)

theorem spec_allowlisted_of_row {line : String} {name : List Char} {rx tx : Nat}
    (h : net_row line = some (name, rx, tx)) :
    spec_allowlisted_interface line
      = (decide (name ≠ ['l', 'o']) && decide (rx + tx > 0) && interface_name_test name) := by
  unfold spec_allowlisted_interface
  rw [h]
  rfl

theorem spec_active_of_row {line : String} {name : List Char} {rx tx : Nat}
    (h : net_row line = some (name, rx, tx)) :
    spec_active_interface line = (decide (name ≠ ['l', 'o']) && decide (rx + tx > 0)) := by
  unfold spec_active_interface
  rw [h]

/-- A row that is an allowlisted interface with traffic ends the first loop. -/
theorem detect_primary_network_interface_scan_hit (cand : List Char) {line : String}
    (rest : List String) {name : List Char} {rx tx : Nat}
    (hr : net_row line = some (name, rx, tx)) (h : spec_allowlisted_interface line = true) :
    detect_primary_network_interface_scan cand (line :: rest)
      = (true, strncpy name (INTERFACE_NAME_SIZE - BUFFER_NULL_TERMINATOR_SPACE)) := by
  rw [detect_primary_network_interface_scan_cons, hr]
  rw [spec_allowlisted_of_row hr] at h
  simp only [Bool.and_eq_true, decide_eq_true_eq] at h
  simp only [h.1.1, h.1.2, h.2, if_true, if_false]

/-- A line that is not an interface with traffic leaves the first loop and the
buffer as they are. -/
theorem detect_primary_network_interface_scan_idle (cand : List Char) {line : String}
    (rest : List String) (h : spec_active_interface line = false) :
    detect_primary_network_interface_scan cand (line :: rest)
      = detect_primary_network_interface_scan cand rest := by
  rw [detect_primary_network_interface_scan_cons]
  cases hr : net_row line with
  | none => rfl
  | some row =>
    obtain ⟨name, rx, tx⟩ := row
    rw [spec_active_of_row hr] at h
    simp only []
    by_cases hl : name = ['l', 'o']
    · rw [if_pos hl]
    · rw [if_neg hl]
      have ha : ¬ (rx + tx > 0) := by
        intro ha
        simp [hl, ha] at h
      rw [if_neg ha]

/-- An interface with traffic that is not allowlisted is remembered when the
buffer is empty. -/
theorem detect_primary_network_interface_scan_remember (cand : List Char) {line : String}
    (rest : List String) {name : List Char} {rx tx : Nat}
    (hr : net_row line = some (name, rx, tx)) (ha : spec_active_interface line = true)
    (hn : spec_allowlisted_interface line = false) :
    detect_primary_network_interface_scan cand (line :: rest)
      = detect_primary_network_interface_scan
          (if cand.isEmpty then strncpy name (INTERFACE_NAME_SIZE - BUFFER_NULL_TERMINATOR_SPACE)
            else cand) rest := by
  rw [detect_primary_network_interface_scan_cons, hr]
  rw [spec_active_of_row hr] at ha
  rw [spec_allowlisted_of_row hr, ha] at hn
  simp only [Bool.and_eq_true, decide_eq_true_eq] at ha
  simp only [Bool.true_and] at hn
  simp only [ha.1, ha.2, hn, if_true, if_false, Bool.false_eq_true]
  split <;> rfl

theorem spec_active_of_allowlisted {line : String} (h : spec_allowlisted_interface line = true) :
    spec_active_interface line = true := by
  cases hr : net_row line with
  | none =>
    unfold spec_allowlisted_interface at h
    rw [hr] at h
    exact absurd h (by simp)
  | some row =>
    obtain ⟨name, rx, tx⟩ := row
    rw [spec_allowlisted_of_row hr] at h
    rw [spec_active_of_row hr]
    simp only [Bool.and_eq_true] at h
    simp only [Bool.and_eq_true]
    exact h.1

/-- The first loop reaches the first allowlisted interface with traffic. -/
theorem detect_primary_network_interface_scan_first (before after : List String)
    {line : String} {name : List Char} {rx tx : Nat}
    (hb : ∀ l ∈ before, spec_allowlisted_interface l = false)
    (hr : net_row line = some (name, rx, tx)) (h : spec_allowlisted_interface line = true)
    (cand : List Char) :
    detect_primary_network_interface_scan cand (before ++ line :: after)
      = (true, strncpy name (INTERFACE_NAME_SIZE - BUFFER_NULL_TERMINATOR_SPACE)) := by
  induction before generalizing cand with
  | nil => exact detect_primary_network_interface_scan_hit cand after hr h
  | cons b bs ih =>
    have ih1 := ih (fun l hl => hb l (List.mem_cons_of_mem _ hl))
    have hnb := hb b (List.mem_cons_self _ _)
    rw [List.cons_append]
    cases hab : spec_active_interface b with
    | false =>
      rw [detect_primary_network_interface_scan_idle cand _ hab]
      exact ih1 cand
    | true =>
      cases hrb : net_row b with
      | none =>
        unfold spec_active_interface at hab
        rw [hrb] at hab
        exact absurd hab (by simp)
      | some row =>
        obtain ⟨nb, rxb, txb⟩ := row
        rw [detect_primary_network_interface_scan_remember cand _ hrb hab hnb]
        exact ih1 _

/-- C17. Interface detection, allowlist priority: for every readable interface
table (two header lines, then rows), if some non-loopback interface has rx
bytes + tx bytes `> 0` and a name starting with one of eth, enp, ens, wlan,
wlp, wlo, wls, `detect_primary_network_interface` returns the first such
interface in scan order, whatever rows (the loopback, non-allowlisted
interfaces with traffic) come before it and whatever the static buffer held.
The name is taken to fit the 32-byte name buffer. -/
theorem detect_primary_network_interface_allowlist (header1 header2 : String)
    (before after : List String) (line : String) (name : List Char) (rx tx : Nat)
    (again : Option (List String)) (buffer : String)
    (hb : ∀ l ∈ before, spec_allowlisted_interface l = false)
    (h : spec_allowlisted_interface line = true)
    (hr : net_row line = some (name, rx, tx))
    (hlen : name.length < INTERFACE_NAME_SIZE) :
    detect_primary_network_interface (some (header1 :: header2 :: (before ++ line :: after)))
      again buffer = some (String.mk name) := by
  unfold detect_primary_network_interface
  have hd : (header1 :: header2 :: (before ++ line :: after)).drop PROC_NET_DEV_HEADER_LINES
      = before ++ line :: after := rfl
  simp only [hd, detect_primary_network_interface_scan_first before after hb hr h, if_true]
  rw [strncpy_of_fit (by unfold INTERFACE_NAME_SIZE BUFFER_NULL_TERMINATOR_SPACE at *; omega)]

theorem detect_primary_network_interface_allowlist_witness :
    detect_primary_network_interface
      (some ("h1" :: "h2" :: ([net_dev_line "lo" 900 900, net_dev_line "docker0" 5 7,
          net_dev_line "eth1" 0 0] ++ net_dev_line "wlan0" 0 40 :: [net_dev_line "eth0" 10 20])))
      none "docker0" = some "wlan0" :=
  detect_primary_network_interface_allowlist "h1" "h2"
    [net_dev_line "lo" 900 900, net_dev_line "docker0" 5 7, net_dev_line "eth1" 0 0]
    [net_dev_line "eth0" 10 20] (net_dev_line "wlan0" 0 40) "wlan0".toList 0 40 none "docker0"
    (by decide) (by decide) (by decide) (by decide)

/-- With a non-empty buffer and no allowlisted interface with traffic, the
first loop ends without returning and leaves the buffer as it is. -/
theorem detect_primary_network_interface_scan_keep (lines : List String) {cand : List Char}
    (hc : cand ≠ []) (hn : ∀ l ∈ lines, spec_allowlisted_interface l = false) :
    detect_primary_network_interface_scan cand lines = (false, cand) := by
  induction lines with
  | nil => rfl
  | cons b bs ih =>
    have ih1 := ih (fun l hl => hn l (List.mem_cons_of_mem _ hl))
    have hnb := hn b (List.mem_cons_self _ _)
    cases hab : spec_active_interface b with
    | false =>
      rw [detect_primary_network_interface_scan_idle cand _ hab]
      exact ih1
    | true =>
      cases hrb : net_row b with
      | none =>
        unfold spec_active_interface at hab
        rw [hrb] at hab
        exact absurd hab (by simp)
      | some row =>
        obtain ⟨nb, rxb, txb⟩ := row
        rw [detect_primary_network_interface_scan_remember cand _ hrb hab hnb]
        have he : cand.isEmpty = false := by
          cases cand with
          | nil => exact absurd rfl hc
          | cons a t => rfl
        simp only [he, Bool.false_eq_true, if_false]
        exact ih1

/-- Without any interface with traffic the first loop ends without returning
and leaves the buffer as it is. -/
theorem detect_primary_network_interface_scan_none (lines : List String) (cand : List Char)
    (hn : ∀ l ∈ lines, spec_active_interface l = false) :
    detect_primary_network_interface_scan cand lines = (false, cand) := by
  induction lines with
  | nil => rfl
  | cons b bs ih =>
    rw [detect_primary_network_interface_scan_idle cand _ (hn b (List.mem_cons_self _ _))]
    exact ih (fun l hl => hn l (List.mem_cons_of_mem _ hl))

theorem spec_allowlisted_false_of_idle {line : String} (h : spec_active_interface line = false) :
    spec_allowlisted_interface line = false := by
  cases hc : spec_allowlisted_interface line with
  | false => rfl
  | true => rw [spec_active_of_allowlisted hc] at h; exact absurd h (by decide)

/-- On an empty buffer and without allowlisted interface with traffic, the
first loop remembers the first interface with traffic. -/
theorem detect_primary_network_interface_scan_candidate (before after : List String)
    {line : String} {name : List Char} {rx tx : Nat}
    (hb : ∀ l ∈ before, spec_active_interface l = false)
    (ha : spec_active_interface line = true)
    (hn : ∀ l ∈ line :: after, spec_allowlisted_interface l = false)
    (hr : net_row line = some (name, rx, tx)) (hne : name ≠ []) :
    detect_primary_network_interface_scan [] (before ++ line :: after)
      = (false, strncpy name (INTERFACE_NAME_SIZE - BUFFER_NULL_TERMINATOR_SPACE)) := by
  induction before with
  | nil =>
    rw [List.nil_append,
      detect_primary_network_interface_scan_remember [] _ hr ha (hn line (List.mem_cons_self _ _))]
    simp only [List.isEmpty_nil, if_true]
    apply detect_primary_network_interface_scan_keep
    · intro hc
      exact hne ((strncpy_eq_nil (by decide)).1 hc)
    · exact fun l hl => hn l (List.mem_cons_of_mem _ hl)
  | cons b bs ih =>
    rw [List.cons_append,
      detect_primary_network_interface_scan_idle [] _ (hb b (List.mem_cons_self _ _))]
    exact ih (fun l hl => hb l (List.mem_cons_of_mem _ hl))

theorem spec_non_loopback_of_name {line : String} {name : List Char}
    (h : net_name line = some name) :
    spec_non_loopback_interface line = decide (name ≠ ['l', 'o']) := by
  unfold spec_non_loopback_interface
  rw [h]

/-- The second loop returns the first interface that is not the loopback. -/
theorem detect_primary_network_interface_rescan_first (before after : List String)
    {line : String} {name : List Char}
    (hb : ∀ l ∈ before, spec_non_loopback_interface l = false)
    (hr : net_name line = some name) (hl : name ≠ ['l', 'o']) :
    detect_primary_network_interface_rescan (before ++ line :: after)
      = some (strncpy name (INTERFACE_NAME_SIZE - BUFFER_NULL_TERMINATOR_SPACE)) := by
  induction before with
  | nil =>
    rw [List.nil_append, detect_primary_network_interface_rescan_cons, hr]
    simp only [hl, ne_eq, not_false_eq_true, if_true]
  | cons b bs ih =>
    rw [List.cons_append, detect_primary_network_interface_rescan_cons]
    have hnb := hb b (List.mem_cons_self _ _)
    cases hrb : net_name b with
    | none => exact ih (fun l hl => hb l (List.mem_cons_of_mem _ hl))
    | some nb =>
      rw [spec_non_loopback_of_name hrb] at hnb
      simp only [decide_eq_false_iff_not] at hnb
      simp only [hnb, if_false]
      exact ih (fun l hl => hb l (List.mem_cons_of_mem _ hl))

/-- Without an interface other than the loopback the second loop finds nothing. -/
theorem detect_primary_network_interface_rescan_none (lines : List String)
    (hn : ∀ l ∈ lines, spec_non_loopback_interface l = false) :
    detect_primary_network_interface_rescan lines = none := by
  induction lines with
  | nil => rfl
  | cons b bs ih =>
    rw [detect_primary_network_interface_rescan_cons]
    have hnb := hn b (List.mem_cons_self _ _)
    cases hrb : net_name b with
    | none => exact ih (fun l hl => hn l (List.mem_cons_of_mem _ hl))
    | some nb =>
      rw [spec_non_loopback_of_name hrb] at hnb
      simp only [decide_eq_false_iff_not] at hnb
      simp only [hnb, if_false]
      exact ih (fun l hl => hn l (List.mem_cons_of_mem _ hl))

theorem spec_idle_of_loopback_only {line : String}
    (h : spec_non_loopback_interface line = false) : spec_active_interface line = false := by
  cases hr : net_row line with
  | none =>
    unfold spec_active_interface
    rw [hr]
  | some row =>
    obtain ⟨name, rx, tx⟩ := row
    rw [spec_non_loopback_of_name (net_name_of_row hr)] at h
    rw [spec_active_of_row hr, h, Bool.false_and]

/-- The first loop never puts the loopback name into the buffer. -/
theorem detect_primary_network_interface_scan_ne_lo (lines : List String) (cand : List Char)
    (hc : cand ≠ ['l', 'o']) :
    (detect_primary_network_interface_scan cand lines).2 ≠ ['l', 'o'] := by
  induction lines generalizing cand with
  | nil => exact hc
  | cons b bs ih =>
    rw [detect_primary_network_interface_scan_cons]
    cases hrb : net_row b with
    | none => exact ih cand hc
    | some row =>
      obtain ⟨nb, rxb, txb⟩ := row
      simp only []
      by_cases hl : nb = ['l', 'o']
      · rw [if_pos hl]
        exact ih cand hc
      · rw [if_neg hl]
        have hcopy : strncpy nb (INTERFACE_NAME_SIZE - BUFFER_NULL_TERMINATOR_SPACE) ≠ ['l', 'o'] :=
          fun hh => hl ((strncpy_eq_lo nb).1 hh)
        split
        · split
          · exact hcopy
          · split
            · exact ih _ hcopy
            · exact ih cand hc
        · exact ih cand hc

/-- The second loop never returns the loopback name. -/
theorem detect_primary_network_interface_rescan_ne_lo (lines : List String) (name : List Char)
    (h : detect_primary_network_interface_rescan lines = some name) : name ≠ ['l', 'o'] := by
  induction lines with
  | nil => exact absurd h (by simp [detect_primary_network_interface_rescan])
  | cons b bs ih =>
    rw [detect_primary_network_interface_rescan_cons] at h
    cases hrb : net_name b with
    | none => rw [hrb] at h; exact ih h
    | some nb =>
      rw [hrb] at h
      simp only [] at h
      by_cases hl : nb = ['l', 'o']
      · simp only [hl, ne_eq, not_true_eq_false, if_false] at h
        exact ih h
      · simp only [hl, ne_eq, not_false_eq_true, if_true, Option.some.injEq] at h
        rw [← h]
        exact fun hh => hl ((strncpy_eq_lo nb).1 hh)


/-- C18. Interface detection, fallback chain: on a fresh process (empty static
buffer) and for a table (two header lines, then rows) read the same at both
openings: when no allowlisted interface has traffic, the result is the first
non-loopback interface with rx bytes + tx bytes `> 0`; when no non-loopback
interface has traffic it is the first non-loopback interface of the table; when
the table has no non-loopback interface it is the literal `eth0`; and it is
never the loopback interface `lo`. Names are taken to be non-empty and to fit
the 32-byte name buffer. -/
theorem detect_primary_network_interface_fallback_chain :
    (∀ (header1 header2 : String) (before after : List String) (line : String)
        (name : List Char) (rx tx : Nat) (again : Option (List String)),
      (∀ l ∈ before, spec_active_interface l = false) →
      spec_active_interface line = true →
      (∀ l ∈ line :: after, spec_allowlisted_interface l = false) →
      net_row line = some (name, rx, tx) → name ≠ [] → name.length < INTERFACE_NAME_SIZE →
      detect_primary_network_interface (some (header1 :: header2 :: (before ++ line :: after)))
        again "" = some (String.mk name)) ∧
    (∀ (header1 header2 : String) (before after : List String) (line : String)
        (name : List Char),
      (∀ l ∈ before ++ line :: after, spec_active_interface l = false) →
      (∀ l ∈ before, spec_non_loopback_interface l = false) →
      net_name line = some name → name ≠ ['l', 'o'] → name.length < INTERFACE_NAME_SIZE →
      detect_primary_network_interface (some (header1 :: header2 :: (before ++ line :: after)))
        (some (header1 :: header2 :: (before ++ line :: after))) "" = some (String.mk name)) ∧
    (∀ lines : List String,
      (∀ l ∈ lines.drop PROC_NET_DEV_HEADER_LINES, spec_non_loopback_interface l = false) →
      detect_primary_network_interface (some lines) (some lines) "" = some "eth0") ∧
    (∀ (lines : List String) (again : Option (List String)),
      detect_primary_network_interface (some lines) again "" ≠ some "lo") := by
  refine ⟨?_, ?_, ?_, ?_⟩
  · intro header1 header2 before after line name rx tx again hb ha hn hr hne hlen
    unfold detect_primary_network_interface
    have hd : (header1 :: header2 :: (before ++ line :: after)).drop PROC_NET_DEV_HEADER_LINES
        = before ++ line :: after := rfl
    have he : ("" : String).toList = [] := rfl
    have hcopy : strncpy name (INTERFACE_NAME_SIZE - BUFFER_NULL_TERMINATOR_SPACE) = name :=
      strncpy_of_fit (by unfold INTERFACE_NAME_SIZE BUFFER_NULL_TERMINATOR_SPACE at *; omega)
    have hnonempty : name.isEmpty = false := by
      cases name with
      | nil => exact absurd rfl hne
      | cons a t => rfl
    simp only [hd, he, detect_primary_network_interface_scan_candidate before after hb ha hn hr hne,
      hcopy, hnonempty, Bool.false_eq_true, if_false, Bool.not_false, if_true]
  · intro header1 header2 before after line name hidle hb hr hl hlen
    unfold detect_primary_network_interface
    have hd : (header1 :: header2 :: (before ++ line :: after)).drop PROC_NET_DEV_HEADER_LINES
        = before ++ line :: after := rfl
    have he : ("" : String).toList = [] := rfl
    have hcopy : strncpy name (INTERFACE_NAME_SIZE - BUFFER_NULL_TERMINATOR_SPACE) = name :=
      strncpy_of_fit (by unfold INTERFACE_NAME_SIZE BUFFER_NULL_TERMINATOR_SPACE at *; omega)
    simp only [hd, he, detect_primary_network_interface_scan_none _ [] hidle,
      detect_primary_network_interface_rescan_first before after hb hr hl, hcopy,
      Bool.false_eq_true, if_false, List.isEmpty_nil, Bool.not_true]
  · intro lines hn
    unfold detect_primary_network_interface
    have he : ("" : String).toList = [] := rfl
    have hidle : ∀ l ∈ lines.drop PROC_NET_DEV_HEADER_LINES, spec_active_interface l = false :=
      fun l hl => spec_idle_of_loopback_only (hn l hl)
    simp only [he, detect_primary_network_interface_scan_none _ [] hidle,
      detect_primary_network_interface_rescan_none _ hn, Bool.false_eq_true, if_false,
      List.isEmpty_nil, Bool.not_true]
    rfl
  · intro lines again hres
    unfold detect_primary_network_interface at hres
    have he : ("" : String).toList = [] := rfl
    have hscan := detect_primary_network_interface_scan_ne_lo
      (lines.drop PROC_NET_DEV_HEADER_LINES) [] (by decide)
    have hmk : ∀ l : List Char, some (String.mk l) = some "lo" → l = ['l', 'o'] := by
      intro l h
      have h2 : String.mk l = "lo" := Option.some.inj h
      exact congrArg String.data h2
    simp only [he] at hres
    split at hres
    · exact hscan (hmk _ hres)
    · split at hres
      · exact hscan (hmk _ hres)
      · split at hres
        · exact absurd hres (by decide)
        · split at hres
          · rename_i name hname
            exact detect_primary_network_interface_rescan_ne_lo _ name hname (hmk _ hres)
          · exact absurd hres (by decide)

theorem detect_primary_network_interface_fallback_chain_witness :
    detect_primary_network_interface
      (some ("h1" :: "h2" :: ([net_dev_line "lo" 900 900, net_dev_line "eth0" 0 0]
          ++ net_dev_line "docker0" 5 7 :: [net_dev_line "tun0" 1 1])))
      none "" = some "docker0" ∧
    detect_primary_network_interface
      (some ("h1" :: "h2" :: ([net_dev_line "lo" 0 0] ++ net_dev_line "tun0" 0 0
          :: [net_dev_line "eth0" 0 0])))
      (some ("h1" :: "h2" :: ([net_dev_line "lo" 0 0] ++ net_dev_line "tun0" 0 0
          :: [net_dev_line "eth0" 0 0]))) "" = some "tun0" ∧
    detect_primary_network_interface (some ["h1", "h2", net_dev_line "lo" 900 900])
      (some ["h1", "h2", net_dev_line "lo" 900 900]) "" = some "eth0" :=
  ⟨detect_primary_network_interface_fallback_chain.1 "h1" "h2"
      [net_dev_line "lo" 900 900, net_dev_line "eth0" 0 0] [net_dev_line "tun0" 1 1]
      (net_dev_line "docker0" 5 7) "docker0".toList 5 7 none
      (by decide) (by decide) (by decide) (by decide) (by decide) (by decide),
   detect_primary_network_interface_fallback_chain.2.1 "h1" "h2" [net_dev_line "lo" 0 0]
      [net_dev_line "eth0" 0 0] (net_dev_line "tun0" 0 0) "tun0".toList
      (by decide) (by decide) (by decide) (by decide) (by decide),
   detect_primary_network_interface_fallback_chain.2.2.1 ["h1", "h2", net_dev_line "lo" 900 900]
      (by decide)⟩


/-! ## Detectors: null and empty results -/

theorem string_mk_ne_empty {l : List Char} (h : l ≠ []) : String.mk l ≠ "" := by
  intro hh
  exact h (congrArg String.data hh)

theorem strncpy_ne_nil {name : List Char} {n : Nat} (hn : 0 < n) (h : name ≠ []) :
    strncpy name n ≠ [] :=
  fun hh => h ((strncpy_eq_nil hn).1 hh)

theorem disk_name_test_ne_nil {name : List Char} (h : disk_name_test name = true) :
    name ≠ [] := by
  rintro rfl
  exact absurd h (by decide)

theorem interface_name_test_ne_nil {name : List Char} (h : interface_name_test name = true) :
    name ≠ [] := by
  rintro rfl
  exact absurd h (by decide)

/-- When the first loop returns, the buffer holds a non-empty name. -/
theorem detect_primary_network_interface_scan_returned (lines : List String) (cand : List Char)
    (h : (detect_primary_network_interface_scan cand lines).1 = true) :
    (detect_primary_network_interface_scan cand lines).2 ≠ [] := by
  induction lines generalizing cand with
  | nil => exact absurd h (by simp [detect_primary_network_interface_scan])
  | cons b bs ih =>
    rw [detect_primary_network_interface_scan_cons] at h ⊢
    cases hrb : net_row b with
    | none => rw [hrb] at h; exact ih cand h
    | some row =>
      obtain ⟨nb, rxb, txb⟩ := row
      rw [hrb] at h
      simp only [] at h ⊢
      split
      · rename_i hl
        rw [if_pos hl] at h
        exact ih cand h
      · rename_i hl
        rw [if_neg hl] at h
        split
        · rename_i ha
          rw [if_pos ha] at h
          split
          · rename_i ht
            exact strncpy_ne_nil (by decide) (interface_name_test_ne_nil ht)
          · rename_i ht
            rw [if_neg ht] at h
            split
            · rename_i he
              rw [if_pos he] at h
              exact ih _ h
            · rename_i he
              rw [if_neg he] at h
              exact ih cand h
        · rename_i ha
          rw [if_neg ha] at h
          exact ih cand h

/-- The second loop returns a non-empty name when no row has an empty name. -/
theorem detect_primary_network_interface_rescan_ne_nil (lines : List String) (name : List Char)
    (hrows : ∀ l ∈ lines, net_name l ≠ some [])
    (h : detect_primary_network_interface_rescan lines = some name) : name ≠ [] := by
  induction lines with
  | nil => exact absurd h (by simp [detect_primary_network_interface_rescan])
  | cons b bs ih =>
    have ih1 := ih (fun l hl => hrows l (List.mem_cons_of_mem _ hl))
    have hb := hrows b (List.mem_cons_self _ _)
    rw [detect_primary_network_interface_rescan_cons] at h
    cases hrb : net_name b with
    | none => rw [hrb] at h; exact ih1 h
    | some nb =>
      rw [hrb] at h hb
      simp only [] at h
      by_cases hl : nb = ['l', 'o']
      · simp only [hl, ne_eq, not_true_eq_false, if_false] at h
        exact ih1 h
      · simp only [hl, ne_eq, not_false_eq_true, if_true, Option.some.injEq] at h
        rw [← h]
        exact strncpy_ne_nil (by decide) (fun hh => hb (by rw [hh]))

/-- The results of the detectors: `NULL` when the counter table cannot be
opened; for every table that can be opened a name, the disk detector always a
non-empty one, the interface detector a non-empty one when no row of the
re-read table has an empty name. -/
theorem detectors_null_or_name :
    detect_primary_disk none = none ∧
    (∀ (again : Option (List String)) (buffer : String),
      detect_primary_network_interface none again buffer = none) ∧
    (∀ lines : List String,
      ∃ name : String, detect_primary_disk (some lines) = some name ∧ name ≠ "") ∧
    (∀ (lines : List String) (again : Option (List String)) (buffer : String),
      ∃ name : String, detect_primary_network_interface (some lines) again buffer = some name ∧
        ((∀ rows, again = some rows →
            ∀ l ∈ rows.drop PROC_NET_DEV_HEADER_LINES, net_name l ≠ some []) →
          name ≠ "")) := by
  refine ⟨rfl, fun _ _ => rfl, ?_, ?_⟩
  · intro lines
    refine ⟨detect_primary_disk_scan lines, rfl, ?_⟩
    rcases detect_primary_disk_scan_result lines with h | ⟨n, ht, h⟩
    · rw [h]; decide
    · rw [h]
      exact string_mk_ne_empty (strncpy_ne_nil (by decide) (disk_name_test_ne_nil ht))
  · intro lines again buffer
    unfold detect_primary_network_interface
    simp only []
    split
    · rename_i hret
      exact ⟨_, rfl, fun _ => string_mk_ne_empty
        (detect_primary_network_interface_scan_returned _ _ hret)⟩
    · split
      · rename_i hne
        refine ⟨_, rfl, fun _ => string_mk_ne_empty ?_⟩
        intro hh
        rw [hh] at hne
        exact absurd hne (by decide)
      · cases again with
        | none => exact ⟨_, rfl, fun _ => by decide⟩
        | some rows =>
          simp only []
          split
          · rename_i name hname
            exact ⟨_, rfl, fun hrows => string_mk_ne_empty
              (detect_primary_network_interface_rescan_ne_nil _ name (hrows rows rfl) hname)⟩
          · exact ⟨_, rfl, fun _ => by decide⟩

theorem detectors_null_or_name_example :
    detect_primary_network_interface (some ["h1", "h2", net_dev_line "lo" 9 9])
      (some ["h1", "h2", net_dev_line "lo" 9 9, net_dev_line "tun0" 0 0]) "" ≠ some "" := by
  obtain ⟨name, hres, hne⟩ := detectors_null_or_name.2.2.2 ["h1", "h2", net_dev_line "lo" 9 9]
    (some ["h1", "h2", net_dev_line "lo" 9 9, net_dev_line "tun0" 0 0]) ""
  rw [hres]
  intro hh
  refine hne ?_ (Option.some.inj hh)
  intro rows hrows
  rw [← Option.some.inj hrows]
  decide

/-- C14, evaluation at the failing input. When the counter table cannot be
opened, `detect_primary_disk` and `detect_primary_network_interface` return
`NULL`, not the fallback names `sda` and `eth0` that `metrics.h` documents as
their result. The first call of `update_disk_metrics` /
`update_network_metrics` then writes no gauge, stores `NULL` and clears
`first_run`, so the detection is not made again. -/
theorem detectors_return_null_on_unreadable_table :
    detect_primary_disk none = none ∧
    detect_primary_disk none ≠ some FALLBACK_DISK_NAME ∧
    (∀ (again : Option (List String)) (buffer : String),
      detect_primary_network_interface none again buffer = none ∧
      detect_primary_network_interface none again buffer ≠ some FALLBACK_NETWORK_INTERFACE) ∧
    (∀ (now : Int) (read : Option disk_stats_t) (health : disk_health_metrics_t),
      update_disk_metrics disk_cache_init
          { detected := detect_primary_disk none, now := now, read := read, health := health }
        = ({ disk_cache_init with primary_disk := none, first_run := false }, [])) ∧
    (∀ (now : Int) (read : Option network_interface_stats_t) (metrics : network_metrics_t),
      update_network_metrics network_cache_init
          { detected := detect_primary_network_interface none none "", now := now, read := read,
            metrics := metrics }
        = ({ network_cache_init with primary_interface := none, first_run := false }, [])) := by
  refine ⟨rfl, by decide, ?_, ?_, ?_⟩
  · intro again buffer
    have h : detect_primary_network_interface none again buffer = none := rfl
    refine ⟨h, ?_⟩
    rw [h]
    exact fun hh => Option.noConfusion hh
  · intro now read health
    rfl
  · intro now read metrics
    rfl


/-! ## Process census -/

/-- The loop of `get_process_stats` on readable entries applies `count_process`
to their state characters in order. -/
theorem get_process_stats_scan_readable (entries : List proc_entry) (states : List Char)
    (h : List.Forall₂ readable_process entries states) (acc : process_stats_t) :
    get_process_stats_scan acc entries = states.foldl count_process acc := by
  induction h generalizing acc with
  | nil => rfl
  | @cons entry state rest_entries rest_states hr _ ih =>
    obtain ⟨hdigit, hpath, content, pid, comm, hstat, hscan⟩ := hr
    rw [get_process_stats_scan]
    have hp : ¬ (("/proc/" ++ entry.d_name ++ "/stat").length ≥ PATH_BUFFER_SIZE) := by omega
    simp only [hdigit, Bool.not_true, Bool.false_eq_true, if_false, hp, hstat, hscan, List.foldl_cons]
    exact ih _

theorem count_process_fields (acc : process_stats_t) (state : Char) :
    count_process acc state
      = { total_processes := add64 acc.total_processes 1
          running_processes :=
            if spec_bucket state = 0 then add64 acc.running_processes 1 else acc.running_processes
          sleeping_processes :=
            if spec_bucket state = 1 then add64 acc.sleeping_processes 1
            else acc.sleeping_processes
          stopped_processes :=
            if spec_bucket state = 2 then add64 acc.stopped_processes 1 else acc.stopped_processes
          zombie_processes :=
            if spec_bucket state = 3 then add64 acc.zombie_processes 1
            else acc.zombie_processes } := by
  unfold count_process spec_bucket
  by_cases hR : state = 'R'
  · simp [hR]
  · by_cases hS : state = 'S' ∨ state = 'D' ∨ state = 'I'
    · have hS2 : (state = 'S' || state = 'D' || state = 'I') = true := by
        rcases hS with h | h | h <;> simp [h]
      simp [hR, hS, hS2]
    · have hS2 : (decide (state = 'S') || decide (state = 'D') || decide (state = 'I')) = false := by
        simp only [not_or] at hS
        simp [hS.1, hS.2.1, hS.2.2]
      by_cases hT : state = 'T' ∨ state = 't'
      · have hT2 : (decide (state = 'T') || decide (state = 't')) = true := by
          rcases hT with h | h <;> simp [h]
        simp [hR, hS, hS2, hT, hT2]
      · have hT2 : (decide (state = 'T') || decide (state = 't')) = false := by
          simp only [not_or] at hT
          simp [hT.1, hT.2]
        by_cases hZ : state = 'Z'
        · simp [hR, hS, hS2, hT, hT2, hZ]
        · simp [hR, hS, hS2, hT, hT2, hZ]

theorem foldl_count_process (states : List Char) (acc : process_stats_t) :
    states.foldl count_process acc
      = { total_processes :=
            if states = [] then acc.total_processes
            else (acc.total_processes + states.length) % U64_MOD
          running_processes :=
            if states.countP (fun c => spec_bucket c = 0) = 0 then acc.running_processes
            else (acc.running_processes + states.countP (fun c => spec_bucket c = 0)) % U64_MOD
          sleeping_processes :=
            if states.countP (fun c => spec_bucket c = 1) = 0 then acc.sleeping_processes
            else (acc.sleeping_processes + states.countP (fun c => spec_bucket c = 1)) % U64_MOD
          stopped_processes :=
            if states.countP (fun c => spec_bucket c = 2) = 0 then acc.stopped_processes
            else (acc.stopped_processes + states.countP (fun c => spec_bucket c = 2)) % U64_MOD
          zombie_processes :=
            if states.countP (fun c => spec_bucket c = 3) = 0 then acc.zombie_processes
            else (acc.zombie_processes + states.countP (fun c => spec_bucket c = 3)) % U64_MOD } := by
  have key : ∀ (p : Prop) [Decidable p] (a n : Nat),
      (if n = 0 then (if p then add64 a 1 else a)
          else ((if p then add64 a 1 else a) + n) % U64_MOD)
      = (if (n + if p then 1 else 0) = 0 then a
        else (a + (n + if p then 1 else 0)) % U64_MOD) := by
    intro p _ a n
    unfold add64 U64_MOD
    by_cases hp : p <;> by_cases hn : n = 0 <;> simp [hp, hn]
    all_goals omega
  induction states generalizing acc with
  | nil => simp
  | cons s rest ih =>
    rw [List.foldl_cons, ih, count_process_fields]
    simp only [List.countP_cons, List.length_cons]
    congr 1
    · unfold add64 U64_MOD
      by_cases hr : rest = []
      · simp [hr]
      · simp [hr]; omega
    · simpa using key (spec_bucket s = 0) acc.running_processes
        (List.countP (fun c => decide (spec_bucket c = 0)) rest)
    · simpa using key (spec_bucket s = 1) acc.sleeping_processes
        (List.countP (fun c => decide (spec_bucket c = 1)) rest)
    · simpa using key (spec_bucket s = 2) acc.stopped_processes
        (List.countP (fun c => decide (spec_bucket c = 2)) rest)
    · simpa using key (spec_bucket s = 3) acc.zombie_processes
        (List.countP (fun c => decide (spec_bucket c = 3)) rest)

theorem countP_lt_of_length_lt {states : List Char} (p : Char → Bool)
    (h : states.length < U64_MOD) : states.countP p % U64_MOD = states.countP p :=
  Nat.mod_eq_of_lt (lt_of_le_of_lt (List.countP_le_length p) h)

/-- The census of readable entries is the census of the specification. -/
theorem get_process_stats_readable (entries : List proc_entry) (states : List Char)
    (h : List.Forall₂ readable_process entries states) (hlen : states.length < U64_MOD) :
    get_process_stats (some entries) = some (spec_census states) := by
  show some (get_process_stats_scan process_stats_zero entries) = _
  rw [get_process_stats_scan_readable entries states h, foldl_count_process]
  unfold spec_census process_stats_zero NO_PROCESSES
  simp only [Nat.zero_add, countP_lt_of_length_lt _ hlen, Nat.mod_eq_of_lt hlen]
  congr 2
  · split
    · rename_i h0; rw [h0]; rfl
    · rfl
  · split
    · rename_i h0; exact h0.symm
    · rfl
  · split
    · rename_i h0; exact h0.symm
    · rfl
  · split
    · rename_i h0; exact h0.symm
    · rfl
  · split
    · rename_i h0; exact h0.symm
    · rfl

/-! ## Formatted input on well-formed text -/

theorem takeWhile_append_stop {p : Char → Bool} (l t : List Char) (x : Char)
    (hl : ∀ c ∈ l, p c = true) (hx : p x = false) : (l ++ x :: t).takeWhile p = l := by
  induction l with
  | nil => simp [List.takeWhile, hx]
  | cons a r ih =>
    have ha := hl a (List.mem_cons_self _ _)
    rw [List.cons_append, List.takeWhile_cons, ha]
    simp only [if_true]
    rw [ih (fun c hc => hl c (List.mem_cons_of_mem _ hc))]

theorem dropWhile_append_stop {p : Char → Bool} (l t : List Char) (x : Char)
    (hl : ∀ c ∈ l, p c = true) (hx : p x = false) : (l ++ x :: t).dropWhile p = x :: t := by
  induction l with
  | nil => simp [List.dropWhile, hx]
  | cons a r ih =>
    have ha := hl a (List.mem_cons_self _ _)
    rw [List.cons_append, List.dropWhile_cons, ha]
    simp only [if_true]
    exact ih (fun c hc => hl c (List.mem_cons_of_mem _ hc))

theorem isspace_of_isdigit {c : Char} (h : isdigit c = true) : isspace c = false := by
  unfold isdigit at h
  unfold isspace
  simp only [Bool.and_eq_true, decide_eq_true_eq] at h
  simp only [Bool.or_eq_false_iff, Bool.and_eq_false_iff, decide_eq_false_iff_not]
  omega

theorem not_sign_of_isdigit {c : Char} (h : isdigit c = true) : c ≠ '-' ∧ c ≠ '+' := by
  constructor <;> rintro rfl <;> exact absurd h (by decide)

/-- `scan_number` on a run of digits followed by a character that is no digit. -/
theorem scan_number_digits (ds t : List Char) (x : Char) (hne : ds ≠ [])
    (hd : ∀ c ∈ ds, isdigit c = true) (hx : isdigit x = false) :
    scan_number (ds ++ x :: t) = some (false, ds, x :: t) := by
  cases ds with
  | nil => exact absurd rfl hne
  | cons d r =>
    have hdd := hd d (List.mem_cons_self _ _)
    have hsp : isspace d = false := isspace_of_isdigit hdd
    have hsign := not_sign_of_isdigit hdd
    have htake := takeWhile_append_stop (d :: r) t x hd hx
    have hdrop := dropWhile_append_stop (d :: r) t x hd hx
    unfold scan_number
    have h1 : List.dropWhile isspace (d :: r ++ x :: t) = d :: r ++ x :: t := by
      rw [List.cons_append, List.dropWhile_cons, hsp]
      rfl
    rw [h1]
    simp only [List.cons_append, hsign.1, hsign.2, if_false]
    rw [List.cons_append] at htake hdrop
    rw [htake, hdrop]
    rfl

/-- The fields `fscanf (fp, "%d %s %c", ...)` reads from a status line
`pid (comm) state ...` with a whitespace-free `comm`. -/
theorem sscanf_status_line (pid comm rest : List Char) (state : Char) (hne : pid ≠ [])
    (hpid : ∀ c ∈ pid, isdigit c = true) (hcomm : ∀ c ∈ comm, isspace c = false)
    (hstate : isspace state = false) :
    sscanf (String.mk (pid ++ ' ' :: ('(' :: (comm ++ ')' :: ' ' :: state :: rest))))
        "%d %s %c"
      = [scan_value.int (digits_value pid), scan_value.str ('(' :: (comm ++ [')'])),
          scan_value.chr state] := by
  have hf : parse_format false true ("%d %s %c" : String).toList
      = [scan_directive.conv true 'd', scan_directive.space, scan_directive.conv true 's',
          scan_directive.space, scan_directive.conv true 'c'] := by decide
  have hnum := scan_number_digits pid ('(' :: (comm ++ ')' :: ' ' :: state :: rest)) ' ' hne hpid
    (by decide)
  have htok : ∀ c ∈ '(' :: (comm ++ [')']), (fun c => !isspace c) c = true := by
    intro c hc
    simp only [List.mem_cons, List.mem_append, List.mem_singleton, List.not_mem_nil,
      or_false] at hc
    rcases hc with rfl | hc | rfl
    · decide
    · simp [hcomm c hc]
    · decide
  have hsplit : '(' :: (comm ++ ')' :: ' ' :: state :: rest)
      = ('(' :: (comm ++ [')'])) ++ ' ' :: (state :: rest) := by simp
  have htake := takeWhile_append_stop (p := fun c => !isspace c) ('(' :: (comm ++ [')']))
    (state :: rest) ' ' htok (by decide)
  have hdrop := dropWhile_append_stop (p := fun c => !isspace c) ('(' :: (comm ++ [')']))
    (state :: rest) ' ' htok (by decide)
  have hsp1 : List.dropWhile isspace (' ' :: ('(' :: (comm ++ ')' :: ' ' :: state :: rest)))
      = '(' :: (comm ++ ')' :: ' ' :: state :: rest) := by
    rw [List.dropWhile_cons]
    have : isspace ' ' = true := by decide
    rw [this]
    simp only [if_true]
    rw [List.dropWhile_cons]
    have : isspace '(' = false := by decide
    rw [this]
    rfl
  have hsp2 : List.dropWhile isspace ('(' :: (comm ++ ')' :: ' ' :: state :: rest))
      = '(' :: (comm ++ ')' :: ' ' :: state :: rest) := by
    rw [List.dropWhile_cons]
    have : isspace '(' = false := by decide
    rw [this]
    rfl
  have hsp3 : List.dropWhile isspace (' ' :: state :: rest) = state :: rest := by
    rw [List.dropWhile_cons]
    have : isspace ' ' = true := by decide
    rw [this]
    simp only [if_true]
    rw [List.dropWhile_cons, hstate]
    rfl
  unfold sscanf
  rw [hf]
  show scan_directives _ (pid ++ ' ' :: ('(' :: (comm ++ ')' :: ' ' :: state :: rest))) = _
  have hd : scan_conversion 'd' (pid ++ ' ' :: ('(' :: (comm ++ ')' :: ' ' :: state :: rest)))
      = some (scan_value.int (digits_value pid),
          ' ' :: ('(' :: (comm ++ ')' :: ' ' :: state :: rest))) := by
    unfold scan_conversion
    rw [hnum]
    rfl
  have hs : scan_conversion 's' ('(' :: (comm ++ ')' :: ' ' :: state :: rest))
      = some (scan_value.str ('(' :: (comm ++ [')'])), ' ' :: state :: rest) := by
    unfold scan_conversion
    have h1 : ('s' = 'd') = False := by decide
    have h2 : ('s' = 'u') = False := by decide
    simp only [h1, h2, if_false, if_true, hsp2]
    rw [hsplit, htake, hdrop]
    rfl
  have hc : scan_conversion 'c' (state :: rest) = some (scan_value.chr state, rest) := by
    unfold scan_conversion
    have h1 : ('c' = 'd') = False := by decide
    have h2 : ('c' = 'u') = False := by decide
    have h3 : ('c' = 's') = False := by decide
    simp only [h1, h2, h3, if_false, if_true]
  simp only [scan_directives, hd, hsp1, hs, hsp3, hc, if_true]

/-- C19. Process census classification: for every list of readable process
entries (numeric name, status line `pid (comm) state ...` whose three fields
are read, which is the case when `comm` is whitespace-free),
`get_process_stats` counts each process once in the total and in exactly the
bucket given by its state character: R -> running; S, D, I -> sleeping;
T, t -> stopped; Z -> zombie; any other character -> sleeping. States
R, S, D, Z, t yield total 5, running 1, sleeping 2, stopped 1, zombie 1. -/
theorem get_process_stats_classification :
    (∀ (entries : List proc_entry) (states : List Char),
      List.Forall₂ readable_process entries states → states.length < U64_MOD →
      get_process_stats (some entries) = some (spec_census states)) ∧
    (∀ (pid comm rest : List Char) (state : Char),
      pid ≠ [] → (∀ c ∈ pid, isdigit c = true) → pid.length < 500 →
      (∀ c ∈ comm, isspace c = false) → isspace state = false →
      readable_process
        { d_name := String.mk pid
          stat := some (String.mk
            (pid ++ ' ' :: ('(' :: (comm ++ ')' :: ' ' :: state :: rest)))) } state) ∧
    get_process_stats (some [status_entry "1" "systemd" 'R', status_entry "2" "kthreadd" 'S',
        status_entry "37" "kworker/0:1" 'D', status_entry "412" "defunct" 'Z',
        status_entry "4242" "gdb" 't'])
      = some { total_processes := 5, running_processes := 1, sleeping_processes := 2,
               stopped_processes := 1, zombie_processes := 1 } := by
  refine ⟨get_process_stats_readable, ?_, by decide⟩
  intro pid comm rest state hne hpid hlen hcomm hstate
  refine ⟨?_, ?_, _, digits_value pid, '(' :: (comm ++ [')']), rfl,
    sscanf_status_line pid comm rest state hne hpid hcomm hstate⟩
  · cases pid with
    | nil => exact absurd rfl hne
    | cons d r => exact hpid d (List.mem_cons_self _ _)
  · have h1 : ("/proc/" ++ String.mk pid ++ "/stat").length = 6 + pid.length + 5 := by
      rw [String.length_append, String.length_append]
      rfl
    rw [h1]
    unfold PATH_BUFFER_SIZE
    omega

theorem get_process_stats_classification_witness :
    get_process_stats (some [status_entry "7" "bash" 'I', status_entry "8" "top" 'X'])
      = some (spec_census ['I', 'X']) ∧
    (spec_census ['I', 'X']).sleeping_processes = 2 ∧
    readable_process (status_entry "8" "top" 'X') 'X' :=
  ⟨get_process_stats_classification.1
      [status_entry "7" "bash" 'I', status_entry "8" "top" 'X'] ['I', 'X']
      (List.Forall₂.cons
        (get_process_stats_classification.2.1 "7".toList "bash".toList " 0 0 0\n".toList 'I'
          (by decide) (by decide) (by decide) (by decide) (by decide))
        (List.Forall₂.cons
          (get_process_stats_classification.2.1 "8".toList "top".toList " 0 0 0\n".toList 'X'
            (by decide) (by decide) (by decide) (by decide) (by decide))
          List.Forall₂.nil))
      (by decide),
   by decide,
   get_process_stats_classification.2.1 "8".toList "top".toList " 0 0 0\n".toList 'X'
     (by decide) (by decide) (by decide) (by decide) (by decide)⟩

/-! ## Context reader -/

/-- C20, evaluation at the failing input. On a stat table that holds an `intr`
line and a `softirq` line and neither a `ctxt` nor a `processes` line,
`get_context_stats` reaches the threshold of 2 found fields and succeeds, with
`context_switches` and `processes_created` left at 0; so does a table that
holds the `ctxt` line twice and no `processes` line. -/
theorem get_context_stats_counts_optional_fields :
    get_context_stats (some ["cpu  10 0 5 80 5 0 0 0 0 0\n", "intr 100 1 2 3\n",
        "btime 1700000000\n", "softirq 77 1 2\n"])
      = some { context_switches := 0, processes_created := 0, interrupts := 100,
               soft_interrupts := 77 } ∧
    get_context_stats (some ["ctxt 5\n", "ctxt 6\n"])
      = some { context_switches := 6, processes_created := 0, interrupts := 0,
               soft_interrupts := 0 } := by
  decide

/-! ## CPU usage range -/

/-- C27. CPU usage range: for every previous and current set of the 8 CPU
counters in which no counter decreased and whose current sum fits in 64 bits,
`get_cpu_usage` returns either `-1.0` or a percentage between 0 and 100
inclusive; it returns `-1.0` when `/proc/stat` cannot be read. -/
theorem get_cpu_usage_range (prev cur : cpu_counters)
    (huser : prev.user ≤ cur.user) (hnice : prev.nice ≤ cur.nice)
    (hsystem : prev.system ≤ cur.system) (hidle : prev.idle ≤ cur.idle)
    (hiowait : prev.iowait ≤ cur.iowait) (hirq : prev.irq ≤ cur.irq)
    (hsoftirq : prev.softirq ≤ cur.softirq) (hsteal : prev.steal ≤ cur.steal)
    (h64 : cpu_sum cur < U64_MOD) :
    ((get_cpu_usage prev (some cur)).1 = ERROR_VALUE_DOUBLE ∨
      (0 ≤ (get_cpu_usage prev (some cur)).1 ∧ (get_cpu_usage prev (some cur)).1 ≤ 100)) ∧
    (get_cpu_usage prev none).1 = ERROR_VALUE_DOUBLE := by
  refine ⟨?_, rfl⟩
  by_cases hne : cpu_sum cur = cpu_sum prev
  · left
    have hg : get_cpu_usage prev (some cur) = (ERROR_VALUE_DOUBLE, prev) := by
      apply get_cpu_usage_guard
      rw [cpu_total_eq_sum_mod, cpu_total_eq_sum_mod, hne]
      exact sub64_self _
    rw [hg]
  · right
    have hv := @get_cpu_usage_value prev cur (by omega) (by omega) h64 hne
    rw [hv]
    have hple : cpu_sum prev ≤ cpu_sum cur := by unfold cpu_sum; omega
    have hpos : (0 : ℚ) < ((cpu_sum cur - cpu_sum prev : Nat) : ℚ) := by
      have : 0 < cpu_sum cur - cpu_sum prev := by omega
      exact_mod_cast this
    have hle : ((((cpu_sum cur - cpu_sum prev)
        - ((cur.idle + cur.iowait) - (prev.idle + prev.iowait)) : Nat)) : ℚ)
        ≤ ((cpu_sum cur - cpu_sum prev : Nat) : ℚ) := by
      exact_mod_cast Nat.sub_le _ _
    have hnn : (0 : ℚ) ≤ ((((cpu_sum cur - cpu_sum prev)
        - ((cur.idle + cur.iowait) - (prev.idle + prev.iowait)) : Nat)) : ℚ) :=
      Nat.cast_nonneg _
    constructor
    · exact mul_nonneg (div_nonneg hnn (le_of_lt hpos)) (by norm_num)
    · have h1 : ((((cpu_sum cur - cpu_sum prev)
          - ((cur.idle + cur.iowait) - (prev.idle + prev.iowait)) : Nat)) : ℚ)
          / ((cpu_sum cur - cpu_sum prev : Nat) : ℚ) ≤ 1 := (div_le_one hpos).2 hle
      show _ * (100 : ℚ) ≤ 100
      nlinarith

theorem get_cpu_usage_range_witness :
    (get_cpu_usage (cpu_sample 100 100 0) (some (cpu_sample 130 170 0))).1 = ERROR_VALUE_DOUBLE ∨
    (0 ≤ (get_cpu_usage (cpu_sample 100 100 0) (some (cpu_sample 130 170 0))).1 ∧
      (get_cpu_usage (cpu_sample 100 100 0) (some (cpu_sample 130 170 0))).1 ≤ 100) :=
  (get_cpu_usage_range (cpu_sample 100 100 0) (cpu_sample 130 170 0) (by decide) (by decide)
    (by decide) (by decide) (by decide) (by decide) (by decide) (by decide) (by decide)).1

/-! ## Disk gauges -/

/-- C25, evaluation at the failing input. No call of `update_disk_metrics` writes
the gauge `disk_avg_wait_time_metric`: on a cycle that emits (baseline 100
reads at time 10, then 300 reads and 400 ms of I/O time at time 12) the
Delta Engine computes an average wait time of 2 ms, and the gauges written are
the read rate, the write rate, the utilization and the queue depth only. -/
theorem update_disk_metrics_never_sets_avg_wait_time :
    (∀ (s : disk_cache) (i : disk_cycle),
      ∀ w ∈ (update_disk_metrics s i).2, w.1 ≠ Gauge.disk_avg_wait_time_metric) ∧
    (calculate_disk_health (disk_sample 300 0 400) disk_cache_seeded.prev_stats 2
        health_garbage).avg_wait_time = 2 ∧
    (update_disk_metrics disk_cache_seeded disk_poll_busy).2
      = [(Gauge.disk_read_rate_metric, 100), (Gauge.disk_write_rate_metric, 0),
         (Gauge.disk_utilization_metric, 20), (Gauge.disk_queue_depth_metric, 0)] := by
  have hbody : ∀ (s : disk_cache) (i : disk_cycle),
      ∀ w ∈ (update_disk_metrics_body s i).2, w.1 ≠ Gauge.disk_avg_wait_time_metric := by
    intro s i w hw
    unfold update_disk_metrics_body at hw
    split at hw
    · exact absurd hw (List.not_mem_nil _)
    · simp only [] at hw
      split at hw
      · split at hw
        · simp only [List.mem_cons, List.mem_singleton, List.not_mem_nil, or_false] at hw
          rcases hw with h | h | h | h <;> rw [h] <;> exact fun hh => Gauge.noConfusion hh
        · exact absurd hw (List.not_mem_nil _)
      · exact absurd hw (List.not_mem_nil _)
  have hs : disk_cache_seeded
      = { prev_stats := disk_sample 100 0 0, prev_time := 10, primary_disk := some "sda",
          first_run := false } := by
    simp [disk_cache_seeded, update_disk_metrics, update_disk_metrics_body, disk_cache_init,
      disk_poll, SUCCESS]
  refine ⟨?_, ?_, ?_⟩
  · intro s i w hw
    unfold update_disk_metrics at hw
    split at hw
    · split at hw
      · exact absurd hw (List.not_mem_nil _)
      · exact hbody _ i w hw
    · exact hbody s i w hw
  · rw [hs]
    norm_num [calculate_disk_health, disk_sample, sub64, add64, U64_MOD, NO_BYTES]
  · rw [hs]
    norm_num [update_disk_metrics, update_disk_metrics_body, disk_poll_busy, SUCCESS,
      ZERO_VALUE_DOUBLE, calculate_disk_health, disk_sample, sub64, add64, U64_MOD, NO_BYTES,
      MILLISECONDS_TO_SECONDS, PERCENTAGE_MULTIPLIER]

/-! ## Disk detection and IDE disks -/

theorem disk_name_test_hd {name : List Char} (h : starts_with name "hd" = true) :
    disk_name_test name = false := by
  obtain ⟨rest, hr⟩ := starts_with_cons (show "hd".toList = 'h' :: ['d'] from rfl) h
  subst hr
  have h1 : starts_with ('h' :: rest) "nvme" = false := by
    cases hc : starts_with ('h' :: rest) "nvme" with
    | false => rfl
    | true =>
      obtain ⟨r, hr⟩ := starts_with_cons (show "nvme".toList = 'n' :: ['v', 'm', 'e'] from rfl) hc
      exact absurd (List.cons.inj hr).1 (by decide)
  have h2 : starts_with ('h' :: rest) "sd" = false := by
    cases hc : starts_with ('h' :: rest) "sd" with
    | false => rfl
    | true =>
      obtain ⟨r, hr⟩ := starts_with_cons (show "sd".toList = 's' :: ['d'] from rfl) hc
      exact absurd (List.cons.inj hr).1 (by decide)
  have h3 : starts_with ('h' :: rest) "mmcblk" = false := by
    cases hc : starts_with ('h' :: rest) "mmcblk" with
    | false => rfl
    | true =>
      obtain ⟨r, hr⟩ := starts_with_cons
        (show "mmcblk".toList = 'm' :: ['m', 'c', 'b', 'l', 'k'] from rfl) hc
      exact absurd (List.cons.inj hr).1 (by decide)
  unfold disk_name_test
  rw [h1, h2, h3]
  rfl

/-- C28, evaluation at the failing input. `detect_primary_disk` has no test for
the `hd` prefix: a table all of whose rows are `hd` devices, such as the table
whose only row is an active `hda`, yields the fallback name `sda`. -/
theorem detect_primary_disk_ignores_ide :
    (∀ lines : List String,
      (∀ line ∈ lines, ∀ name reads writes,
        disk_row line = some (name, reads, writes) → starts_with name "hd" = true) →
      detect_primary_disk (some lines) = some "sda") ∧
    disk_row (diskstats_line "hda" 100 50) = some ("hda".toList, 100, 50) ∧
    detect_primary_disk (some [diskstats_line "hda" 100 50]) = some "sda" := by
  refine ⟨?_, by decide, by decide⟩
  intro lines hrows
  show some (detect_primary_disk_scan lines) = _
  congr 1
  induction lines with
  | nil => rfl
  | cons b bs ih =>
    have hb : spec_disk_candidate b = false := by
      cases hr : disk_row b with
      | none => exact spec_disk_candidate_of_none hr
      | some row =>
        obtain ⟨name, reads, writes⟩ := row
        rw [spec_disk_candidate_of_row hr,
          disk_name_test_hd (hrows b (List.mem_cons_self _ _) name reads writes hr),
          Bool.and_false]
    rw [detect_primary_disk_scan_skip _ hb]
    exact ih (fun l hl => hrows l (List.mem_cons_of_mem _ hl))

/-! ## Process census: partition of the total -/

/-- One iteration of the `readdir` loop of `get_process_stats`, in terms of the
state character read. -/
theorem get_process_stats_scan_cons (acc : process_stats_t) (entry : proc_entry)
    (rest : List proc_entry) :
    get_process_stats_scan acc (entry :: rest)
      = match counted_state entry with
        | some state => get_process_stats_scan (count_process acc state) rest
        | none => get_process_stats_scan acc rest := by
  rw [get_process_stats_scan]
  by_cases hd : first_char_is_digit entry.d_name = true
  · by_cases hp : ("/proc/" ++ entry.d_name ++ "/stat").length ≥ PATH_BUFFER_SIZE
    · have hc : counted_state entry = none := by
        unfold counted_state
        simp only [hd, Bool.not_true, Bool.false_eq_true, if_false, hp, if_true]
      rw [hc]
      simp only [hd, Bool.not_true, Bool.false_eq_true, if_false, hp, if_true]
    · simp only [hd, Bool.not_true, Bool.false_eq_true, if_false, hp]
      cases hs : entry.stat with
      | none =>
        have hc : counted_state entry = none := by
          unfold counted_state
          simp only [hd, Bool.not_true, Bool.false_eq_true, if_false, hp, hs]
        rw [hc]
      | some content =>
        simp only []
        split
        · rename_i a b state h
          have hc : counted_state entry = some state := by
            unfold counted_state
            simp only [hd, Bool.not_true, Bool.false_eq_true, if_false, hp, hs, h]
          rw [hc]
        · rename_i h
          have hc : counted_state entry = none := by
            unfold counted_state
            simp only [hd, Bool.not_true, Bool.false_eq_true, if_false, hp, hs]
          rw [hc]
  · have hd2 : first_char_is_digit entry.d_name = false := by
      cases h : first_char_is_digit entry.d_name with
      | false => rfl
      | true => exact absurd h hd
    have hc : counted_state entry = none := by
      unfold counted_state
      simp only [hd2, Bool.not_false, if_true]
    rw [hc]
    simp only [hd2, Bool.not_false, if_true]

/-- The loop of `get_process_stats` applies `count_process` to the state
characters of the entries it counts, in order. -/
theorem get_process_stats_scan_eq_foldl (entries : List proc_entry) (acc : process_stats_t) :
    get_process_stats_scan acc entries
      = (entries.filterMap counted_state).foldl count_process acc := by
  induction entries generalizing acc with
  | nil => rfl
  | cons e rest ih =>
    rw [get_process_stats_scan_cons]
    cases hc : counted_state e with
    | none =>
      rw [List.filterMap_cons_none hc]
      exact ih acc
    | some state =>
      rw [List.filterMap_cons_some hc, List.foldl_cons]
      exact ih _

theorem foldl_count_process_zero (states : List Char) (hlen : states.length < U64_MOD) :
    states.foldl count_process process_stats_zero = spec_census states := by
  rw [foldl_count_process]
  unfold spec_census process_stats_zero NO_PROCESSES
  simp only [Nat.zero_add, countP_lt_of_length_lt _ hlen, Nat.mod_eq_of_lt hlen]
  congr 2
  · split
    · rename_i h0; rw [h0]; rfl
    · rfl
  · split
    · rename_i h0; exact h0.symm
    · rfl
  · split
    · rename_i h0; exact h0.symm
    · rfl
  · split
    · rename_i h0; exact h0.symm
    · rfl
  · split
    · rename_i h0; exact h0.symm
    · rfl

theorem spec_bucket_cases (c : Char) :
    spec_bucket c = 0 ∨ spec_bucket c = 1 ∨ spec_bucket c = 2 ∨ spec_bucket c = 3 := by
  unfold spec_bucket
  split
  · exact Or.inl rfl
  · split
    · exact Or.inr (Or.inl rfl)
    · split
      · exact Or.inr (Or.inr (Or.inl rfl))
      · split
        · exact Or.inr (Or.inr (Or.inr rfl))
        · exact Or.inr (Or.inl rfl)

/-- The four buckets partition the processes. -/
theorem spec_census_partition (states : List Char) :
    states.countP (fun c => spec_bucket c = 0) + states.countP (fun c => spec_bucket c = 1)
      + states.countP (fun c => spec_bucket c = 2) + states.countP (fun c => spec_bucket c = 3)
      = states.length := by
  induction states with
  | nil => rfl
  | cons c rest ih =>
    simp only [List.countP_cons, List.length_cons]
    rcases spec_bucket_cases c with h | h | h | h <;> simp [h] <;> omega

/-- The census of any list of entries is the census of the specification on the
state characters of the entries counted. -/
theorem get_process_stats_eq_census (entries : List proc_entry)
    (hlen : entries.length < U64_MOD) :
    get_process_stats (some entries) = some (spec_census (entries.filterMap counted_state)) := by
  show some (get_process_stats_scan process_stats_zero entries) = _
  rw [get_process_stats_scan_eq_foldl, foldl_count_process_zero]
  exact lt_of_le_of_lt (List.length_filterMap_le _ _) hlen

/-- C29. Process census partition invariant: for every list of process entries
(fewer than `2 ^ 64`), after a successful `get_process_stats`,
`total_processes = running_processes + sleeping_processes + stopped_processes +
zombie_processes`; an entry whose status cannot be opened or parsed contributes
to none of the five counts; hence `running_processes <= total_processes` and
the process-load ratio computed from the census lies in `[0, 1]`. -/
theorem get_process_stats_partition :
    (∀ (entries : List proc_entry) (stats : process_stats_t),
      entries.length < U64_MOD → get_process_stats (some entries) = some stats →
      stats.total_processes = stats.running_processes + stats.sleeping_processes
        + stats.stopped_processes + stats.zombie_processes ∧
      stats.running_processes ≤ stats.total_processes) ∧
    (∀ entry : proc_entry, entry.stat = none → counted_state entry = none) ∧
    (∀ (entry : proc_entry) (content : String), entry.stat = some content →
      (sscanf content "%d %s %c").length < 3 → counted_state entry = none) ∧
    (∀ (before after : List proc_entry) (entry : proc_entry), counted_state entry = none →
      get_process_stats (some (before ++ entry :: after))
        = get_process_stats (some (before ++ after))) ∧
    (∀ (entries : List proc_entry) (stats : process_stats_t) (cur prev : context_stats_t)
        (dt : ℚ) (m : system_performance_metrics_t),
      entries.length < U64_MOD → get_process_stats (some entries) = some stats →
      0 ≤ (calculate_system_performance_metrics cur prev stats dt m).process_load_ratio ∧
      (calculate_system_performance_metrics cur prev stats dt m).process_load_ratio ≤ 1) := by
  have hpart : ∀ (entries : List proc_entry) (stats : process_stats_t),
      entries.length < U64_MOD → get_process_stats (some entries) = some stats →
      stats.total_processes = stats.running_processes + stats.sleeping_processes
        + stats.stopped_processes + stats.zombie_processes ∧
      stats.running_processes ≤ stats.total_processes := by
    intro entries stats hlen hres
    rw [get_process_stats_eq_census entries hlen] at hres
    have hs := Option.some.inj hres
    subst hs
    have hp := spec_census_partition (entries.filterMap counted_state)
    simp only [spec_census]
    omega
  refine ⟨hpart, ?_, ?_, ?_, ?_⟩
  · intro entry hstat
    unfold counted_state
    rw [hstat]
    split
    · rfl
    · split <;> rfl
  · intro entry content hstat hlen
    unfold counted_state
    rw [hstat]
    split
    · rfl
    · split
      · rfl
      · simp only []
        split
        · rename_i a b state h
          rw [h] at hlen
          simp at hlen
        · rfl
  · intro before after entry hc
    show some (get_process_stats_scan process_stats_zero (before ++ entry :: after))
      = some (get_process_stats_scan process_stats_zero (before ++ after))
    rw [get_process_stats_scan_eq_foldl, get_process_stats_scan_eq_foldl,
      List.filterMap_append, List.filterMap_append, List.filterMap_cons_none hc]
  · intro entries stats cur prev dt m hlen hres
    obtain ⟨_, hle⟩ := hpart entries stats hlen hres
    show 0 ≤ (if stats.total_processes > NO_PROCESSES then
        (stats.running_processes : ℚ) / (stats.total_processes : ℚ) else ZERO_VALUE_DOUBLE) ∧
      (if stats.total_processes > NO_PROCESSES then
        (stats.running_processes : ℚ) / (stats.total_processes : ℚ) else ZERO_VALUE_DOUBLE) ≤ 1
    unfold NO_PROCESSES ZERO_VALUE_DOUBLE
    split
    · rename_i hpos
      have hq : (0 : ℚ) < (stats.total_processes : ℚ) := by exact_mod_cast hpos
      constructor
      · exact div_nonneg (Nat.cast_nonneg _) (le_of_lt hq)
      · rw [div_le_one hq]
        exact_mod_cast hle
    · constructor <;> norm_num

theorem get_process_stats_partition_witness :
    get_process_stats (some ([status_entry "1" "init" 'R']
        ++ { d_name := "77", stat := none } :: [status_entry "2" "sh" 'S']))
      = get_process_stats (some ([status_entry "1" "init" 'R'] ++ [status_entry "2" "sh" 'S'])) ∧
    get_process_stats (some [status_entry "1" "init" 'R', { d_name := "77", stat := none },
        status_entry "2" "sh" 'S'])
      = some { total_processes := 2, running_processes := 1, sleeping_processes := 1,
               stopped_processes := 0, zombie_processes := 0 } ∧
    ((2 : Nat) = 1 + 1 + 0 + 0 ∧ (1 : Nat) ≤ 2) :=
  ⟨get_process_stats_partition.2.2.2.1 [status_entry "1" "init" 'R'] [status_entry "2" "sh" 'S']
      { d_name := "77", stat := none }
      (get_process_stats_partition.2.1 { d_name := "77", stat := none } rfl),
   by decide,
   get_process_stats_partition.1
      [status_entry "1" "init" 'R', { d_name := "77", stat := none }, status_entry "2" "sh" 'S']
      { total_processes := 2, running_processes := 1, sleeping_processes := 1,
        stopped_processes := 0, zombie_processes := 0 }
      (by decide) (by decide)⟩

/-! ## Memory readers -/

/-- A format that starts with literal characters assigns nothing unless the
input starts with them. -/
theorem scan_directives_literals (p : List Char) (fmt : List scan_directive) (inp : List Char)
    (h : scan_directives (p.map scan_directive.lit ++ fmt) inp ≠ []) : ∃ r, inp = p ++ r := by
  induction p generalizing inp with
  | nil => exact ⟨inp, rfl⟩
  | cons c cs ih =>
    cases inp with
    | nil =>
      simp only [List.map_cons, List.cons_append, scan_directives] at h
      exact absurd rfl h
    | cons x rest =>
      simp only [List.map_cons, List.cons_append, scan_directives] at h
      by_cases hx : x = c
      · rw [if_pos hx] at h
        obtain ⟨r, hr⟩ := ih rest h
        exact ⟨r, by rw [hx, hr]; rfl⟩
      · rw [if_neg hx] at h
        exact absurd rfl h

theorem mem_total_format :
    parse_format false true ("MemTotal: %llu kB" : String).toList
      = ("MemTotal:" : String).toList.map scan_directive.lit
        ++ [scan_directive.space, scan_directive.conv true 'u', scan_directive.space,
            scan_directive.lit 'k', scan_directive.lit 'B'] := by
  decide

theorem mem_available_format :
    parse_format false true ("MemAvailable: %llu kB" : String).toList
      = ("MemAvailable:" : String).toList.map scan_directive.lit
        ++ [scan_directive.space, scan_directive.conv true 'u', scan_directive.space,
            scan_directive.lit 'k', scan_directive.lit 'B'] := by
  decide

/-- A line is not both a `MemTotal` line and a `MemAvailable` line. -/
theorem mem_total_none_of_available {line : String} {a : Nat}
    (h : mem_available_value line = some a) : mem_total_value line = none := by
  cases ht : mem_total_value line with
  | none => rfl
  | some t =>
    exfalso
    have h1 : sscanf line "MemAvailable: %llu kB" ≠ [] := by
      intro h0
      unfold mem_available_value at h
      rw [h0] at h
      exact absurd h (by simp)
    have h2 : sscanf line "MemTotal: %llu kB" ≠ [] := by
      intro h0
      unfold mem_total_value at ht
      rw [h0] at ht
      exact absurd ht (by simp)
    unfold sscanf at h1 h2
    rw [mem_available_format] at h1
    rw [mem_total_format] at h2
    obtain ⟨r1, hr1⟩ := scan_directives_literals _ _ _ h1
    obtain ⟨r2, hr2⟩ := scan_directives_literals _ _ _ h2
    rw [hr1] at hr2
    have h3 : ("MemAvailable:" : String).toList
        = 'M' :: 'e' :: 'm' :: 'A' :: ("vailable:" : String).toList := rfl
    have h4 : ("MemTotal:" : String).toList
        = 'M' :: 'e' :: 'm' :: 'T' :: ("otal:" : String).toList := rfl
    rw [h3, h4] at hr2
    simp only [List.cons_append, List.cons.injEq, true_and] at hr2
    exact absurd hr2.1 (by decide)

/-- One iteration of the loop of `get_memory_info`, in terms of the values read. -/
theorem get_memory_info_scan_cons (total available : Nat) (buffer : String)
    (rest : List String) :
    get_memory_info_scan total available (buffer :: rest)
      = match mem_total_value buffer with
        | some v => get_memory_info_scan v available rest
        | none =>
          match mem_available_value buffer with
          | some v => (total, v)
          | none => get_memory_info_scan total available rest := by
  rw [get_memory_info_scan]
  split
  · rename_i v h
    have ht : mem_total_value buffer = some v := by
      unfold mem_total_value
      rw [h]
    rw [ht]
  · rename_i h
    have ht : mem_total_value buffer = none := by
      unfold mem_total_value
      split
      · rename_i v h2
        exact absurd h2 (h v)
      · rfl
    rw [ht]
    simp only []
    split
    · rename_i v h3
      have ha : mem_available_value buffer = some v := by
        unfold mem_available_value
        rw [h3]
      rw [ha]
    · rename_i h3
      have ha : mem_available_value buffer = none := by
        unfold mem_available_value
        split
        · rename_i v h4
          exact absurd h4 (h3 v)
        · rfl
      rw [ha]

/-- Before the first `MemAvailable` line the loop keeps the value of the last
`MemTotal` line. -/
theorem get_memory_info_scan_before (before rest : List String) (total available : Nat)
    (hb : ∀ l ∈ before, mem_available_value l = none) :
    get_memory_info_scan total available (before ++ rest)
      = get_memory_info_scan ((before.filterMap mem_total_value).getLast?.getD total)
          available rest := by
  induction before generalizing total with
  | nil => rfl
  | cons b bs ih =>
    have ih1 := fun t => ih t (fun l hl => hb l (List.mem_cons_of_mem _ hl))
    rw [List.cons_append, get_memory_info_scan_cons]
    cases ht : mem_total_value b with
    | some v =>
      simp only []
      rw [ih1 v, List.filterMap_cons_some ht, List.getLast?_cons]
      rfl
    | none =>
      simp only [hb b (List.mem_cons_self _ _)]
      rw [ih1 total, List.filterMap_cons_none ht]

/-- Without `MemAvailable` line the loop leaves `available` as it is. -/
theorem get_memory_info_scan_no_available (lines : List String) (total available : Nat)
    (hb : ∀ l ∈ lines, mem_available_value l = none) :
    (get_memory_info_scan total available lines).2 = available := by
  have h := get_memory_info_scan_before lines [] total available hb
  rw [List.append_nil] at h
  rw [h]
  rfl

/-- A table holds no `MemAvailable` line, or it splits at the first one. -/
theorem first_available_line (lines : List String) :
    (∀ l ∈ lines, mem_available_value l = none) ∨
    ∃ (before after : List String) (line : String) (a : Nat),
      lines = before ++ line :: after ∧ (∀ l ∈ before, mem_available_value l = none) ∧
      mem_available_value line = some a := by
  induction lines with
  | nil => exact Or.inl (fun l hl => absurd hl (List.not_mem_nil _))
  | cons b bs ih =>
    cases hb : mem_available_value b with
    | some a =>
      exact Or.inr ⟨[], bs, b, a, rfl, fun l hl => absurd hl (List.not_mem_nil _), hb⟩
    | none =>
      rcases ih with hnone | ⟨before, after, line, a, hsplit, hbefore, hline⟩
      · left
        intro l hl
        rcases List.mem_cons.1 hl with h | h
        · rw [h]; exact hb
        · exact hnone l h
      · right
        refine ⟨b :: before, after, line, a, by rw [hsplit]; rfl, ?_, hline⟩
        intro l hl
        rcases List.mem_cons.1 hl with h | h
        · rw [h]; exact hb
        · exact hbefore l h

/-- The values the loop of `get_memory_info` ends with on a table that splits
at its first `MemAvailable` line. -/
theorem get_memory_info_scan_split (before after : List String) (line : String) (a : Nat)
    (hb : ∀ l ∈ before, mem_available_value l = none) (hl : mem_available_value line = some a) :
    get_memory_info_scan NO_BYTES NO_BYTES (before ++ line :: after)
      = ((before.filterMap mem_total_value).getLast?.getD NO_BYTES, a) := by
  rw [get_memory_info_scan_before before _ _ _ hb, get_memory_info_scan_cons,
    mem_total_none_of_available hl, hl]

theorem get_memory_info_eq (lines : List String) :
    get_memory_info (some lines)
      = if (get_memory_info_scan NO_BYTES NO_BYTES lines).1 = 0 ∨
            (get_memory_info_scan NO_BYTES NO_BYTES lines).2 = 0 then none
        else some
          { total_mem := mul64 (get_memory_info_scan NO_BYTES NO_BYTES lines).1 KILOBYTES_TO_BYTES
            available_mem :=
              mul64 (get_memory_info_scan NO_BYTES NO_BYTES lines).2 KILOBYTES_TO_BYTES
            used_mem :=
              sub64 (mul64 (get_memory_info_scan NO_BYTES NO_BYTES lines).1 KILOBYTES_TO_BYTES)
                (mul64 (get_memory_info_scan NO_BYTES NO_BYTES lines).2 KILOBYTES_TO_BYTES) } :=
  rfl

/-- The snapshot `get_memory_info` returns on a table that splits at its first
`MemAvailable` line, with value `a`, after a last `MemTotal` line with value
`t`, both values not 0. -/
theorem get_memory_info_of_split (before after : List String) (line : String) (a t : Nat)
    (hb : ∀ l ∈ before, mem_available_value l = none) (hl : mem_available_value line = some a)
    (ha : a ≠ 0) (ht : (before.filterMap mem_total_value).getLast? = some t) (ht0 : t ≠ 0) :
    get_memory_info (some (before ++ line :: after))
      = some { total_mem := mul64 t KILOBYTES_TO_BYTES
               available_mem := mul64 a KILOBYTES_TO_BYTES
               used_mem := sub64 (mul64 t KILOBYTES_TO_BYTES) (mul64 a KILOBYTES_TO_BYTES) } := by
  rw [get_memory_info_eq, get_memory_info_scan_split before after line a hb hl, ht]
  simp only [Option.getD_some, ht0, ha, or_self, if_false]

/-- Every success of `get_memory_info` comes from a table that splits at its
first `MemAvailable` line, of value not 0, after a last `MemTotal` line of value
not 0. -/
theorem get_memory_info_split_of_some (lines : List String)
    (h : (get_memory_info (some lines)).isSome = true) :
    ∃ (before after : List String) (line : String) (a t : Nat),
      lines = before ++ line :: after ∧ (∀ l ∈ before, mem_available_value l = none) ∧
      mem_available_value line = some a ∧ a ≠ 0 ∧
      (before.filterMap mem_total_value).getLast? = some t ∧ t ≠ 0 := by
  rw [get_memory_info_eq] at h
  rcases first_available_line lines with hnone | ⟨before, after, line, a, hsplit, hb, hl⟩
  · rw [get_memory_info_scan_no_available lines _ _ hnone] at h
    simp [NO_BYTES] at h
  · subst hsplit
    rw [get_memory_info_scan_split before after line a hb hl] at h
    cases hlast : (before.filterMap mem_total_value).getLast? with
    | none =>
      rw [hlast] at h
      simp [NO_BYTES] at h
    | some t =>
      rw [hlast] at h
      simp only [Option.getD_some] at h
      by_cases ht0 : t = 0
      · simp [ht0] at h
      · by_cases ha : a = 0
        · simp [ha] at h
        · exact ⟨before, after, line, a, t, rfl, hb, hl, ha, hlast, ht0⟩

theorem get_memory_info_scan_no_total (lines : List String) (total available : Nat)
    (hb : ∀ l ∈ lines, mem_total_value l = none) :
    (get_memory_info_scan total available lines).1 = total := by
  induction lines with
  | nil => rfl
  | cons b bs ih =>
    rw [get_memory_info_scan_cons, hb b (List.mem_cons_self _ _)]
    simp only []
    cases mem_available_value b with
    | some v => rfl
    | none => exact ih (fun l hl => hb l (List.mem_cons_of_mem _ hl))

/-- C30. Memory reader success condition: `get_memory_info` succeeds exactly
when the table contains a `MemAvailable` line, the first such line has a value
that is not 0, and the last `MemTotal` line occurring before it has a value
that is not 0; it fails when the `MemAvailable` line is absent, when the
`MemTotal` line is absent, when no `MemTotal` line comes before the first
`MemAvailable` line, when either value is 0, and when the table cannot be
opened. -/
theorem get_memory_info_success_condition :
    (∀ lines : List String,
      (get_memory_info (some lines)).isSome = true ↔
        ∃ (before after : List String) (line : String) (a t : Nat),
          lines = before ++ line :: after ∧ (∀ l ∈ before, mem_available_value l = none) ∧
          mem_available_value line = some a ∧ a ≠ 0 ∧
          (before.filterMap mem_total_value).getLast? = some t ∧ t ≠ 0) ∧
    (∀ lines : List String, (∀ l ∈ lines, mem_available_value l = none) →
      get_memory_info (some lines) = none) ∧
    (∀ lines : List String, (∀ l ∈ lines, mem_total_value l = none) →
      get_memory_info (some lines) = none) ∧
    (∀ (before after : List String) (line : String) (a : Nat),
      (∀ l ∈ before, mem_available_value l = none) → (∀ l ∈ before, mem_total_value l = none) →
      mem_available_value line = some a →
      get_memory_info (some (before ++ line :: after)) = none) ∧
    get_memory_info (some ["MemAvailable: 4096 kB\n", "MemTotal: 16384 kB\n"]) = none ∧
    get_memory_info (some ["MemTotal: 0 kB\n", "MemAvailable: 4096 kB\n"]) = none ∧
    get_memory_info (some ["MemTotal: 16384 kB\n", "MemAvailable: 0 kB\n"]) = none ∧
    get_memory_info none = none := by
  refine ⟨?_, ?_, ?_, ?_, by decide, by decide, by decide, rfl⟩
  · intro lines
    constructor
    · exact get_memory_info_split_of_some lines
    · rintro ⟨before, after, line, a, t, hsplit, hb, hl, ha, ht, ht0⟩
      rw [hsplit, get_memory_info_of_split before after line a t hb hl ha ht ht0]
      rfl
  · intro lines hnone
    rw [get_memory_info_eq, get_memory_info_scan_no_available lines _ _ hnone]
    simp [NO_BYTES]
  · intro lines hnone
    rw [get_memory_info_eq, get_memory_info_scan_no_total lines _ _ hnone]
    simp [NO_BYTES]
  · intro before after line a hb hbt hl
    have hfm : before.filterMap mem_total_value = [] := by
      rw [List.filterMap_eq_nil_iff]
      exact hbt
    rw [get_memory_info_eq, get_memory_info_scan_split before after line a hb hl, hfm]
    simp [NO_BYTES]

theorem get_memory_info_success_condition_witness :
    (get_memory_info (some (["MemTotal: 16384 kB\n", "MemFree: 512 kB\n"]
        ++ "MemAvailable: 4096 kB\n" :: ["Buffers: 64 kB\n"]))).isSome = true ∧
    get_memory_info (some ["MemTotal: 16384 kB\n", "MemFree: 512 kB\n"]) = none :=
  ⟨(get_memory_info_success_condition.1 (["MemTotal: 16384 kB\n", "MemFree: 512 kB\n"]
        ++ "MemAvailable: 4096 kB\n" :: ["Buffers: 64 kB\n"])).2
      ⟨["MemTotal: 16384 kB\n", "MemFree: 512 kB\n"], ["Buffers: 64 kB\n"],
        "MemAvailable: 4096 kB\n", 4096, 16384, rfl, by decide, by decide, by decide, by decide,
        by decide⟩,
   get_memory_info_success_condition.2.1 ["MemTotal: 16384 kB\n", "MemFree: 512 kB\n"]
      (by decide)⟩


/-! ## Formatted input: literal prefixes and numbers -/

theorem dropWhile_append_all {p : Char → Bool} (ws inp : List Char)
    (hws : ∀ c ∈ ws, p c = true) : (ws ++ inp).dropWhile p = inp.dropWhile p := by
  induction ws with
  | nil => rfl
  | cons a r ih =>
    rw [List.cons_append, List.dropWhile_cons, hws a (List.mem_cons_self _ _)]
    simp only [if_true]
    exact ih (fun c hc => hws c (List.mem_cons_of_mem _ hc))

/-- White space before a number is skipped. -/
theorem scan_number_skip (ws inp : List Char) (hws : ∀ c ∈ ws, isspace c = true) :
    scan_number (ws ++ inp) = scan_number inp := by
  unfold scan_number
  rw [dropWhile_append_all ws inp hws]

/-- `scan_number` on a run of digits that ends the input. -/
theorem scan_number_digits_end (ds : List Char) (hne : ds ≠ [])
    (hd : ∀ c ∈ ds, isdigit c = true) : scan_number ds = some (false, ds, []) := by
  cases ds with
  | nil => exact absurd rfl hne
  | cons d r =>
    have hdd := hd d (List.mem_cons_self _ _)
    have hsp : isspace d = false := isspace_of_isdigit hdd
    have hsign := not_sign_of_isdigit hdd
    have htake : List.takeWhile isdigit (d :: r) = d :: r :=
      List.takeWhile_eq_self_iff.2 hd
    have hdrop : List.dropWhile isdigit (d :: r) = [] :=
      List.dropWhile_eq_nil_iff.2 hd
    unfold scan_number
    have h1 : List.dropWhile isspace (d :: r) = d :: r := by
      rw [List.dropWhile_cons, hsp]
      rfl
    rw [h1]
    simp only [hsign.1, hsign.2, if_false]
    rw [htake, hdrop]
    rfl

/-- The conversion `%llu` on white space, a run of digits and a character that
is no digit. -/
theorem scan_conversion_unsigned (ws ds t : List Char) (x : Char)
    (hws : ∀ c ∈ ws, isspace c = true) (hne : ds ≠ []) (hd : ∀ c ∈ ds, isdigit c = true)
    (hx : isdigit x = false) :
    scan_conversion 'u' (ws ++ (ds ++ x :: t))
      = some (scan_value.uint (unsigned_value false ds), x :: t) := by
  unfold scan_conversion
  have h1 : ('u' = 'd') = False := by decide
  simp only [h1, if_false, if_true]
  rw [scan_number_skip ws _ hws, scan_number_digits ds t x hne hd hx]

/-- `strtoull` on a run of digits. -/
theorem strtoull_digits (ds : List Char) (hne : ds ≠ []) (hd : ∀ c ∈ ds, isdigit c = true) :
    strtoull ds = unsigned_value false ds := by
  unfold strtoull
  rw [scan_number_digits_end ds hne hd]

/-- A format without conversion assigns nothing. -/
theorem scan_directives_no_conversion (fmt : List scan_directive) (inp : List Char)
    (h : ∀ d ∈ fmt, ∀ a s, d ≠ scan_directive.conv a s) : scan_directives fmt inp = [] := by
  induction fmt generalizing inp with
  | nil => simp [scan_directives]
  | cons d rest ih =>
    have ih1 := fun i => ih i (fun e he => h e (List.mem_cons_of_mem _ he))
    cases d with
    | lit c =>
      cases inp with
      | nil => simp [scan_directives]
      | cons x r =>
        simp only [scan_directives]
        split
        · exact ih1 r
        · rfl
    | space =>
      simp only [scan_directives]
      exact ih1 _
    | conv a s => exact absurd rfl (h _ (List.mem_cons_self _ _) a s)

/-- Literal characters of the format consume the same characters of the input. -/
theorem scan_directives_literals_match (p : List Char) (fmt : List scan_directive)
    (inp : List Char) :
    scan_directives (p.map scan_directive.lit ++ fmt) (p ++ inp) = scan_directives fmt inp := by
  induction p with
  | nil => rfl
  | cons c cs ih =>
    simp only [List.map_cons, List.cons_append, scan_directives, if_true]
    exact ih

/-- The value read by a format `label %llu kB` (literal label, white space, one
unsigned conversion, then text) from a line `label`, white space, digits and
more text. -/
theorem scan_labelled_value (label ws ds t : List Char) (x : Char) (tail : List scan_directive)
    (hws : ∀ c ∈ ws, isspace c = true) (hne : ds ≠ []) (hd : ∀ c ∈ ds, isdigit c = true)
    (hx : isdigit x = false) (htail : ∀ d ∈ tail, ∀ a s, d ≠ scan_directive.conv a s) :
    scan_directives
        (label.map scan_directive.lit
          ++ scan_directive.space :: scan_directive.conv true 'u' :: tail)
        (label ++ (ws ++ (ds ++ x :: t)))
      = [scan_value.uint (unsigned_value false ds)] := by
  rw [scan_directives_literals_match]
  have hsp : List.dropWhile isspace (ws ++ (ds ++ x :: t)) = ds ++ x :: t := by
    rw [dropWhile_append_all ws _ hws]
    cases ds with
    | nil => exact absurd rfl hne
    | cons d r =>
      rw [List.cons_append, List.dropWhile_cons,
        isspace_of_isdigit (hd d (List.mem_cons_self _ _))]
      rfl
  have hconv := scan_conversion_unsigned [] ds t x (fun c hc => absurd hc (List.not_mem_nil _))
    hne hd hx
  rw [List.nil_append] at hconv
  simp only [scan_directives, hsp, hconv, if_true, scan_directives_no_conversion tail _ htail]

/-- A line `MemTotal:`, white space, digits, then text reads as a `MemTotal`
line with the value of the digits. -/
theorem mem_total_value_line (ws ds t : List Char) (x : Char)
    (hws : ∀ c ∈ ws, isspace c = true) (hne : ds ≠ []) (hd : ∀ c ∈ ds, isdigit c = true)
    (hx : isdigit x = false) :
    mem_total_value (String.mk (("MemTotal:" : String).toList ++ (ws ++ (ds ++ x :: t))))
      = some (unsigned_value false ds) := by
  unfold mem_total_value sscanf
  rw [mem_total_format]
  have h := scan_labelled_value ("MemTotal:" : String).toList ws ds t x
    [scan_directive.space, scan_directive.lit 'k', scan_directive.lit 'B'] hws hne hd hx
    (by
      intro d hdm a s
      simp only [List.mem_cons, List.mem_singleton, List.not_mem_nil, or_false] at hdm
      rcases hdm with rfl | rfl | rfl <;> exact fun hh => scan_directive.noConfusion hh)
  show (match scan_directives _ (("MemTotal:" : String).toList ++ (ws ++ (ds ++ x :: t))) with
    | [scan_value.uint v] => some v
    | _ => none) = _
  rw [h]

/-- A line `MemAvailable:`, white space, digits, then text reads as a
`MemAvailable` line with the value of the digits. -/
theorem mem_available_value_line (ws ds t : List Char) (x : Char)
    (hws : ∀ c ∈ ws, isspace c = true) (hne : ds ≠ []) (hd : ∀ c ∈ ds, isdigit c = true)
    (hx : isdigit x = false) :
    mem_available_value
        (String.mk (("MemAvailable:" : String).toList ++ (ws ++ (ds ++ x :: t))))
      = some (unsigned_value false ds) := by
  unfold mem_available_value sscanf
  rw [mem_available_format]
  have h := scan_labelled_value ("MemAvailable:" : String).toList ws ds t x
    [scan_directive.space, scan_directive.lit 'k', scan_directive.lit 'B'] hws hne hd hx
    (by
      intro d hdm a s
      simp only [List.mem_cons, List.mem_singleton, List.not_mem_nil, or_false] at hdm
      rcases hdm with rfl | rfl | rfl <;> exact fun hh => scan_directive.noConfusion hh)
  show (match scan_directives _
      (("MemAvailable:" : String).toList ++ (ws ++ (ds ++ x :: t))) with
    | [scan_value.uint v] => some v
    | _ => none) = _
  rw [h]


/-! ## Memory snapshot -/

theorem mul64_kilobytes_of_lt {v : Nat} (h : v < 2 ^ 54) :
    mul64 v KILOBYTES_TO_BYTES = v * 1024 := by
  unfold mul64 KILOBYTES_TO_BYTES U64_MOD
  exact Nat.mod_eq_of_lt (by omega)

/-- C22, counterexample. A table with `MemTotal: 18014398509481984 kB`
(`2 ^ 54` kB) and `MemAvailable: 1 kB`: `get_memory_info` succeeds, and the
product `total * 1024` wraps to `total_mem = 0`, which is neither `> 0` nor the
parsed value `2 ^ 54` times 1024. -/
theorem get_memory_info_snapshot_counterexample :
    get_memory_info (some ["MemTotal:       18014398509481984 kB\n",
        "MemFree:         1 kB\n", "MemAvailable:   1 kB\n"])
      = some { total_mem := 0, used_mem := 18446744073709550592, available_mem := 1024 } ∧
    mem_total_value "MemTotal:       18014398509481984 kB\n" = some 18014398509481984 ∧
    mem_available_value "MemAvailable:   1 kB\n" = some 1 := by
  decide

/-- C22, amended. Memory snapshot: whenever `get_memory_info` succeeds, the
table splits at its first `MemAvailable` line, of parsed value `a ≠ 0`, after a
last `MemTotal` line of parsed value `t ≠ 0`, and the snapshot holds
`total_mem = t * 1024 mod 2 ^ 64`, `available_mem = a * 1024 mod 2 ^ 64` and
`used_mem = total_mem - available_mem` in unsigned 64-bit arithmetic. When
`t < 2 ^ 54` then `total_mem = t * 1024` and `total_mem > 0`; when `a < 2 ^ 54`
then `available_mem = a * 1024`; when moreover `a ≤ t` then `used_mem` is the
exact difference `total_mem - available_mem = (t - a) * 1024`. -/
theorem get_memory_info_snapshot (lines : List String) (info : memory_info_t)
    (h : get_memory_info (some lines) = some info) :
    ∃ (before after : List String) (line : String) (a t : Nat),
      lines = before ++ line :: after ∧ (∀ l ∈ before, mem_available_value l = none) ∧
      mem_available_value line = some a ∧ a ≠ 0 ∧
      (before.filterMap mem_total_value).getLast? = some t ∧ t ≠ 0 ∧
      info.total_mem = (t * 1024) % 2 ^ 64 ∧
      info.available_mem = (a * 1024) % 2 ^ 64 ∧
      info.used_mem = sub64 info.total_mem info.available_mem ∧
      (t < 2 ^ 54 → info.total_mem = t * 1024 ∧ 0 < info.total_mem) ∧
      (a < 2 ^ 54 → info.available_mem = a * 1024) ∧
      (t < 2 ^ 54 → a ≤ t →
        info.used_mem = info.total_mem - info.available_mem ∧
        info.used_mem = (t - a) * 1024) := by
  have hsome : (get_memory_info (some lines)).isSome = true := by rw [h]; rfl
  obtain ⟨before, after, line, a, t, hsplit, hb, hl, ha, ht, ht0⟩ :=
    get_memory_info_split_of_some lines hsome
  have hv := get_memory_info_of_split before after line a t hb hl ha ht ht0
  rw [← hsplit, h] at hv
  have hinfo := Option.some.inj hv
  have htot : info.total_mem = mul64 t KILOBYTES_TO_BYTES := by rw [hinfo]
  have hav : info.available_mem = mul64 a KILOBYTES_TO_BYTES := by rw [hinfo]
  have hus : info.used_mem = sub64 info.total_mem info.available_mem := by rw [hinfo]
  refine ⟨before, after, line, a, t, hsplit, hb, hl, ha, ht, ht0, htot, hav, hus, ?_, ?_, ?_⟩
  · intro hlt
    have h1 : info.total_mem = t * 1024 := by rw [htot, mul64_kilobytes_of_lt hlt]
    exact ⟨h1, by omega⟩
  · intro hlt
    rw [hav, mul64_kilobytes_of_lt hlt]
  · intro hlt hle
    have halt : a < 2 ^ 54 := by omega
    have h1 : info.total_mem = t * 1024 := by rw [htot, mul64_kilobytes_of_lt hlt]
    have h2 : info.available_mem = a * 1024 := by rw [hav, mul64_kilobytes_of_lt halt]
    have h3 : sub64 info.total_mem info.available_mem = info.total_mem - info.available_mem :=
      sub64_of_le (by omega) (by unfold U64_MOD; omega)
    refine ⟨by rw [hus, h3], ?_⟩
    rw [hus, h3, h1, h2, Nat.sub_mul]

theorem get_memory_info_snapshot_witness :
    get_memory_info (some ["MemTotal:       16000000 kB\n", "MemFree:         2000000 kB\n",
        "MemAvailable:   6000000 kB\n", "Buffers:          100000 kB\n"])
      = some { total_mem := 16384000000, used_mem := 10240000000,
               available_mem := 6144000000 } ∧
    ∃ (before after : List String) (line : String) (a t : Nat),
      ["MemTotal:       16000000 kB\n", "MemFree:         2000000 kB\n",
        "MemAvailable:   6000000 kB\n", "Buffers:          100000 kB\n"]
        = before ++ line :: after ∧ (∀ l ∈ before, mem_available_value l = none) ∧
      mem_available_value line = some a ∧ a ≠ 0 ∧
      (before.filterMap mem_total_value).getLast? = some t ∧ t ≠ 0 ∧
      (16384000000 : Nat) = (t * 1024) % 2 ^ 64 ∧
      (6144000000 : Nat) = (a * 1024) % 2 ^ 64 ∧
      (10240000000 : Nat) = sub64 16384000000 6144000000 ∧
      (t < 2 ^ 54 → (16384000000 : Nat) = t * 1024 ∧ 0 < (16384000000 : Nat)) ∧
      (a < 2 ^ 54 → (6144000000 : Nat) = a * 1024) ∧
      (t < 2 ^ 54 → a ≤ t →
        (10240000000 : Nat) = 16384000000 - 6144000000 ∧
        (10240000000 : Nat) = (t - a) * 1024) :=
  ⟨by decide,
   get_memory_info_snapshot
    ["MemTotal:       16000000 kB\n", "MemFree:         2000000 kB\n",
      "MemAvailable:   6000000 kB\n", "Buffers:          100000 kB\n"]
    { total_mem := 16384000000, used_mem := 10240000000, available_mem := 6144000000 }
    (by decide)⟩

/-! ## Memory usage range -/

/-- The value `get_memory_usage` returns in terms of the two values its loop
reads. -/
theorem get_memory_usage_eq (lines : List String) :
    get_memory_usage (some lines)
      = if (get_memory_info_scan NO_BYTES NO_BYTES lines).1 = 0 ∨
            (get_memory_info_scan NO_BYTES NO_BYTES lines).2 = 0 then ERROR_VALUE_DOUBLE
        else
          ((sub64 (get_memory_info_scan NO_BYTES NO_BYTES lines).1
              (get_memory_info_scan NO_BYTES NO_BYTES lines).2 : Nat) : ℚ)
            / ((get_memory_info_scan NO_BYTES NO_BYTES lines).1 : ℚ) * PERCENTAGE_MULTIPLIER :=
  rfl

/-- When the value read for `MemAvailable` does not exceed the value read for
`MemTotal`, `get_memory_usage` returns -1 or a percentage in `[0, 100]`. -/
theorem get_memory_usage_range_of_le (meminfo : Option (List String))
    (h : ∀ lines, meminfo = some lines →
      (get_memory_info_scan NO_BYTES NO_BYTES lines).2
        ≤ (get_memory_info_scan NO_BYTES NO_BYTES lines).1 ∧
      (get_memory_info_scan NO_BYTES NO_BYTES lines).1 < U64_MOD) :
    get_memory_usage meminfo = -1 ∨
      (0 ≤ get_memory_usage meminfo ∧ get_memory_usage meminfo ≤ 100) := by
  cases meminfo with
  | none => exact Or.inl rfl
  | some lines =>
    obtain ⟨hle, hlt⟩ := h lines rfl
    rw [get_memory_usage_eq]
    generalize get_memory_info_scan NO_BYTES NO_BYTES lines = r at hle hlt
    by_cases hz : r.1 = 0 ∨ r.2 = 0
    · left
      rw [if_pos hz]
      rfl
    · right
      rw [if_neg hz, cast_sub64_of_le hle hlt]
      have hpos : (0 : ℚ) < (r.1 : ℚ) := by
        have : 0 < r.1 := Nat.pos_of_ne_zero (fun h0 => hz (Or.inl h0))
        exact_mod_cast this
      have hle' : (r.2 : ℚ) ≤ (r.1 : ℚ) := by exact_mod_cast hle
      have hnn : (0 : ℚ) ≤ (r.2 : ℚ) := by positivity
      unfold PERCENTAGE_MULTIPLIER
      constructor
      · apply mul_nonneg
        · apply div_nonneg <;> linarith
        · norm_num
      · have : ((r.1 : ℚ) - (r.2 : ℚ)) / (r.1 : ℚ) ≤ 1 := by
          rw [div_le_one hpos]
          linarith
        linarith

/-- C26, evaluation at the failing input. On a table with `MemTotal: 1000 kB`
and `MemAvailable: 2000 kB` the unsigned difference `total_mem - free_mem` wraps
to `2 ^ 64 - 1000`, and `get_memory_usage` returns
`(2 ^ 64 - 1000) / 1000 * 100`, which is neither -1 nor in `[0, 100]`. -/
theorem get_memory_usage_exceeds_range :
    get_memory_usage (some ["MemTotal:        1000 kB\n", "MemFree:          500 kB\n",
        "MemAvailable:    2000 kB\n"])
      = ((2 : ℚ) ^ 64 - 1000) / 1000 * 100 ∧
    get_memory_usage (some ["MemTotal:        1000 kB\n", "MemFree:          500 kB\n",
        "MemAvailable:    2000 kB\n"]) ≠ -1 ∧
    ¬ get_memory_usage (some ["MemTotal:        1000 kB\n", "MemFree:          500 kB\n",
        "MemAvailable:    2000 kB\n"]) ≤ 100 := by
  have hscan : get_memory_info_scan NO_BYTES NO_BYTES
      ["MemTotal:        1000 kB\n", "MemFree:          500 kB\n",
        "MemAvailable:    2000 kB\n"] = (1000, 2000) := by decide
  have hsub : sub64 1000 2000 = 18446744073709550616 := by decide
  have hv : get_memory_usage (some ["MemTotal:        1000 kB\n", "MemFree:          500 kB\n",
        "MemAvailable:    2000 kB\n"]) = ((2 : ℚ) ^ 64 - 1000) / 1000 * 100 := by
    rw [get_memory_usage_eq, hscan]
    simp only [hsub]
    norm_num [PERCENTAGE_MULTIPLIER]
  refine ⟨hv, ?_, ?_⟩
  · rw [hv]; norm_num
  · rw [hv]; norm_num


/-! ## Formatted input: runs of fields -/

theorem dropWhile_dropWhile (p : Char → Bool) (l : List Char) :
    (l.dropWhile p).dropWhile p = l.dropWhile p := by
  induction l with
  | nil => rfl
  | cons a r ih =>
    by_cases h : p a = true
    · rw [List.dropWhile_cons_of_pos h]
      exact ih
    · rw [List.dropWhile_cons_of_neg h, List.dropWhile_cons_of_neg h]

/-- `scan_number` on a run of digits that no digit follows. -/
theorem scan_number_digits_head (ds t : List Char) (hne : ds ≠ [])
    (hd : ∀ c ∈ ds, isdigit c = true) (ht : ∀ x, t.head? = some x → isdigit x = false) :
    scan_number (ds ++ t) = some (false, ds, t) := by
  cases t with
  | nil =>
    rw [List.append_nil]
    exact scan_number_digits_end ds hne hd
  | cons x r => exact scan_number_digits ds r x hne hd (ht x rfl)

/-- The conversions `%d`, `%u` and `%s` skip white space themselves: a blank of
the format before them changes nothing. -/
theorem scan_directives_space_conv (a : Bool) (s : Char) (hs : s = 'd' ∨ s = 'u' ∨ s = 's')
    (fmt : List scan_directive) (inp : List Char) :
    scan_directives (scan_directive.space :: scan_directive.conv a s :: fmt) inp
      = scan_directives (scan_directive.conv a s :: fmt) inp := by
  have hc : scan_conversion s (inp.dropWhile isspace) = scan_conversion s inp := by
    rcases hs with rfl | rfl | rfl
    · unfold scan_conversion scan_number
      simp only [if_true, dropWhile_dropWhile]
    · unfold scan_conversion scan_number
      have h1 : ('u' = 'd') = False := by decide
      simp only [h1, if_false, if_true, dropWhile_dropWhile]
    · unfold scan_conversion
      have h1 : ('s' = 'd') = False := by decide
      have h2 : ('s' = 'u') = False := by decide
      simp only [h1, h2, if_false, if_true, dropWhile_dropWhile]
  simp only [scan_directives, hc]

/-- The conversion `%d` on white space and a run of digits that no digit
follows. -/
theorem scan_conversion_int (ws ds t : List Char) (hws : ∀ c ∈ ws, isspace c = true)
    (hne : ds ≠ []) (hd : ∀ c ∈ ds, isdigit c = true)
    (ht : ∀ x, t.head? = some x → isdigit x = false) :
    scan_conversion 'd' (ws ++ (ds ++ t)) = some (scan_value.int (digits_value ds), t) := by
  unfold scan_conversion
  simp only [if_true]
  rw [scan_number_skip ws _ hws, scan_number_digits_head ds t hne hd ht]
  rfl

/-- The conversion `%u` on white space and a run of digits that no digit
follows. -/
theorem scan_conversion_unsigned_head (ws ds t : List Char)
    (hws : ∀ c ∈ ws, isspace c = true) (hne : ds ≠ []) (hd : ∀ c ∈ ds, isdigit c = true)
    (ht : ∀ x, t.head? = some x → isdigit x = false) :
    scan_conversion 'u' (ws ++ (ds ++ t))
      = some (scan_value.uint (unsigned_value false ds), t) := by
  unfold scan_conversion
  have h1 : ('u' = 'd') = False := by decide
  simp only [h1, if_false, if_true]
  rw [scan_number_skip ws _ hws, scan_number_digits_head ds t hne hd ht]

/-- The conversion `%s` on white space and a token that white space follows. -/
theorem scan_conversion_str (ws tok t : List Char) (x : Char)
    (hws : ∀ c ∈ ws, isspace c = true) (hne : tok ≠ [])
    (htok : ∀ c ∈ tok, isspace c = false) (hx : isspace x = true) :
    scan_conversion 's' (ws ++ (tok ++ x :: t)) = some (scan_value.str tok, x :: t) := by
  have htok1 : ∀ c ∈ tok, (fun c => !isspace c) c = true := by
    intro c hc
    simp [htok c hc]
  have hx1 : (fun c => !isspace c) x = false := by simp [hx]
  have hskip : (ws ++ (tok ++ x :: t)).dropWhile isspace = tok ++ x :: t := by
    rw [dropWhile_append_all ws _ hws]
    cases tok with
    | nil => exact absurd rfl hne
    | cons d r =>
      rw [List.cons_append, List.dropWhile_cons, htok d (List.mem_cons_self _ _)]
      rfl
  unfold scan_conversion
  have h1 : ('s' = 'd') = False := by decide
  have h2 : ('s' = 'u') = False := by decide
  simp only [h1, h2, if_false, if_true, hskip]
  rw [takeWhile_append_stop tok t x htok1 hx1, dropWhile_append_stop tok t x htok1 hx1]
  cases tok with
  | nil => exact absurd rfl hne
  | cons d r => rfl

/-- A format of unsigned conversions reads a run of unsigned fields: the values
of the fields whose conversion assigns, then what the rest of the format reads
from the rest of the text. -/
theorem scan_directives_unsigned_fields (assigns : List Bool)
    (fields : List (List Char × List Char)) (rest : List Char) (fmt : List scan_directive)
    (hlen : fields.length = assigns.length) (hok : unsigned_fields fields rest) :
    scan_directives (unsigned_directives assigns ++ fmt) (fields_text fields rest)
      = assigned_values assigns fields ++ scan_directives fmt rest := by
  induction assigns generalizing fields with
  | nil =>
    cases fields with
    | nil => rfl
    | cons f more => simp at hlen
  | cons a assigns ih =>
    cases fields with
    | nil => simp at hlen
    | cons f more =>
      obtain ⟨ws, ds⟩ := f
      obtain ⟨hws, hne, hd, hhead, hmore⟩ := hok
      have hlen1 : more.length = assigns.length := by simpa using hlen
      have hconv := scan_conversion_unsigned_head ws ds (fields_text more rest) hws hne hd hhead
      have hfmt : unsigned_directives (a :: assigns) ++ fmt
          = scan_directive.space :: scan_directive.conv a 'u'
              :: (unsigned_directives assigns ++ fmt) := by
        simp [unsigned_directives]
      rw [hfmt, scan_directives_space_conv a 'u' (Or.inr (Or.inl rfl))]
      simp only [scan_directives, fields_text, hconv, assigned_values]
      rw [ih more hlen1 hmore]
      cases a <;> simp

theorem unsigned_directives_nil_append (assigns : List Bool) :
    unsigned_directives assigns ++ [] = unsigned_directives assigns := List.append_nil _

/-! ## Disk reader -/

theorem string_mk_eq_iff (l : List Char) (s : String) : String.mk l = s ↔ l = s.toList := by
  constructor
  · intro h
    rw [← h]
    rfl
  · intro h
    rw [h]
    rfl

/-- One iteration of the loop of `get_disk_stats`, in terms of the row read. -/
theorem get_disk_stats_scan_cons (device line : String) (rest : List String) :
    get_disk_stats_scan device (line :: rest)
      = match disk_stats_row line with
        | some r =>
          if r.device_name = device then
            some { r with
              device_name :=
                String.mk (strncpy r.device_name.toList
                  (DEVICE_NAME_SIZE - BUFFER_NULL_TERMINATOR_SPACE)) }
          else get_disk_stats_scan device rest
        | none => get_disk_stats_scan device rest := by
  rw [get_disk_stats_scan]
  split
  · rename_i a b dev_name c1 c2 c3 c4 c5 c6 c7 c8 c9 c10 c11 h
    have hr : disk_stats_row line
        = some { device_name := String.mk dev_name, reads_completed := c1, reads_merged := c2,
                 sectors_read := c3, time_reading := c4, writes_completed := c5,
                 writes_merged := c6, sectors_written := c7, time_writing := c8,
                 ios_in_progress := c9, time_io := c10, weighted_time_io := c11 } := by
      unfold disk_stats_row
      rw [h]
    rw [hr]
    simp only []
    by_cases hd : dev_name = device.toList
    · rw [if_pos hd, if_pos ((string_mk_eq_iff _ _).2 hd)]
      rfl
    · rw [if_neg hd, if_neg (fun hh => hd ((string_mk_eq_iff _ _).1 hh))]
  · rename_i h
    have hr : disk_stats_row line = none := by
      unfold disk_stats_row
      split
      · rename_i h2
        exact absurd h2 (h _ _ _ _ _ _ _ _ _ _ _ _ _ _)
      · rfl
    rw [hr]

/-- The loop of `get_disk_stats` returns the first row of the given name that
carries all 11 counters, with the name as the 32-byte field holds it. -/
theorem get_disk_stats_scan_eq_find (device : String) (lines : List String) :
    get_disk_stats_scan device lines
      = ((lines.filterMap disk_stats_row).find? (fun r => decide (r.device_name = device))).map
          (fun r => { r with
            device_name :=
              String.mk (strncpy r.device_name.toList
                (DEVICE_NAME_SIZE - BUFFER_NULL_TERMINATOR_SPACE)) }) := by
  induction lines with
  | nil => rfl
  | cons line rest ih =>
    rw [get_disk_stats_scan_cons]
    cases hr : disk_stats_row line with
    | none =>
      rw [List.filterMap_cons_none hr]
      exact ih
    | some r =>
      rw [List.filterMap_cons_some hr, List.find?_cons]
      by_cases hd : r.device_name = device
      · simp only [hd, if_true, decide_True, Option.map_some']
      · simp only [hd, if_false, decide_False]
        exact ih

theorem head_not_digit_of_space (ws t : List Char) (hne : ws ≠ [])
    (hws : ∀ c ∈ ws, isspace c = true) :
    ∀ x, (ws ++ t).head? = some x → isdigit x = false := by
  intro x hx
  cases ws with
  | nil => exact absurd rfl hne
  | cons w r =>
    simp only [List.cons_append, List.head?_cons, Option.some.injEq] at hx
    subst hx
    have hw := hws w (List.mem_cons_self _ _)
    cases hdg : isdigit w with
    | false => rfl
    | true => rw [isspace_of_isdigit hdg] at hw; exact absurd hw (by decide)

theorem disk_stats_format :
    parse_format false true
        ("%d %d %s %lu %lu %lu %lu %lu %lu %lu %lu %lu %lu %lu" : String).toList
      = scan_directive.conv true 'd' :: scan_directive.space :: scan_directive.conv true 'd'
          :: scan_directive.space :: scan_directive.conv true 's'
          :: (unsigned_directives [true, true, true, true, true, true, true, true, true, true,
                true] ++ []) := by
  decide

/-- A line of the disk table: major and minor numbers, a name free of white
space, and 11 unsigned counters, each field after white space. The row read
holds the name and the values of the 11 counters in table order. -/
theorem disk_stats_row_line (ws1 major ws2 minor ws3 name rest : List Char)
    (c1 c2 c3 c4 c5 c6 c7 c8 c9 c10 c11 : List Char × List Char)
    (hws1 : ∀ c ∈ ws1, isspace c = true) (hmajor : major ≠ [] ∧ ∀ c ∈ major, isdigit c = true)
    (hws2 : ws2 ≠ [] ∧ ∀ c ∈ ws2, isspace c = true)
    (hminor : minor ≠ [] ∧ ∀ c ∈ minor, isdigit c = true)
    (hws3 : ws3 ≠ [] ∧ ∀ c ∈ ws3, isspace c = true)
    (hname : name ≠ [] ∧ ∀ c ∈ name, isspace c = false)
    (hsep : c1.1 ≠ [])
    (hok : unsigned_fields [c1, c2, c3, c4, c5, c6, c7, c8, c9, c10, c11] rest) :
    disk_stats_row (String.mk (ws1 ++ (major ++ (ws2 ++ (minor ++ (ws3 ++ (name ++
        fields_text [c1, c2, c3, c4, c5, c6, c7, c8, c9, c10, c11] rest)))))))
      = some { device_name := String.mk name
               reads_completed := unsigned_value false c1.2
               reads_merged := unsigned_value false c2.2
               sectors_read := unsigned_value false c3.2
               time_reading := unsigned_value false c4.2
               writes_completed := unsigned_value false c5.2
               writes_merged := unsigned_value false c6.2
               sectors_written := unsigned_value false c7.2
               time_writing := unsigned_value false c8.2
               ios_in_progress := unsigned_value false c9.2
               time_io := unsigned_value false c10.2
               weighted_time_io := unsigned_value false c11.2 } := by
  have hrun := scan_directives_unsigned_fields
    [true, true, true, true, true, true, true, true, true, true, true]
    [c1, c2, c3, c4, c5, c6, c7, c8, c9, c10, c11] rest [] rfl hok
  obtain ⟨w1, d1⟩ := c1
  have hw1 : ∀ c ∈ w1, isspace c = true := hok.1
  have htext : ∃ x t, fields_text [(w1, d1), c2, c3, c4, c5, c6, c7, c8, c9, c10, c11] rest
      = x :: t ∧ isspace x = true := by
    cases w1 with
    | nil => exact absurd rfl hsep
    | cons x r => exact ⟨x, _, rfl, hw1 x (List.mem_cons_self _ _)⟩
  obtain ⟨x, t, htx, hx⟩ := htext
  have hi1 := scan_conversion_int ws1 major
    (ws2 ++ (minor ++ (ws3 ++ (name ++
        fields_text [(w1, d1), c2, c3, c4, c5, c6, c7, c8, c9, c10, c11] rest))))
    hws1 hmajor.1 hmajor.2 (head_not_digit_of_space ws2 _ hws2.1 hws2.2)
  have hi2 := scan_conversion_int ws2 minor
    (ws3 ++ (name ++ fields_text [(w1, d1), c2, c3, c4, c5, c6, c7, c8, c9, c10, c11] rest))
    hws2.2 hminor.1 hminor.2 (head_not_digit_of_space ws3 _ hws3.1 hws3.2)
  have hs := scan_conversion_str ws3 name t x hws3.2 hname.1 hname.2 hx
  rw [← htx] at hs
  unfold disk_stats_row sscanf
  rw [disk_stats_format]
  show (match scan_directives _ (ws1 ++ (major ++ (ws2 ++ (minor ++ (ws3 ++ (name ++
        fields_text [(w1, d1), c2, c3, c4, c5, c6, c7, c8, c9, c10, c11] rest)))))) with
    | [_, _, scan_value.str dev_name, scan_value.uint c1, scan_value.uint c2,
        scan_value.uint c3, scan_value.uint c4, scan_value.uint c5, scan_value.uint c6,
        scan_value.uint c7, scan_value.uint c8, scan_value.uint c9, scan_value.uint c10,
        scan_value.uint c11] => some _
    | _ => none) = _
  rw [scan_directives, hi1]
  simp only [if_true]
  rw [scan_directives_space_conv true 'd' (Or.inl rfl), scan_directives, hi2]
  simp only [if_true]
  rw [scan_directives_space_conv true 's' (Or.inr (Or.inr rfl)), scan_directives, hs]
  simp only [if_true]
  rw [hrun]
  simp [assigned_values, scan_directives]


/-- C23. Disk reader: for every disk table and device name `d`,
`get_disk_stats` returns the first row, in table order, that carries all 11
counters and whose name is exactly `d`, with the name as the 32-byte field
holds it (the name itself when `d` is shorter than 32 characters); it succeeds
iff there is such a row and returns the error otherwise, also when the table
cannot be opened. A line `major minor name c1 ... c11` reads as the row with
that name and `reads_completed = c1`, `reads_merged = c2`, `sectors_read = c3`,
`time_reading = c4`, `writes_completed = c5`, `writes_merged = c6`,
`sectors_written = c7`, `time_writing = c8`, `ios_in_progress = c9`,
`time_io = c10`, `weighted_time_io = c11`. With a row `sda1` before a row `sda`
the name `sda` gives the counters of the second row; with the row `sda1` alone,
or with a row `sda` of 10 counters, it gives the error. -/
theorem get_disk_stats_exact_row (lines : List String) (device : String) :
    get_disk_stats (some lines) device
      = ((lines.filterMap disk_stats_row).find? (fun r => decide (r.device_name = device))).map
          (fun r => { r with
            device_name :=
              String.mk (strncpy r.device_name.toList
                (DEVICE_NAME_SIZE - BUFFER_NULL_TERMINATOR_SPACE)) }) ∧
    (device.length < DEVICE_NAME_SIZE →
      get_disk_stats (some lines) device
        = (lines.filterMap disk_stats_row).find? (fun r => decide (r.device_name = device))) ∧
    ((get_disk_stats (some lines) device).isSome = true ↔
      ∃ line ∈ lines, ∃ r, disk_stats_row line = some r ∧ r.device_name = device) ∧
    ((∀ line ∈ lines, ∀ r, disk_stats_row line = some r → r.device_name ≠ device) →
      get_disk_stats (some lines) device = none) ∧
    get_disk_stats none device = none ∧
    (∀ (ws1 major ws2 minor ws3 name rest : List Char)
      (c1 c2 c3 c4 c5 c6 c7 c8 c9 c10 c11 : List Char × List Char),
      (∀ c ∈ ws1, isspace c = true) → (major ≠ [] ∧ ∀ c ∈ major, isdigit c = true) →
      (ws2 ≠ [] ∧ ∀ c ∈ ws2, isspace c = true) →
      (minor ≠ [] ∧ ∀ c ∈ minor, isdigit c = true) →
      (ws3 ≠ [] ∧ ∀ c ∈ ws3, isspace c = true) →
      (name ≠ [] ∧ ∀ c ∈ name, isspace c = false) → c1.1 ≠ [] →
      unsigned_fields [c1, c2, c3, c4, c5, c6, c7, c8, c9, c10, c11] rest →
      disk_stats_row (String.mk (ws1 ++ (major ++ (ws2 ++ (minor ++ (ws3 ++ (name ++
          fields_text [c1, c2, c3, c4, c5, c6, c7, c8, c9, c10, c11] rest)))))))
        = some { device_name := String.mk name
                 reads_completed := unsigned_value false c1.2
                 reads_merged := unsigned_value false c2.2
                 sectors_read := unsigned_value false c3.2
                 time_reading := unsigned_value false c4.2
                 writes_completed := unsigned_value false c5.2
                 writes_merged := unsigned_value false c6.2
                 sectors_written := unsigned_value false c7.2
                 time_writing := unsigned_value false c8.2
                 ios_in_progress := unsigned_value false c9.2
                 time_io := unsigned_value false c10.2
                 weighted_time_io := unsigned_value false c11.2 }) ∧
    get_disk_stats (some ["   8       1 sda1 100 0 800 40 50 0 400 30 0 60 70\n",
        "   8       0 sda 300 10 2400 120 150 5 1200 90 2 180 210\n"]) "sda"
      = some { device_name := "sda", reads_completed := 300, reads_merged := 10,
               sectors_read := 2400, time_reading := 120, writes_completed := 150,
               writes_merged := 5, sectors_written := 1200, time_writing := 90,
               ios_in_progress := 2, time_io := 180, weighted_time_io := 210 } ∧
    get_disk_stats (some ["   8       1 sda1 100 0 800 40 50 0 400 30 0 60 70\n"]) "sda"
      = none ∧
    get_disk_stats (some ["   8       0 sda 300 10 2400 120 150 5 1200 90 2 180\n"]) "sda"
      = none := by
  have hmain : get_disk_stats (some lines) device
      = ((lines.filterMap disk_stats_row).find?
          (fun r => decide (r.device_name = device))).map
          (fun r => { r with
            device_name :=
              String.mk (strncpy r.device_name.toList
                (DEVICE_NAME_SIZE - BUFFER_NULL_TERMINATOR_SPACE)) }) :=
    get_disk_stats_scan_eq_find device lines
  have hiff : (get_disk_stats (some lines) device).isSome = true ↔
      ∃ line ∈ lines, ∃ r, disk_stats_row line = some r ∧ r.device_name = device := by
    rw [hmain, Option.isSome_map', List.find?_isSome]
    constructor
    · rintro ⟨r, hr, hd⟩
      obtain ⟨line, hl, hrow⟩ := List.mem_filterMap.1 hr
      exact ⟨line, hl, r, hrow, of_decide_eq_true hd⟩
    · rintro ⟨line, hl, r, hrow, hd⟩
      exact ⟨r, List.mem_filterMap.2 ⟨line, hl, hrow⟩, decide_eq_true hd⟩
  refine ⟨hmain, ?_, hiff, ?_, rfl, ?_, by decide, by decide, by decide⟩
  · intro hfit
    rw [hmain]
    cases hf : (lines.filterMap disk_stats_row).find?
        (fun r => decide (r.device_name = device)) with
    | none => rfl
    | some r =>
      have hd0 := List.find?_some hf
      have hd : r.device_name = device := of_decide_eq_true hd0
      have hlen : r.device_name.toList.length
          ≤ DEVICE_NAME_SIZE - BUFFER_NULL_TERMINATOR_SPACE := by
        rw [hd]
        have : device.toList.length = device.length := rfl
        unfold DEVICE_NAME_SIZE at hfit
        unfold DEVICE_NAME_SIZE BUFFER_NULL_TERMINATOR_SPACE
        omega
      simp only [Option.map_some', strncpy_of_fit hlen]
      rfl
  · intro hnone
    cases hres : get_disk_stats (some lines) device with
    | none => rfl
    | some stats =>
      have hs : (get_disk_stats (some lines) device).isSome = true := by rw [hres]; rfl
      obtain ⟨line, hl, r, hrow, hd⟩ := hiff.1 hs
      exact absurd hd (hnone line hl r hrow)
  · intro ws1 major ws2 minor ws3 name rest c1 c2 c3 c4 c5 c6 c7 c8 c9 c10 c11
      hws1 hmajor hws2 hminor hws3 hname hsep hok
    exact disk_stats_row_line ws1 major ws2 minor ws3 name rest c1 c2 c3 c4 c5 c6 c7 c8 c9 c10
      c11 hws1 hmajor hws2 hminor hws3 hname hsep hok

theorem get_disk_stats_exact_row_witness :
    ("sda" : String).length < DEVICE_NAME_SIZE ∧
    get_disk_stats (some ["   8       1 sda1 100 0 800 40 50 0 400 30 0 60 70\n",
        "   8       0 sda 300 10 2400 120 150 5 1200 90 2 180 210\n"]) "sda"
      = (["   8       1 sda1 100 0 800 40 50 0 400 30 0 60 70\n",
          "   8       0 sda 300 10 2400 120 150 5 1200 90 2 180 210\n"].filterMap
            disk_stats_row).find? (fun r => decide (r.device_name = "sda")) ∧
    get_disk_stats (some ["   8       1 sda1 100 0 800 40 50 0 400 30 0 60 70\n"]) "sda"
      = none :=
  ⟨by decide,
   (get_disk_stats_exact_row ["   8       1 sda1 100 0 800 40 50 0 400 30 0 60 70\n",
        "   8       0 sda 300 10 2400 120 150 5 1200 90 2 180 210\n"] "sda").2.1 (by decide),
   (get_disk_stats_exact_row ["   8       1 sda1 100 0 800 40 50 0 400 30 0 60 70\n"]
      "sda").2.2.2.1 (by decide)⟩


/-! ## Network reader -/

/-- One iteration of the loop of `get_network_stats`, in terms of the row read. -/
theorem get_network_stats_scan_cons (interface line : String) (rest : List String) :
    get_network_stats_scan interface (line :: rest)
      = match net_stats_row line with
        | some r =>
          if r.interface_name = interface then some r
          else get_network_stats_scan interface rest
        | none => get_network_stats_scan interface rest := by
  rw [get_network_stats_scan]
  split
  · rename_i hsplit
    have hr : net_stats_row line = none := by
      unfold net_stats_row
      rw [hsplit]
    rw [hr]
  · rename_i name_part stats_line hsplit
    simp only []
    split
    · rename_i hname
      split
      · rename_i c1 c2 c3 c4 c9 c10 c11 c12 h
        have hr : net_stats_row line
            = some { interface_name :=
                       String.mk (strncpy (skip_blanks name_part)
                         (INTERFACE_NAME_SIZE - BUFFER_NULL_TERMINATOR_SPACE))
                     rx_bytes := c1, rx_packets := c2, rx_errors := c3, rx_dropped := c4,
                     tx_bytes := c9, tx_packets := c10, tx_errors := c11,
                     tx_dropped := c12 } := by
          unfold net_stats_row net_counters
          rw [hsplit]
          simp only []
          rw [h]
        rw [hr]
        simp only []
        rw [if_pos ((string_mk_eq_iff _ _).2 hname), strncpy_strncpy]
      · rename_i h
        have hr : net_stats_row line = none := by
          unfold net_stats_row net_counters
          rw [hsplit]
          simp only []
        rw [hr]
    · rename_i hname
      cases hr : net_stats_row line with
      | none => rfl
      | some r =>
        have hrn : r.interface_name
            = String.mk (strncpy (skip_blanks name_part)
                (INTERFACE_NAME_SIZE - BUFFER_NULL_TERMINATOR_SPACE)) := by
          unfold net_stats_row at hr
          rw [hsplit] at hr
          simp only [] at hr
          split at hr
          · rw [← Option.some.inj hr]
          · exact absurd hr (by simp)
        simp only []
        rw [if_neg]
        rw [hrn]
        exact fun hh => hname ((string_mk_eq_iff _ _).1 hh)

/-- The loop of `get_network_stats` returns the first row of the given name
that carries the counters 1 to 4 and 9 to 12. -/
theorem get_network_stats_scan_eq_find (interface : String) (lines : List String) :
    get_network_stats_scan interface lines
      = (lines.filterMap net_stats_row).find?
          (fun r => decide (r.interface_name = interface)) := by
  induction lines with
  | nil => rfl
  | cons line rest ih =>
    rw [get_network_stats_scan_cons]
    cases hr : net_stats_row line with
    | none =>
      rw [List.filterMap_cons_none hr]
      exact ih
    | some r =>
      rw [List.filterMap_cons_some hr, List.find?_cons]
      by_cases hd : r.interface_name = interface
      · simp only [hd, if_true, decide_True]
      · simp only [hd, if_false, decide_False]
        exact ih

/-- The split at the first colon of a text whose part before the colon holds
none. -/
theorem split_colon_append (l t : List Char) (hl : ∀ c ∈ l, c ≠ ':') :
    split_colon (l ++ ':' :: t) = some (l, t) := by
  have hp : ∀ c ∈ l, (fun c => c != ':') c = true := by
    intro c hc
    simp [hl c hc]
  have hx : (fun c => c != ':') ':' = false := by decide
  unfold split_colon
  rw [takeWhile_append_stop l t ':' hp hx, dropWhile_append_stop l t ':' hp hx]
  simp

/-- Leading spaces and tabs are skipped up to a name that holds none. -/
theorem skip_blanks_append (blanks name : List Char)
    (hb : ∀ c ∈ blanks, c = ' ' ∨ c = '\t') (hn : ∀ c ∈ name, c ≠ ' ' ∧ c ≠ '\t') :
    skip_blanks (blanks ++ name) = name := by
  unfold skip_blanks
  rw [dropWhile_append_all blanks name]
  · cases name with
    | nil => rfl
    | cons x r =>
      have hx := hn x (List.mem_cons_self _ _)
      have h32 : x.toNat ≠ 32 := by
        intro h
        apply hx.1
        have := Char.ofNat_toNat x
        rw [h] at this
        exact this.symm
      have h9 : x.toNat ≠ 9 := by
        intro h
        apply hx.2
        have := Char.ofNat_toNat x
        rw [h] at this
        exact this.symm
      rw [List.dropWhile_cons]
      simp [h32, h9]
  · intro c hc
    rcases hb c hc with rfl | rfl <;> decide

theorem net_stats_format :
    parse_format false true
        ("%llu %llu %llu %llu %*u %*u %*u %*u %llu %llu %llu %llu %*u %*u %*u %*u" :
          String).toList
      = scan_directive.conv true 'u'
          :: (unsigned_directives [true, true, true, false, false, false, false, true, true,
                true, true, false, false, false, false] ++ []) := by
  decide

/-- The counters the network reader takes from a text of 16 unsigned fields:
the fields 1 to 4 and 9 to 12. -/
theorem net_counters_fields (rest : List Char)
    (f1 f2 f3 f4 f5 f6 f7 f8 f9 f10 f11 f12 f13 f14 f15 f16 : List Char × List Char)
    (hok : unsigned_fields
      [f1, f2, f3, f4, f5, f6, f7, f8, f9, f10, f11, f12, f13, f14, f15, f16] rest) :
    net_counters
        (fields_text [f1, f2, f3, f4, f5, f6, f7, f8, f9, f10, f11, f12, f13, f14, f15, f16]
          rest)
      = some [unsigned_value false f1.2, unsigned_value false f2.2, unsigned_value false f3.2,
          unsigned_value false f4.2, unsigned_value false f9.2, unsigned_value false f10.2,
          unsigned_value false f11.2, unsigned_value false f12.2] := by
  have hrun := scan_directives_unsigned_fields
    [true, true, true, true, false, false, false, false, true, true, true, true, false, false,
      false, false]
    [f1, f2, f3, f4, f5, f6, f7, f8, f9, f10, f11, f12, f13, f14, f15, f16] rest [] rfl hok
  have hfmt : unsigned_directives [true, true, true, true, false, false, false, false, true,
      true, true, true, false, false, false, false] ++ []
      = scan_directive.space :: scan_directive.conv true 'u'
          :: (unsigned_directives [true, true, true, false, false, false, false, true, true,
                true, true, false, false, false, false] ++ []) := rfl
  rw [hfmt, scan_directives_space_conv true 'u' (Or.inr (Or.inl rfl))] at hrun
  unfold net_counters sscanf
  rw [net_stats_format]
  show (match scan_directives _
      (fields_text [f1, f2, f3, f4, f5, f6, f7, f8, f9, f10, f11, f12, f13, f14, f15, f16]
        rest) with
    | [scan_value.uint c1, scan_value.uint c2, scan_value.uint c3, scan_value.uint c4,
        scan_value.uint c9, scan_value.uint c10, scan_value.uint c11, scan_value.uint c12] =>
      some [c1, c2, c3, c4, c9, c10, c11, c12]
    | _ => none) = _
  rw [hrun]
  simp [assigned_values, scan_directives]

/-- A line of the interface table: spaces and tabs, a name free of colons,
spaces and tabs and shorter than 32 characters, a colon and 16 unsigned
counters. The row read holds the name and the counters 1 to 4 and 9 to 12. -/
theorem net_stats_row_line (blanks name rest : List Char)
    (f1 f2 f3 f4 f5 f6 f7 f8 f9 f10 f11 f12 f13 f14 f15 f16 : List Char × List Char)
    (hb : ∀ c ∈ blanks, c = ' ' ∨ c = '\t')
    (hn : ∀ c ∈ name, c ≠ ':' ∧ c ≠ ' ' ∧ c ≠ '\t') (hlen : name.length < INTERFACE_NAME_SIZE)
    (hok : unsigned_fields
      [f1, f2, f3, f4, f5, f6, f7, f8, f9, f10, f11, f12, f13, f14, f15, f16] rest) :
    net_stats_row (String.mk (blanks ++ (name ++ ':' ::
        fields_text [f1, f2, f3, f4, f5, f6, f7, f8, f9, f10, f11, f12, f13, f14, f15, f16]
          rest)))
      = some { interface_name := String.mk name
               rx_bytes := unsigned_value false f1.2
               rx_packets := unsigned_value false f2.2
               rx_errors := unsigned_value false f3.2
               rx_dropped := unsigned_value false f4.2
               tx_bytes := unsigned_value false f9.2
               tx_packets := unsigned_value false f10.2
               tx_errors := unsigned_value false f11.2
               tx_dropped := unsigned_value false f12.2 } := by
  have hcolon : ∀ c ∈ blanks ++ name, c ≠ ':' := by
    intro c hc
    rcases List.mem_append.1 hc with h | h
    · rcases hb c h with rfl | rfl <;> decide
    · exact (hn c h).1
  have hsplit := split_colon_append (blanks ++ name)
    (fields_text [f1, f2, f3, f4, f5, f6, f7, f8, f9, f10, f11, f12, f13, f14, f15, f16] rest)
    hcolon
  rw [List.append_assoc] at hsplit
  have hskip := skip_blanks_append blanks name hb (fun c hc => (hn c hc).2)
  have hfit : strncpy name (INTERFACE_NAME_SIZE - BUFFER_NULL_TERMINATOR_SPACE) = name :=
    strncpy_of_fit (by
      unfold INTERFACE_NAME_SIZE at hlen
      unfold INTERFACE_NAME_SIZE BUFFER_NULL_TERMINATOR_SPACE
      omega)
  unfold net_stats_row
  show (match split_colon (blanks ++ (name ++ ':' ::
      fields_text [f1, f2, f3, f4, f5, f6, f7, f8, f9, f10, f11, f12, f13, f14, f15, f16]
        rest)) with
    | none => none
    | some (name_part, stats_line) => _) = _
  rw [hsplit]
  simp only []
  rw [net_counters_fields rest f1 f2 f3 f4 f5 f6 f7 f8 f9 f10 f11 f12 f13 f14 f15 f16 hok, hskip,
    hfit]


/-- C24. Network reader: for every interface table and requested name,
`get_network_stats` skips the first two lines and returns the first row whose
name (the text before the colon with leading spaces and tabs removed, as the
32-byte buffer holds it) equals the requested name exactly and that carries the
counters read; it succeeds iff there is such a row and returns the error
otherwise, also when the table cannot be opened. A line `name: c1 ... c16` with
a name shorter than 32 characters reads as the row with that name and
rx bytes / packets / errors / dropped = `c1`, `c2`, `c3`, `c4` and
tx bytes / packets / errors / dropped = `c9`, `c10`, `c11`, `c12`. -/
theorem get_network_stats_exact_row (lines : List String) (interface : String) :
    get_network_stats (some lines) interface
      = ((lines.drop 2).filterMap net_stats_row).find?
          (fun r => decide (r.interface_name = interface)) ∧
    ((get_network_stats (some lines) interface).isSome = true ↔
      ∃ line ∈ lines.drop 2, ∃ r, net_stats_row line = some r ∧ r.interface_name = interface) ∧
    ((∀ line ∈ lines.drop 2, ∀ r, net_stats_row line = some r → r.interface_name ≠ interface) →
      get_network_stats (some lines) interface = none) ∧
    get_network_stats none interface = none ∧
    (∀ (blanks name rest : List Char)
      (f1 f2 f3 f4 f5 f6 f7 f8 f9 f10 f11 f12 f13 f14 f15 f16 : List Char × List Char),
      (∀ c ∈ blanks, c = ' ' ∨ c = '\t') → (∀ c ∈ name, c ≠ ':' ∧ c ≠ ' ' ∧ c ≠ '\t') →
      name.length < INTERFACE_NAME_SIZE →
      unsigned_fields [f1, f2, f3, f4, f5, f6, f7, f8, f9, f10, f11, f12, f13, f14, f15, f16]
        rest →
      net_stats_row (String.mk (blanks ++ (name ++ ':' ::
          fields_text [f1, f2, f3, f4, f5, f6, f7, f8, f9, f10, f11, f12, f13, f14, f15, f16]
            rest)))
        = some { interface_name := String.mk name
                 rx_bytes := unsigned_value false f1.2
                 rx_packets := unsigned_value false f2.2
                 rx_errors := unsigned_value false f3.2
                 rx_dropped := unsigned_value false f4.2
                 tx_bytes := unsigned_value false f9.2
                 tx_packets := unsigned_value false f10.2
                 tx_errors := unsigned_value false f11.2
                 tx_dropped := unsigned_value false f12.2 }) ∧
    get_network_stats (some (net_dev_header ++
        ["    lo: 1000 10 0 0 0 0 0 0 1000 10 0 0 0 0 0 0\n",
         "  eth0:101 102 103 104 105 106 107 108 109 110 111 112 113 114 115 116\n"])) "eth0"
      = some { interface_name := "eth0", rx_bytes := 101, rx_packets := 102, rx_errors := 103,
               rx_dropped := 104, tx_bytes := 109, tx_packets := 110, tx_errors := 111,
               tx_dropped := 112 } ∧
    get_network_stats (some (net_dev_header ++
        ["    lo: 1000 10 0 0 0 0 0 0 1000 10 0 0 0 0 0 0\n",
         "  eth0:101 102 103 104 105 106 107 108 109 110 111 112 113 114 115 116\n"])) "eth"
      = none ∧
    get_network_stats (some
        ["  eth0: 101 102 103 104 105 106 107 108 109 110 111 112 113 114 115 116\n",
         "  eth0: 101 102 103 104 105 106 107 108 109 110 111 112 113 114 115 116\n"]) "eth0"
      = none := by
  have hmain : get_network_stats (some lines) interface
      = ((lines.drop 2).filterMap net_stats_row).find?
          (fun r => decide (r.interface_name = interface)) :=
    get_network_stats_scan_eq_find interface (lines.drop 2)
  have hiff : (get_network_stats (some lines) interface).isSome = true ↔
      ∃ line ∈ lines.drop 2, ∃ r, net_stats_row line = some r ∧ r.interface_name = interface := by
    rw [hmain, List.find?_isSome]
    constructor
    · rintro ⟨r, hr, hd⟩
      obtain ⟨line, hl, hrow⟩ := List.mem_filterMap.1 hr
      exact ⟨line, hl, r, hrow, of_decide_eq_true hd⟩
    · rintro ⟨line, hl, r, hrow, hd⟩
      exact ⟨r, List.mem_filterMap.2 ⟨line, hl, hrow⟩, decide_eq_true hd⟩
  refine ⟨hmain, hiff, ?_, rfl, ?_, by decide, by decide, by decide⟩
  · intro hnone
    cases hres : get_network_stats (some lines) interface with
    | none => rfl
    | some stats =>
      have hs : (get_network_stats (some lines) interface).isSome = true := by rw [hres]; rfl
      obtain ⟨line, hl, r, hrow, hd⟩ := hiff.1 hs
      exact absurd hd (hnone line hl r hrow)
  · intro blanks name rest f1 f2 f3 f4 f5 f6 f7 f8 f9 f10 f11 f12 f13 f14 f15 f16 hb hn hlen hok
    exact net_stats_row_line blanks name rest f1 f2 f3 f4 f5 f6 f7 f8 f9 f10 f11 f12 f13 f14 f15
      f16 hb hn hlen hok

theorem get_network_stats_exact_row_witness :
    (∀ line ∈ (net_dev_header ++
        ["    lo: 1000 10 0 0 0 0 0 0 1000 10 0 0 0 0 0 0\n"]).drop 2,
      ∀ r, net_stats_row line = some r → r.interface_name ≠ "eth0") ∧
    get_network_stats (some (net_dev_header ++
        ["    lo: 1000 10 0 0 0 0 0 0 1000 10 0 0 0 0 0 0\n"])) "eth0" = none :=
  ⟨by
    intro line hl r hr
    have hline : line = "    lo: 1000 10 0 0 0 0 0 0 1000 10 0 0 0 0 0 0\n" := by
      simpa [net_dev_header] using hl
    subst hline
    have hrow : net_stats_row "    lo: 1000 10 0 0 0 0 0 0 1000 10 0 0 0 0 0 0\n"
        = some { interface_name := "lo", rx_bytes := 1000, rx_packets := 10, rx_errors := 0,
                 rx_dropped := 0, tx_bytes := 1000, tx_packets := 10, tx_errors := 0,
                 tx_dropped := 0 } := by decide
    rw [hrow] at hr
    rw [← Option.some.inj hr]
    decide,
   (get_network_stats_exact_row (net_dev_header ++
      ["    lo: 1000 10 0 0 0 0 0 0 1000 10 0 0 0 0 0 0\n"]) "eth0").2.2.1 (by
    intro line hl r hr
    have hline : line = "    lo: 1000 10 0 0 0 0 0 0 1000 10 0 0 0 0 0 0\n" := by
      simpa [net_dev_header] using hl
    subst hline
    have hrow : net_stats_row "    lo: 1000 10 0 0 0 0 0 0 1000 10 0 0 0 0 0 0\n"
        = some { interface_name := "lo", rx_bytes := 1000, rx_packets := 10, rx_errors := 0,
                 rx_dropped := 0, tx_bytes := 1000, tx_packets := 10, tx_errors := 0,
                 tx_dropped := 0 } := by decide
    rw [hrow] at hr
    rw [← Option.some.inj hr]
    decide)⟩


/-! ## Context reader: labelled lines -/

/-- One iteration of the loop of `get_context_stats`, in terms of the labelled
line read. -/
theorem get_context_stats_scan_cons (stats : context_stats_t) (found_fields : Nat)
    (line : String) (rest : List String) :
    get_context_stats_scan stats found_fields (line :: rest)
      = if found_fields ≥ MAX_EXPECTED_CONTEXT_FIELDS then (stats, found_fields)
        else
          match context_line line with
          | some f => get_context_stats_scan (set_context_field stats f) (found_fields + 1) rest
          | none => get_context_stats_scan stats found_fields rest := by
  rw [get_context_stats_scan]
  by_cases hfound : found_fields ≥ MAX_EXPECTED_CONTEXT_FIELDS
  · rw [if_pos hfound, if_pos hfound]
  · rw [if_neg hfound, if_neg hfound]
    split
    · rename_i v h
      have hr : context_line line = some (context_field.ctxt, v) := by
        unfold context_line
        rw [h]
      rw [hr]
      rfl
    · rename_i h
      split
      · rename_i v h2
        have hr : context_line line = some (context_field.processes, v) := by
          unfold context_line
          simp only [h2]
        rw [hr]
        rfl
      · rename_i h2
        have hr : context_line line
            = if starts_with line.toList "intr " then
                match field_after INTR_PREFIX_LENGTH line.toList with
                | some text => some (context_field.intr, strtoull text)
                | none => none
              else if starts_with line.toList "softirq " then
                match field_after SOFTIRQ_PREFIX_LENGTH line.toList with
                | some text => some (context_field.softirq, strtoull text)
                | none => none
              else none := by
          unfold context_line
          split
          · rename_i w h3
            exact absurd h3 (h w)
          · split
            · rename_i w h4
              exact absurd h4 (h2 w)
            · rfl
        rw [hr]
        by_cases hi : starts_with line.toList "intr " = true
        · simp only [hi, if_true]
          cases field_after INTR_PREFIX_LENGTH line.toList with
          | none => rfl
          | some text => rfl
        · by_cases hs : starts_with line.toList "softirq " = true
          · simp only [hi, hs, if_true]
            cases field_after SOFTIRQ_PREFIX_LENGTH line.toList with
            | none => rfl
            | some text => rfl
          · simp only [hi, hs]
            rfl

/-- The loop of `get_context_stats` takes the labelled lines in table order
until `found_fields` reaches 4. -/
theorem get_context_stats_scan_eq_foldl (lines : List String) (stats : context_stats_t)
    (found_fields : Nat) (hfound : found_fields ≤ MAX_EXPECTED_CONTEXT_FIELDS) :
    get_context_stats_scan stats found_fields lines
      = (((lines.filterMap context_line).take
            (MAX_EXPECTED_CONTEXT_FIELDS - found_fields)).foldl set_context_field stats,
         found_fields
          + ((lines.filterMap context_line).take
              (MAX_EXPECTED_CONTEXT_FIELDS - found_fields)).length) := by
  induction lines generalizing stats found_fields with
  | nil => simp [get_context_stats_scan]
  | cons line rest ih =>
    rw [get_context_stats_scan_cons]
    by_cases hge : found_fields ≥ MAX_EXPECTED_CONTEXT_FIELDS
    · rw [if_pos hge]
      have hz : MAX_EXPECTED_CONTEXT_FIELDS - found_fields = 0 := by omega
      rw [hz]
      simp
    · rw [if_neg hge]
      cases hr : context_line line with
      | none =>
        rw [List.filterMap_cons_none hr]
        exact ih stats found_fields hfound
      | some f =>
        rw [List.filterMap_cons_some hr]
        have hs : MAX_EXPECTED_CONTEXT_FIELDS - found_fields
            = (MAX_EXPECTED_CONTEXT_FIELDS - (found_fields + 1)) + 1 := by omega
        simp only []
        rw [ih (set_context_field stats f) (found_fields + 1) (by omega), hs, List.take_succ_cons,
          List.foldl_cons, List.length_cons]
        congr 1
        omega

/-- The result of `get_context_stats` on a readable table: the loop takes the
first 4 labelled lines; with less than 2 of them the function fails. -/
theorem get_context_stats_eq (lines : List String) :
    get_context_stats (some lines)
      = if ((lines.filterMap context_line).take 4).length < 2 then none
        else some (((lines.filterMap context_line).take 4).foldl set_context_field
          context_stats_zero) := by
  unfold get_context_stats
  simp only []
  rw [get_context_stats_scan_eq_foldl lines context_stats_zero 0 (by decide)]
  simp only [MAX_EXPECTED_CONTEXT_FIELDS, MIN_REQUIRED_CONTEXT_FIELDS, Nat.sub_zero,
    Nat.zero_add]

/-- Every labelled line has one of the four labels. -/
theorem length_eq_field_values (fs : List (context_field × Nat)) :
    fs.length = (field_values context_field.ctxt fs).length
      + (field_values context_field.processes fs).length
      + (field_values context_field.intr fs).length
      + (field_values context_field.softirq fs).length := by
  induction fs with
  | nil => rfl
  | cons p r ih =>
    obtain ⟨f, v⟩ := p
    cases f <;> simp [field_values] at ih ⊢ <;> omega

/-- Each counter holds the number of the last labelled line of its kind. -/
theorem foldl_set_context_field (fs : List (context_field × Nat)) (stats : context_stats_t) :
    fs.foldl set_context_field stats
      = { context_switches :=
            (field_values context_field.ctxt fs).getLast?.getD stats.context_switches
          processes_created :=
            (field_values context_field.processes fs).getLast?.getD stats.processes_created
          interrupts := (field_values context_field.intr fs).getLast?.getD stats.interrupts
          soft_interrupts :=
            (field_values context_field.softirq fs).getLast?.getD stats.soft_interrupts } := by
  induction fs generalizing stats with
  | nil => rfl
  | cons p r ih =>
    obtain ⟨f, v⟩ := p
    rw [List.foldl_cons, ih]
    cases f <;>
      simp [field_values, set_context_field, List.getLast?_cons]


/-! ## Context reader: text of the labelled lines -/

theorem ctxt_format :
    parse_format false true ("ctxt %llu" : String).toList
      = (("ctxt" : String).toList.map scan_directive.lit
          ++ scan_directive.space :: scan_directive.conv true 'u' :: []) := by
  decide

theorem processes_format :
    parse_format false true ("processes %llu" : String).toList
      = (("processes" : String).toList.map scan_directive.lit
          ++ scan_directive.space :: scan_directive.conv true 'u' :: []) := by
  decide

/-- A line that does not start with `c` is no `ctxt` line. -/
theorem sscanf_ctxt_mismatch (x : Char) (r : List Char) (hx : x ≠ 'c') :
    sscanf (String.mk (x :: r)) "ctxt %llu" = [] := by
  unfold sscanf
  rw [ctxt_format]
  show scan_directives (scan_directive.lit 'c' :: _) (x :: r) = []
  simp [scan_directives, hx]

/-- A line that does not start with `p` is no `processes` line. -/
theorem sscanf_processes_mismatch (x : Char) (r : List Char) (hx : x ≠ 'p') :
    sscanf (String.mk (x :: r)) "processes %llu" = [] := by
  unfold sscanf
  rw [processes_format]
  show scan_directives (scan_directive.lit 'p' :: _) (x :: r) = []
  simp [scan_directives, hx]

/-- A line `ctxt`, white space, digits, then a character that is no digit
(the end of the line) is a `ctxt` line with the value of the digits. -/
theorem context_line_ctxt (ws ds t : List Char) (x : Char)
    (hws : ∀ c ∈ ws, isspace c = true) (hne : ds ≠ []) (hd : ∀ c ∈ ds, isdigit c = true)
    (hx : isdigit x = false) :
    context_line (String.mk (("ctxt" : String).toList ++ (ws ++ (ds ++ x :: t))))
      = some (context_field.ctxt, unsigned_value false ds) := by
  have h : sscanf (String.mk (("ctxt" : String).toList ++ (ws ++ (ds ++ x :: t)))) "ctxt %llu"
      = [scan_value.uint (unsigned_value false ds)] := by
    unfold sscanf
    rw [ctxt_format]
    exact scan_labelled_value ("ctxt" : String).toList ws ds t x [] hws hne hd hx
      (fun d hdm => absurd hdm (List.not_mem_nil _))
  unfold context_line
  rw [h]

/-- A line `processes`, white space, digits, then a character that is no digit
is a `processes` line with the value of the digits. -/
theorem context_line_processes (ws ds t : List Char) (x : Char)
    (hws : ∀ c ∈ ws, isspace c = true) (hne : ds ≠ []) (hd : ∀ c ∈ ds, isdigit c = true)
    (hx : isdigit x = false) :
    context_line (String.mk (("processes" : String).toList ++ (ws ++ (ds ++ x :: t))))
      = some (context_field.processes, unsigned_value false ds) := by
  have h0 : sscanf (String.mk (("processes" : String).toList ++ (ws ++ (ds ++ x :: t))))
      "ctxt %llu" = [] :=
    sscanf_ctxt_mismatch 'p' _ (by decide)
  have h : sscanf (String.mk (("processes" : String).toList ++ (ws ++ (ds ++ x :: t))))
      "processes %llu" = [scan_value.uint (unsigned_value false ds)] := by
    unfold sscanf
    rw [processes_format]
    exact scan_labelled_value ("processes" : String).toList ws ds t x [] hws hne hd hx
      (fun d hdm => absurd hdm (List.not_mem_nil _))
  unfold context_line
  rw [h0, h]

theorem not_blank_of_isdigit {c : Char} (h : isdigit c = true) : (c != ' ') = true := by
  have hsp := isspace_of_isdigit h
  cases hc : (c != ' ') with
  | true => rfl
  | false =>
    have : c = ' ' := by simpa using hc
    rw [this] at hsp
    exact absurd hsp (by decide)

/-- A line that is neither a `ctxt` nor a `processes` line is read by its
prefix. -/
theorem context_line_after_mismatch (l : List Char) (h0 : sscanf (String.mk l) "ctxt %llu" = [])
    (h1 : sscanf (String.mk l) "processes %llu" = []) :
    context_line (String.mk l)
      = if starts_with l "intr " = true then
          match field_after INTR_PREFIX_LENGTH l with
          | some text => some (context_field.intr, strtoull text)
          | none => none
        else if starts_with l "softirq " = true then
          match field_after SOFTIRQ_PREFIX_LENGTH l with
          | some text => some (context_field.softirq, strtoull text)
          | none => none
        else none := by
  unfold context_line
  rw [h0, h1]
  rfl

/-- A line `intr `, digits, a space and more text is an `intr` line with the
value of the digits. -/
theorem context_line_intr (ds more : List Char) (hne : ds ≠ [])
    (hd : ∀ c ∈ ds, isdigit c = true) :
    context_line (String.mk (("intr " : String).toList ++ (ds ++ ' ' :: more)))
      = some (context_field.intr, unsigned_value false ds) := by
  have h0 : sscanf (String.mk (("intr " : String).toList ++ (ds ++ ' ' :: more)))
      "ctxt %llu" = [] :=
    sscanf_ctxt_mismatch 'i' _ (by decide)
  have h1 : sscanf (String.mk (("intr " : String).toList ++ (ds ++ ' ' :: more)))
      "processes %llu" = [] :=
    sscanf_processes_mismatch 'i' _ (by decide)
  have hsw : starts_with (("intr " : String).toList ++ (ds ++ ' ' :: more)) "intr " = true := by
    unfold starts_with
    exact List.isPrefixOf_iff_prefix.2 (List.prefix_append _ _)
  have hp : ∀ c ∈ ds, (fun c => c != ' ') c = true := fun c hc => not_blank_of_isdigit (hd c hc)
  have hfa : field_after INTR_PREFIX_LENGTH
      (("intr " : String).toList ++ (ds ++ ' ' :: more)) = some ds := by
    unfold field_after
    have hdrop : List.drop INTR_PREFIX_LENGTH
        (("intr " : String).toList ++ (ds ++ ' ' :: more)) = ds ++ ' ' :: more := rfl
    rw [hdrop, takeWhile_append_stop ds more ' ' hp (by decide)]
    simp
  rw [context_line_after_mismatch _ h0 h1, if_pos hsw, hfa]
  show some (context_field.intr, strtoull ds) = _
  rw [strtoull_digits ds hne hd]

/-- A line `softirq `, digits, a space and more text is a `softirq` line with
the value of the digits. -/
theorem context_line_softirq (ds more : List Char) (hne : ds ≠ [])
    (hd : ∀ c ∈ ds, isdigit c = true) :
    context_line (String.mk (("softirq " : String).toList ++ (ds ++ ' ' :: more)))
      = some (context_field.softirq, unsigned_value false ds) := by
  have h0 : sscanf (String.mk (("softirq " : String).toList ++ (ds ++ ' ' :: more)))
      "ctxt %llu" = [] :=
    sscanf_ctxt_mismatch 's' _ (by decide)
  have h1 : sscanf (String.mk (("softirq " : String).toList ++ (ds ++ ' ' :: more)))
      "processes %llu" = [] :=
    sscanf_processes_mismatch 's' _ (by decide)
  have hsi : starts_with (("softirq " : String).toList ++ (ds ++ ' ' :: more)) "intr "
      = false := rfl
  have hsw : starts_with (("softirq " : String).toList ++ (ds ++ ' ' :: more)) "softirq "
      = true := by
    unfold starts_with
    exact List.isPrefixOf_iff_prefix.2 (List.prefix_append _ _)
  have hp : ∀ c ∈ ds, (fun c => c != ' ') c = true := fun c hc => not_blank_of_isdigit (hd c hc)
  have hfa : field_after SOFTIRQ_PREFIX_LENGTH
      (("softirq " : String).toList ++ (ds ++ ' ' :: more)) = some ds := by
    unfold field_after
    have hdrop : List.drop SOFTIRQ_PREFIX_LENGTH
        (("softirq " : String).toList ++ (ds ++ ' ' :: more)) = ds ++ ' ' :: more := rfl
    rw [hdrop, takeWhile_append_stop ds more ' ' hp (by decide)]
    simp
  rw [context_line_after_mismatch _ h0 h1, hsi, if_neg (by decide), if_pos hsw, hfa]
  show some (context_field.softirq, strtoull ds) = _
  rw [strtoull_digits ds hne hd]

/-- An `intr` value comes from a line that starts with `intr `, a `softirq`
value from a line that starts with `softirq `. -/
theorem context_line_starts_with (line : String) (v : Nat) :
    (context_line line = some (context_field.intr, v) →
      starts_with line.toList "intr " = true) ∧
    (context_line line = some (context_field.softirq, v) →
      starts_with line.toList "softirq " = true) := by
  constructor
  · intro h
    unfold context_line at h
    split at h
    · exact absurd (Option.some.inj h) (by simp)
    · split at h
      · exact absurd (Option.some.inj h) (by simp)
      · by_cases hi : starts_with line.toList "intr " = true
        · exact hi
        · rw [if_neg hi] at h
          split at h
          · split at h
            · exact absurd (Option.some.inj h) (by simp)
            · exact absurd h (by simp)
          · exact absurd h (by simp)
  · intro h
    unfold context_line at h
    split at h
    · exact absurd (Option.some.inj h) (by simp)
    · split at h
      · exact absurd (Option.some.inj h) (by simp)
      · split at h
        · split at h
          · exact absurd (Option.some.inj h) (by simp)
          · exact absurd h (by simp)
        · by_cases hs : starts_with line.toList "softirq " = true
          · exact hs
          · rw [if_neg hs] at h
            exact absurd h (by simp)

/-- A table without a line of a label has no value for it. -/
theorem context_values_nil_of_no_line (lines : List String) :
    ((∀ line ∈ lines, starts_with line.toList "intr " = false) →
      context_values context_field.intr lines = []) ∧
    ((∀ line ∈ lines, starts_with line.toList "softirq " = false) →
      context_values context_field.softirq lines = []) := by
  constructor
  · intro hno
    unfold context_values field_values
    rw [List.filterMap_eq_nil_iff]
    intro p hp
    obtain ⟨line, hl, hrow⟩ := List.mem_filterMap.1 hp
    obtain ⟨f, v⟩ := p
    by_cases hf : f = context_field.intr
    · subst hf
      have := (context_line_starts_with line v).1 hrow
      rw [hno line hl] at this
      exact absurd this (by decide)
    · simp [hf]
  · intro hno
    unfold context_values field_values
    rw [List.filterMap_eq_nil_iff]
    intro p hp
    obtain ⟨line, hl, hrow⟩ := List.mem_filterMap.1 hp
    obtain ⟨f, v⟩ := p
    by_cases hf : f = context_field.softirq
    · subst hf
      have := (context_line_starts_with line v).2 hrow
      rw [hno line hl] at this
      exact absurd this (by decide)
    · simp [hf]


/-! ## Context reader: partial success -/

/-- The counters of a table with one `ctxt` line, one `processes` line and at
most one `intr` and one `softirq` line. -/
theorem get_context_stats_of_single_lines (lines : List String) (C P : Nat)
    (hc : context_values context_field.ctxt lines = [C])
    (hp : context_values context_field.processes lines = [P])
    (hi : (context_values context_field.intr lines).length ≤ 1)
    (hs : (context_values context_field.softirq lines).length ≤ 1) :
    get_context_stats (some lines)
      = some { context_switches := C
               processes_created := P
               interrupts := (context_values context_field.intr lines).head?.getD 0
               soft_interrupts := (context_values context_field.softirq lines).head?.getD 0 } := by
  rw [get_context_stats_eq]
  unfold context_values at hc hp hi hs ⊢
  generalize lines.filterMap context_line = fs at hc hp hi hs ⊢
  have hlen := length_eq_field_values fs
  rw [hc, hp] at hlen
  simp only [List.length_singleton] at hlen
  have htake : fs.take 4 = fs := List.take_of_length_le (by omega)
  have hlast : ∀ l : List Nat, l.length ≤ 1 → l.getLast?.getD 0 = l.head?.getD 0 := by
    intro l hl
    rcases l with _ | ⟨a, _ | ⟨b, t⟩⟩
    · rfl
    · rfl
    · simp at hl
  rw [htake, if_neg (by omega), foldl_set_context_field, hc, hp]
  simp only [context_stats_zero, NO_BYTES, NO_PROCESSES, List.getLast?_singleton,
    Option.getD_some, hlast _ hi, hlast _ hs]

/-- C21. Context reader partial success: for every stat table with one
`ctxt` line, of value `C`, and one `processes` line, of value `P` (and at most
one `intr ` and one `softirq ` line, as the stat table has), `get_context_stats`
succeeds with `context_switches = C` and `processes_created = P`;
`interrupts` and `soft_interrupts` are 0 when the table has no `intr ` /
`softirq ` line, and the value of that line otherwise. A line `ctxt <uint>` /
`processes <uint>` has the value of the number, a line
`intr <uint> <more counts...>` / `softirq <uint> <more counts...>` the value of
the first number after the prefix. -/
theorem get_context_stats_partial_success :
    (∀ (lines : List String) (C P : Nat),
      context_values context_field.ctxt lines = [C] →
      context_values context_field.processes lines = [P] →
      (context_values context_field.intr lines).length ≤ 1 →
      (context_values context_field.softirq lines).length ≤ 1 →
      get_context_stats (some lines)
        = some { context_switches := C
                 processes_created := P
                 interrupts := (context_values context_field.intr lines).head?.getD 0
                 soft_interrupts :=
                   (context_values context_field.softirq lines).head?.getD 0 }) ∧
    (∀ lines : List String, (∀ line ∈ lines, starts_with line.toList "intr " = false) →
      context_values context_field.intr lines = []) ∧
    (∀ lines : List String, (∀ line ∈ lines, starts_with line.toList "softirq " = false) →
      context_values context_field.softirq lines = []) ∧
    (∀ (lines : List String) (C P : Nat),
      context_values context_field.ctxt lines = [C] →
      context_values context_field.processes lines = [P] →
      (∀ line ∈ lines, starts_with line.toList "intr " = false) →
      (∀ line ∈ lines, starts_with line.toList "softirq " = false) →
      get_context_stats (some lines)
        = some { context_switches := C, processes_created := P, interrupts := 0,
                 soft_interrupts := 0 }) ∧
    (∀ (ws ds t : List Char) (x : Char), (∀ c ∈ ws, isspace c = true) → ds ≠ [] →
      (∀ c ∈ ds, isdigit c = true) → isdigit x = false →
      context_line (String.mk (("ctxt" : String).toList ++ (ws ++ (ds ++ x :: t))))
        = some (context_field.ctxt, unsigned_value false ds) ∧
      context_line (String.mk (("processes" : String).toList ++ (ws ++ (ds ++ x :: t))))
        = some (context_field.processes, unsigned_value false ds)) ∧
    (∀ (ds more : List Char), ds ≠ [] → (∀ c ∈ ds, isdigit c = true) →
      context_line (String.mk (("intr " : String).toList ++ (ds ++ ' ' :: more)))
        = some (context_field.intr, unsigned_value false ds) ∧
      context_line (String.mk (("softirq " : String).toList ++ (ds ++ ' ' :: more)))
        = some (context_field.softirq, unsigned_value false ds)) ∧
    get_context_stats (some ["cpu  10 0 5 80 5 0 0 0 0 0\n", "intr 100 1 2 3\n",
        "ctxt 12345\n", "btime 1700000000\n", "processes 678\n", "procs_running 2\n",
        "softirq 77 1 2\n"])
      = some { context_switches := 12345, processes_created := 678, interrupts := 100,
               soft_interrupts := 77 } ∧
    get_context_stats (some ["cpu  10 0 5 80 5 0 0 0 0 0\n", "ctxt 12345\n",
        "btime 1700000000\n", "processes 678\n", "procs_running 2\n"])
      = some { context_switches := 12345, processes_created := 678, interrupts := 0,
               soft_interrupts := 0 } := by
  refine ⟨get_context_stats_of_single_lines,
    fun lines => (context_values_nil_of_no_line lines).1,
    fun lines => (context_values_nil_of_no_line lines).2, ?_, ?_, ?_, by decide, by decide⟩
  · intro lines C P hc hp hi hs
    have h1 := (context_values_nil_of_no_line lines).1 hi
    have h2 := (context_values_nil_of_no_line lines).2 hs
    have h := get_context_stats_of_single_lines lines C P hc hp (by rw [h1]; simp)
      (by rw [h2]; simp)
    rw [h1, h2] at h
    exact h
  · intro ws ds t x hws hne hd hx
    exact ⟨context_line_ctxt ws ds t x hws hne hd hx,
      context_line_processes ws ds t x hws hne hd hx⟩
  · intro ds more hne hd
    exact ⟨context_line_intr ds more hne hd, context_line_softirq ds more hne hd⟩

theorem get_context_stats_partial_success_witness :
    context_values context_field.ctxt
        ["cpu  10 0 5 80 5 0 0 0 0 0\n", "intr 100 1 2 3\n", "ctxt 12345\n",
          "processes 678\n", "procs_running 2\n"] = [12345] ∧
    context_values context_field.processes
        ["cpu  10 0 5 80 5 0 0 0 0 0\n", "intr 100 1 2 3\n", "ctxt 12345\n",
          "processes 678\n", "procs_running 2\n"] = [678] ∧
    get_context_stats (some ["cpu  10 0 5 80 5 0 0 0 0 0\n", "intr 100 1 2 3\n",
        "ctxt 12345\n", "processes 678\n", "procs_running 2\n"])
      = some { context_switches := 12345
               processes_created := 678
               interrupts :=
                 (context_values context_field.intr
                   ["cpu  10 0 5 80 5 0 0 0 0 0\n", "intr 100 1 2 3\n", "ctxt 12345\n",
                     "processes 678\n", "procs_running 2\n"]).head?.getD 0
               soft_interrupts :=
                 (context_values context_field.softirq
                   ["cpu  10 0 5 80 5 0 0 0 0 0\n", "intr 100 1 2 3\n", "ctxt 12345\n",
                     "processes 678\n", "procs_running 2\n"]).head?.getD 0 } :=
  ⟨by decide, by decide,
   get_context_stats_partial_success.1
    ["cpu  10 0 5 80 5 0 0 0 0 0\n", "intr 100 1 2 3\n", "ctxt 12345\n", "processes 678\n",
      "procs_running 2\n"] 12345 678 (by decide) (by decide) (by decide) (by decide)⟩

end SystemMonitor
